import Mathlib

/-!
# Quiz server (`src/main.cpp`): embedding and verified properties

The single-session quiz server is embedded as pure functions on an explicit `Game` record.

Modelling conventions
* `int` and `long long` values are integers (`Int`).  Every explicit conversion to `int`
  in the source (`(int)x`, and reading a JSON integer into an `int`) is the 32-bit
  two's-complement wrap `toInt32`.  Signed arithmetic is exact: an execution in which a signed
  addition or subtraction overflows has undefined behaviour in C++ and is outside the model.
* `std::map<int, Player>` is a list of `(key, record)` pairs kept in ascending key order by
  `mapInsert`; iteration is list order.
* `nowMs()` and `rand()` are inputs of the functions that call them.
* `sendJson` / `broadcast` produce a list of `(socket, message)` pairs instead of writing to
  sockets; every handler returns the new `Game` together with what it sent.
* `std::sort` fixes its result only up to the order of equivalent elements, so the sorting
  function is a parameter (`stdSort`) of everything that reaches `jsonFinal`.  Where the order
  of equivalent elements matters, the parameter is `std_sort`, the routine of GNU libstdc++
  (`bits/stl_algo.h`, `bits/stl_heap.h`) transcribed function by function.
-/

namespace Kahoot

/-! ## Machine integers -/

/-- Conversion of an integer to the 32-bit `int` type, as done by `(int)x`. -/
def toInt32 (x : Int) : Int := (x + 2147483648) % 4294967296 - 2147483648

/-- The `(int)v.size()` of a container. -/
def intSize {α : Type} (xs : List α) : Int := toInt32 (xs.length : Int)

/-! ## Data model -/

structure Player where
  id : Int
  name : String
  totalScore : Int
  isHost : Bool
  answered : Bool
  socketFd : Int
deriving DecidableEq

structure Question where
  id : Int
  text : String
  answers : List String
  correct : Int
  timeLimitMs : Int
deriving DecidableEq

structure Answer where
  playerId : Int
  answerIndex : Int
  receiveTimeMs : Int
deriving DecidableEq

inductive GameState where
  | NO_GAME
  | SETUP
  | LOBBY
  | QUESTION_ACTIVE
  | QUESTION_RESULTS
  | FINISHED
deriving DecidableEq

/-- The `std::map<int, Player>`: entries in iteration order. -/
abbrev PlayerMap := List (Int × Player)

structure Game where
  roomCode : String := ""
  state : GameState := GameState.NO_GAME
  players : PlayerMap := []
  questions : List Question := []
  nextPlayerId : Int := 1
  currentQuestionIndex : Int := -1
  questionStartTime : Int := 0
  answers : List Answer := []
deriving DecidableEq

/-- The `Game game;` that `main` starts from. -/
def initGame : Game := {}

/-! ## `std::map` operations -/

/-- A value-initialised `Player`, which `operator[]` stores under a missing key. -/
def Player.zero : Player :=
  { id := 0, name := "", totalScore := 0, isHost := false, answered := false, socketFd := 0 }

/-- Lookup of a key (`find` / `at`). -/
def mapFind (m : PlayerMap) (k : Int) : Option Player :=
  match m with
  | [] => none
  | (k', p) :: rest => if k' = k then some p else mapFind rest k

/-- Store `p` under `k`: overwrite the entry when the key is present, otherwise insert it
in key order. -/
def mapInsert (m : PlayerMap) (k : Int) (p : Player) : PlayerMap :=
  match m with
  | [] => [(k, p)]
  | (k', p') :: rest =>
    if k' = k then (k, p) :: rest
    else if k < k' then (k, p) :: (k', p') :: rest
    else (k', p') :: mapInsert rest k p

/-- The `m[k]` of the source: the record under `k`, after inserting a value-initialised
record when the key is missing.  Returns the map as well, since it may have grown. -/
def mapIndex (m : PlayerMap) (k : Int) : PlayerMap × Player :=
  match mapFind m k with
  | some p => (m, p)
  | none => (mapInsert m k Player.zero, Player.zero)

/-! ## Messages -/

/-- A decoded inbound JSON object: the fields the handlers read, each possibly absent. -/
structure Msg where
  name : Option String := none
  room : Option String := none
  question_id : Option Int := none
  answer : Option Int := none
  text : Option String := none
  answers : Option (List String) := none
  correct : Option Int := none
  time_limit_ms : Option Int := none

/-- The `msg.value(key, dflt)` read into an `int`: the default when the key is absent,
otherwise the JSON integer converted to `int`. -/
def msgInt (v : Option Int) (dflt : Int) : Int :=
  match v with
  | some x => toInt32 x
  | none => dflt

/-- One entry of the `results` array of `question_results`. -/
structure ResultItem where
  name : String
  points : Int
  total : Int
deriving DecidableEq

/-- One entry of the `ranking` array of `final_results`. -/
structure RankItem where
  name : String
  total : Int
deriving DecidableEq

/-- The outbound JSON messages. -/
inductive Reply where
  | error (error : String)
  | create_ok (room : String) (id : Int)
  | add_question_ok (question_id : Int)
  | lobby_open (room : String)
  | join_ok (id : Int) (host : Bool)
  | lobby_update (players : List String) (room : String)
  | question (question_id : Int) (text : String) (answers : List String) (time_limit_ms : Int)
  | question_results (correct : Int) (results : List ResultItem)
  | final_results (ranking : List RankItem)
deriving DecidableEq

/-- A message written to a socket. -/
abbrev Out := Int × Reply

def findPlayerIdByFd (game : Game) (fd : Int) : Int :=
  match game.players.find? (fun p => p.2.socketFd = fd) with
  | some p => p.1
  | none => -1

def sendJson (client : Int) (j : Reply) : List Out := [(client, j)]

def broadcast (game : Game) (j : Reply) : List Out :=
  game.players.map (fun p => (p.2.socketFd, j))

/-! ## Message builders -/

def jsonLobby (game : Game) : Reply :=
  Reply.lobby_update
    ((game.players.filter (fun p => !p.2.isHost)).map (fun p => p.2.name)) game.roomCode

def jsonQuestion (q : Question) : Reply :=
  Reply.question q.id q.text q.answers q.timeLimitMs

/-- The loop of `jsonQuestionResults`; `none` when `players.at` throws. -/
def resultItems (game : Game) (q : Question) : List Answer → Option (List ResultItem)
  | [] => some []
  | a :: rest =>
    match mapFind game.players a.playerId with
    | none => none
    | some player =>
      let points : Int :=
        if a.answerIndex = q.correct then
          max 0 (1000 - toInt32 (Int.tdiv (a.receiveTimeMs - game.questionStartTime) 10))
        else 0
      match resultItems game q rest with
      | none => none
      | some items => some ({ name := player.name, points := points, total := player.totalScore } :: items)

def jsonQuestionResults (game : Game) (q : Question) : Option Reply :=
  match resultItems game q game.answers with
  | none => none
  | some res => some (Reply.question_results q.correct res)

/-- The comparator passed to `std::sort` in `jsonFinal`. -/
def rankBefore (a b : Player) : Bool := decide (a.totalScore > b.totalScore)

def jsonFinal (stdSort : List Player → List Player) (game : Game) : Reply :=
  let ranking := (game.players.filter (fun p => !p.2.isHost)).map (fun p => p.2)
  Reply.final_results ((stdSort ranking).map (fun p => { name := p.name, total := p.totalScore }))

/-! ## Session operations -/

/-- The decimal rendering `to_string(code)` of a non-negative value. -/
def to_string (n : Nat) : String := Nat.repr n

/-- The room code for the value `rnd` returned by `rand()` (non-negative). -/
def generateRoomCode (rnd : Nat) : String := to_string (1000 + rnd % 9000)

def resetAll (game : Game) : Game :=
  { game with
    roomCode := "", state := GameState.NO_GAME, players := [], questions := [], answers := [],
    nextPlayerId := 1, currentQuestionIndex := -1, questionStartTime := 0 }

def scoreAnswers (game : Game) (q : Question) : Game :=
  { game with
    players := game.answers.foldl (fun m a =>
      let r := mapIndex m a.playerId
      if a.answerIndex = q.correct then
        let delta := a.receiveTimeMs - game.questionStartTime
        let points := max 0 (1000 - toInt32 (Int.tdiv delta 10))
        mapInsert r.1 a.playerId { r.2 with totalScore := r.2.totalScore + points }
      else r.1) game.players }

def resetAnswerFlags (game : Game) : Game :=
  { game with players := game.players.map (fun p => (p.1, { p.2 with answered := false })) }

/-- The element `questions[i]`, when `i` is an index of the vector. -/
def questionAt (questions : List Question) (i : Int) : Option Question :=
  if 0 ≤ i then questions[i.toNat]? else none

/-- Start of the next question.  `questions[currentQuestionIndex]` is read only to build the
broadcast; for an index below 0 (undefined behaviour in the source, excluded in every
reachable state) nothing is sent. -/
def startQuestion (game : Game) (now : Int) : Game × List Out :=
  if game.currentQuestionIndex + 1 ≥ intSize game.questions then (game, [])
  else
    let g1 := { game with currentQuestionIndex := game.currentQuestionIndex + 1 }
    let g2 := { g1 with answers := [] }
    let g3 := resetAnswerFlags g2
    let g4 := { g3 with questionStartTime := now }
    let g5 := { g4 with state := GameState.QUESTION_ACTIVE }
    match questionAt g5.questions g5.currentQuestionIndex with
    | some q => (g5, broadcast g5 (jsonQuestion q))
    | none => (g5, [])

def finishGame (stdSort : List Player → List Player) (game : Game) : Game × List Out :=
  let g1 := { game with state := GameState.FINISHED }
  (g1, broadcast g1 (jsonFinal stdSort g1))

def resetGame (game : Game) : Game := resetAll game

def closeClient (game : Game) (clientFd : Int) : Game × List Out :=
  let g1 := { game with players := game.players.filter (fun p => !decide (p.2.socketFd = clientFd)) }
  if g1.state = GameState.LOBBY then (g1, broadcast g1 (jsonLobby g1)) else (g1, [])

/-! ## Handlers -/

/-- The `join` handler.  The `bool` it returns in the source (`p.isHost`, ignored by the
dispatcher) is the `host` field of the `join_ok` it sends. -/
def handleJoin (game : Game) (clientFd : Int) (msg : Msg) : Game × List Out :=
  if game.state ≠ GameState.LOBBY then
    (game, sendJson clientFd (Reply.error "not accepting players"))
  else
    let room := msg.room.getD ""
    let name := msg.name.getD ""
    if room ≠ game.roomCode ∨ name = "" then
      (game, sendJson clientFd (Reply.error "invalid join"))
    else
      let p : Player :=
        { id := game.nextPlayerId, name := name, totalScore := 0,
          isHost := game.players.isEmpty, answered := false, socketFd := clientFd }
      let g1 := { game with nextPlayerId := game.nextPlayerId + 1 }
      let g2 := { g1 with players := mapInsert g1.players p.id p }
      (g2, sendJson clientFd (Reply.join_ok p.id p.isHost) ++ broadcast g2 (jsonLobby g2))

/-- The `answer` handler; `now` is the reading of `nowMs()`.  After the index check
`questions[currentQuestionIndex]` exists, so the `none` branch is never taken. -/
def handleAnswer (game : Game) (clientFd : Int) (msg : Msg) (now : Int) : Game × List Out :=
  if game.state ≠ GameState.QUESTION_ACTIVE then (game, [])
  else
    let questionId := msgInt msg.question_id (-1)
    let answerIndex := msgInt msg.answer (-1)
    if questionId < 0 ∨ answerIndex < 0 then (game, [])
    else if game.currentQuestionIndex < 0 ∨ game.currentQuestionIndex ≥ intSize game.questions then
      (game, [])
    else
      match questionAt game.questions game.currentQuestionIndex with
      | none => (game, [])
      | some q =>
        if q.id ≠ questionId then (game, [])
        else
          let t := now
          let delta := t - game.questionStartTime
          if delta > q.timeLimitMs then (game, [])
          else
            let playerId := findPlayerIdByFd game clientFd
            if playerId = -1 then (game, [])
            else
              let r := mapIndex game.players playerId
              let g1 := { game with players := r.1 }
              if r.2.isHost then (g1, [])
              else if r.2.answered then (g1, [])
              else
                let g2 := { g1 with players := mapInsert g1.players playerId { r.2 with answered := true } }
                let a : Answer := { playerId := playerId, answerIndex := answerIndex, receiveTimeMs := t }
                ({ g2 with answers := g2.answers ++ [a] }, [])

def handleStart (game : Game) (clientFd : Int) (now : Int) : Game × List Out :=
  let playerId := findPlayerIdByFd game clientFd
  if playerId = -1 then (game, [])
  else
    let r := mapIndex game.players playerId
    let g1 := { game with players := r.1 }
    if !r.2.isHost then (g1, [])
    else if g1.state ≠ GameState.LOBBY ∧ g1.state ≠ GameState.QUESTION_RESULTS then (g1, [])
    else
      let g2 := if g1.state = GameState.LOBBY then { g1 with currentQuestionIndex := -1 } else g1
      startQuestion g2 now

def handleReset (game : Game) (clientFd : Int) : Game × List Out :=
  let playerId := findPlayerIdByFd game clientFd
  if playerId = -1 then (game, [])
  else
    let r := mapIndex game.players playerId
    let g1 := { game with players := r.1 }
    if !r.2.isHost then (g1, [])
    else if g1.state ≠ GameState.FINISHED then (g1, [])
    else (resetGame g1, [])

def handleNext (stdSort : List Player → List Player) (game : Game) (clientFd : Int) (now : Int) :
    Game × List Out :=
  let playerId := findPlayerIdByFd game clientFd
  if playerId = -1 then (game, [])
  else
    let r := mapIndex game.players playerId
    let g1 := { game with players := r.1 }
    if !r.2.isHost then (g1, [])
    else if g1.state ≠ GameState.QUESTION_RESULTS then (g1, [])
    else if g1.currentQuestionIndex + 1 ≥ intSize g1.questions then finishGame stdSort g1
    else startQuestion g1 now

def handleCreateGame (game : Game) (clientFd : Int) (msg : Msg) (rnd : Nat) : Game × List Out :=
  if game.state ≠ GameState.NO_GAME ∧ game.state ≠ GameState.FINISHED then
    (game, sendJson clientFd (Reply.error "game already exists"))
  else
    let g0 := resetAll game
    let g1 := { g0 with roomCode := generateRoomCode rnd }
    let g2 := { g1 with state := GameState.SETUP }
    let name0 := msg.name.getD ""
    let name := if name0 = "" then "host" else name0
    let p : Player :=
      { id := g2.nextPlayerId, name := name, totalScore := 0, isHost := true,
        answered := false, socketFd := clientFd }
    let g3 := { g2 with nextPlayerId := g2.nextPlayerId + 1 }
    let g4 := { g3 with players := mapInsert g3.players p.id p }
    (g4, sendJson clientFd (Reply.create_ok g4.roomCode p.id))

def handleAddQuestion (game : Game) (clientFd : Int) (msg : Msg) : Game × List Out :=
  if game.state ≠ GameState.SETUP then (game, [])
  else
    let playerId := findPlayerIdByFd game clientFd
    if playerId = -1 then (game, [])
    else
      let r := mapIndex game.players playerId
      let g1 := { game with players := r.1 }
      if !r.2.isHost then (g1, [])
      else
        let q : Question :=
          { id := intSize g1.questions + 1,
            text := msg.text.getD "",
            answers := msg.answers.getD [],
            correct := msgInt msg.correct (-1),
            timeLimitMs := msgInt msg.time_limit_ms 10000 }
        if q.text = "" ∨ q.answers = [] ∨ q.correct < 0 ∨ q.correct ≥ intSize q.answers then
          (g1, sendJson clientFd (Reply.error "invalid question"))
        else
          ({ g1 with questions := g1.questions ++ [q] },
            sendJson clientFd (Reply.add_question_ok q.id))

def handleOpenLobby (game : Game) (clientFd : Int) : Game × List Out :=
  let playerId := findPlayerIdByFd game clientFd
  if playerId = -1 then (game, [])
  else
    let r := mapIndex game.players playerId
    let g1 := { game with players := r.1 }
    if !r.2.isHost then (g1, [])
    else if g1.state ≠ GameState.SETUP then (g1, [])
    else if g1.questions = [] then (g1, sendJson clientFd (Reply.error "no questions"))
    else
      let g2 := { g1 with state := GameState.LOBBY }
      (g2, broadcast g2 (jsonLobby g2) ++ sendJson clientFd (Reply.lobby_open g2.roomCode))

/-- The timeout monitor; `now` is the reading of `nowMs()`.  After the index check the
question exists, and after `scoreAnswers` every submitter has a record, so neither `none`
branch is taken (`jsonQuestionResults_after_scoring`). -/
def checkQuestionTimeout (game : Game) (now : Int) : Game × List Out :=
  if game.state ≠ GameState.QUESTION_ACTIVE then (game, [])
  else if game.currentQuestionIndex < 0 ∨ game.currentQuestionIndex ≥ intSize game.questions then
    (game, [])
  else
    match questionAt game.questions game.currentQuestionIndex with
    | none => (game, [])
    | some q =>
      let delta := now - game.questionStartTime
      if delta ≥ q.timeLimitMs then
        let g1 := scoreAnswers game q
        let g2 := { g1 with state := GameState.QUESTION_RESULTS }
        match jsonQuestionResults g2 q with
        | some j => (g2, broadcast g2 j)
        | none => (g2, [])
      else (game, [])

/-- The teardown of a disconnected socket in the main loop: `closeClient` when the socket
belongs to a player, a bare `close(fd)` otherwise. -/
def disconnectClient (game : Game) (fd : Int) : Game × List Out :=
  if findPlayerIdByFd game fd ≠ -1 then closeClient game fd else (game, [])

/-! ## Executions -/

/-- What the main loop can do to the session: dispatch one framed message to its handler,
tear down a disconnected client, or run the timeout check.  `now` is the reading of `nowMs()`
and `rnd` the value of `rand()` the handler obtains. -/
inductive Event where
  | create_game (fd : Int) (msg : Msg) (rnd : Nat)
  | add_question (fd : Int) (msg : Msg)
  | start_game (fd : Int)
  | join (fd : Int) (msg : Msg)
  | begin_quiz (fd : Int) (now : Int)
  | answer (fd : Int) (msg : Msg) (now : Int)
  | next_question (fd : Int) (now : Int)
  | reset_game (fd : Int)
  | timeout (now : Int)
  | disconnect (fd : Int)

def step (stdSort : List Player → List Player) (game : Game) : Event → Game
  | Event.create_game fd msg rnd => (handleCreateGame game fd msg rnd).1
  | Event.add_question fd msg => (handleAddQuestion game fd msg).1
  | Event.start_game fd => (handleOpenLobby game fd).1
  | Event.join fd msg => (handleJoin game fd msg).1
  | Event.begin_quiz fd now => (handleStart game fd now).1
  | Event.answer fd msg now => (handleAnswer game fd msg now).1
  | Event.next_question fd now => (handleNext stdSort game fd now).1
  | Event.reset_game fd => (handleReset game fd).1
  | Event.timeout now => (checkQuestionTimeout game now).1
  | Event.disconnect fd => (disconnectClient game fd).1

def run (stdSort : List Player → List Player) (game : Game) (events : List Event) : Game :=
  events.foldl (step stdSort) game

/-- The states the server can be in: those produced from `initGame` by a finite sequence of
events.  Clock readings are not constrained, so this includes every real execution. -/
def Reachable (stdSort : List Player → List Player) (game : Game) : Prop :=
  ∃ events, run stdSort initGame events = game

/-- Insertion of one record into a ranking ordered by `rankBefore`. -/
def insertRanked (p : Player) : List Player → List Player
  | [] => [p]
  | x :: xs => if rankBefore p x then p :: x :: xs else x :: insertRanked p xs

/-- One admissible `std::sort` for the comparator of `jsonFinal` (insertion sort), used to
evaluate concrete executions. -/
def insertionSort (l : List Player) : List Player :=
  l.foldl (fun acc p => insertRanked p acc) []


/-! ## Specification-side definitions -/

/-- The running total stored under player id `k` (0 when there is no such record). -/
def totalOf (m : PlayerMap) (k : Int) : Int :=
  match mapFind m k with
  | some p => p.totalScore
  | none => 0

/-- Points of one answer in the spec's words: `max(0, 1000 − floor(elapsed_ms / 10))` for the
correct option, 0 otherwise. -/
def specPoints (questionStartTime : Int) (q : Question) (a : Answer) : Int :=
  if a.answerIndex = q.correct then max 0 (1000 - (a.receiveTimeMs - questionStartTime) / 10)
  else 0

/-- Points of one answer as the loop body of `scoreAnswers` computes them. -/
def awarded (questionStartTime : Int) (q : Question) (a : Answer) : Int :=
  if a.answerIndex = q.correct then
    max 0 (1000 - toInt32 (Int.tdiv (a.receiveTimeMs - questionStartTime) 10))
  else 0

/-- One iteration of the loop of `scoreAnswers`. -/
def scoreOne (questionStartTime : Int) (q : Question) (m : PlayerMap) (a : Answer) : PlayerMap :=
  let r := mapIndex m a.playerId
  if a.answerIndex = q.correct then
    let delta := a.receiveTimeMs - questionStartTime
    let points := max 0 (1000 - toInt32 (Int.tdiv delta 10))
    mapInsert r.1 a.playerId { r.2 with totalScore := r.2.totalScore + points }
  else r.1

/-- The question under `currentQuestionIndex`, when that index passes the validity check of
the code (`0 <= index < (int)questions.size()`). -/
def currentQuestion (g : Game) : Option Question :=
  if 0 ≤ g.currentQuestionIndex ∧ g.currentQuestionIndex < intSize g.questions then
    questionAt g.questions g.currentQuestionIndex
  else none

def alice : Player :=
  { id := 1, name := "Alice", totalScore := 0, isHost := true, answered := false, socketFd := 5 }

def bob : Player :=
  { id := 2, name := "Bob", totalScore := 0, isHost := false, answered := false, socketFd := 7 }

/-- The question of scenario A with time limit `limit`. -/
def sampleQuestion (limit : Int) : Question :=
  { id := 1, text := "2+2?", answers := ["3", "4"], correct := 1, timeLimitMs := limit }

/-- A running question that started at 5000 ms, nobody having answered yet. -/
def activeGame (q : Question) : Game :=
  { roomCode := "1234", state := GameState.QUESTION_ACTIVE, players := [(1, alice), (2, bob)],
    questions := [q], nextPlayerId := 3, currentQuestionIndex := 0, questionStartTime := 5000,
    answers := [] }

/-- The same question with Bob's answer (option 1) received `elapsed` ms after the start. -/
def answeredGame (q : Question) (elapsed : Int) : Game :=
  { activeGame q with
    players := [(1, alice), (2, { bob with answered := true })],
    answers := [{ playerId := 2, answerIndex := 1, receiveTimeMs := 5000 + elapsed }] }

/-- Bob's `answer` message: question 1, option 1. -/
def bobAnswer : Msg := { question_id := some 1, answer := some 1 }

/-! ## Invariants of the session -/

/-- The number of entries of the map with `isHost = true`. -/
def hostCount (m : PlayerMap) : Nat := m.countP (fun e => e.2.isHost)

/-- The keys of the map are strictly ascending, as in every `std::map`. -/
def keysSorted (m : PlayerMap) : Prop := (m.map Prod.fst).Pairwise (fun a b => a < b)

/-- The facts that hold of the session in every state the server can reach. -/
structure Inv (g : Game) : Prop where
  sorted : keysSorted g.players
  keysFresh : ∀ e ∈ g.players, e.1 < g.nextPlayerId
  answersFresh : ∀ a ∈ g.answers, a.playerId < g.nextPlayerId
  answersNodup : (g.answers.map (fun a => a.playerId)).Nodup
  answeredFlag : g.state = GameState.QUESTION_ACTIVE →
    ∀ a ∈ g.answers, ∀ e ∈ g.players, e.1 = a.playerId → e.2.answered = true
  answersEmpty : g.state = GameState.NO_GAME ∨ g.state = GameState.SETUP
    ∨ g.state = GameState.LOBBY → g.answers = []
  roomCode : g.roomCode ≠ "" ↔ g.state ≠ GameState.NO_GAME
  oneHost : hostCount g.players ≤ 1
  indexBefore : g.state = GameState.NO_GAME ∨ g.state = GameState.SETUP
    ∨ g.state = GameState.LOBBY → g.currentQuestionIndex = -1
  indexValid : g.state = GameState.QUESTION_ACTIVE ∨ g.state = GameState.QUESTION_RESULTS →
    0 ≤ g.currentQuestionIndex ∧ g.currentQuestionIndex < intSize g.questions
  indexAfter : g.state = GameState.FINISHED → 0 ≤ g.currentQuestionIndex

/-- Client disconnects. -/
def Event.isDisconnect : Event → Bool
  | Event.disconnect _ => true
  | _ => false

/-- The states reached by executions in which no client disconnects. -/
def ReachableConnected (stdSort : List Player → List Player) (game : Game) : Prop :=
  ∃ events, (∀ e ∈ events, Event.isDisconnect e = false) ∧ run stdSort initGame events = game

/-- Scenario A followed by one question: Alice (socket 5) creates the game (`rand()` = 234,
so the room is "1234"), adds the question, opens the lobby; Bob (socket 7) joins; Alice
starts the quiz at 5000 ms; Bob answers option 1 at 5200 ms. -/
def scenarioEvents : List Event :=
  [ Event.create_game 5 { name := some "Alice" } 234,
    Event.add_question 5
      { text := some "2+2?", answers := some ["3", "4"], correct := some 1,
        time_limit_ms := some 1000 },
    Event.start_game 5,
    Event.join 7 { room := some "1234", name := some "Bob" },
    Event.begin_quiz 5 5000,
    Event.answer 7 bobAnswer 5200 ]

/-- The requester is the registered host: the connection maps to a player record and that
record has `isHost = true`. -/
def isRegisteredHost (g : Game) (fd : Int) : Prop :=
  findPlayerIdByFd g fd ≠ -1
    ∧ ∃ p, mapFind g.players (findPlayerIdByFd g fd) = some p ∧ p.isHost = true

/-- The display name of the host in the spec's words: the supplied name, or "host" when the
name is absent or empty. -/
def hostName (msg : Msg) : String :=
  match msg.name with
  | none => "host"
  | some n => if n = "" then "host" else n

/-- A finished game: the session of scenario B after its only question was closed and the
host asked for the next one. -/
def finishedGame : Game :=
  { answeredGame (sampleQuestion 1000) 200 with
    state := GameState.FINISHED,
    players := [(1, alice), (2, { bob with answered := true, totalScore := 980 })] }

/-- The `Question q` that `handleAddQuestion` builds from the message before validating it. -/
def newQuestion (g : Game) (msg : Msg) : Question :=
  { id := intSize g.questions + 1,
    text := msg.text.getD "",
    answers := msg.answers.getD [],
    correct := msgInt msg.correct (-1),
    timeLimitMs := msgInt msg.time_limit_ms 10000 }

/-- The validation of `handleAddQuestion`, as the code evaluates it. -/
def questionValid (q : Question) : Prop :=
  ¬ (q.text = "" ∨ q.answers = [] ∨ q.correct < 0 ∨ q.correct ≥ intSize q.answers)

/-- The session right after Alice's `create_game` of scenario A. -/
def setupGame : Game :=
  { roomCode := "1234", state := GameState.SETUP, players := [(1, alice)], questions := [],
    nextPlayerId := 2, currentQuestionIndex := -1, questionStartTime := 0, answers := [] }

/-- An `add_question` message whose option list has 2^31 entries. -/
def hugeOptionsMsg : Msg :=
  { text := some "t", answers := some (List.replicate 2147483648 "x"), correct := some 0 }

/-- What holds of the stored questions in every reachable state. -/
def QuestionsOk (g : Game) : Prop :=
  ∀ (i : Nat) (q : Question), g.questions[i]? = some q →
    q.id = toInt32 (i : Int) + 1 ∧ q.answers ≠ [] ∧ 0 ≤ q.correct
      ∧ q.correct < intSize q.answers

/-- The roster that `jsonLobby` puts into `lobby_update`: the names of the non-host players in
map order. -/
def rosterNames (g : Game) : List String :=
  (g.players.filter (fun p => !p.2.isHost)).map (fun p => p.2.name)

/-- A `join` message with the given room code and name. -/
def joinMsg (room name : String) : Msg := { room := some room, name := some name }

/-- The `Player p` that `handleJoin` builds for an accepted join. -/
def joinedPlayer (g : Game) (fd : Int) (name : String) : Player :=
  { id := g.nextPlayerId, name := name, totalScore := 0, isHost := g.players.isEmpty,
    answered := false, socketFd := fd }

/-- The session after a sequence of `join` messages (connection, name), each carrying the
room code of the session. -/
def joinAll (g : Game) (joins : List (Int × String)) : Game :=
  joins.foldl (fun g j => (handleJoin g j.1 (joinMsg g.roomCode j.2)).1) g

/-- The contract of `std::sort` for the comparator of `jsonFinal`: the result is a
rearrangement of the input in which no later element is ranked before an earlier one. -/
def StdSortSpec (stdSort : List Player → List Player) : Prop :=
  ∀ l : List Player,
    (stdSort l).Perm l ∧ (stdSort l).Pairwise (fun a b => rankBefore b a = false)

/-- The non-host players in the order of the `players` map. -/
def nonHostPlayers (g : Game) : List Player :=
  (g.players.filter (fun p => !p.2.isHost)).map (fun p => p.2)

/-- The rendering of a player in the final ranking: name and total. -/
def renderRank (p : Player) : RankItem := { name := p.name, total := p.totalScore }

/-- A finished game with three players: Bob 980, Carol 990, Dave 980. -/
def podiumGame : Game :=
  { finishedGame with
    players :=
      [(1, alice),
       (2, { bob with totalScore := 980 }),
       (3, { id := 3, name := "Carol", totalScore := 990, isHost := false, answered := false,
             socketFd := 8 }),
       (4, { id := 4, name := "Dave", totalScore := 980, isHost := false, answered := false,
             socketFd := 9 })] }

/-! ## Message framing (main loop) -/

/-- The `string(buf)` built from the NUL-terminated receive buffer (`buf[bytes] = 0`): the
received bytes up to, not including, the first NUL byte. -/
def cString (chunk : List UInt8) : List UInt8 := chunk.takeWhile (fun b => b != 0)

/-- The position `buffer.find('\n')`, `none` for `string::npos`. -/
def findNewline : List UInt8 → Option Nat
  | [] => none
  | b :: rest => if b = 10 then some 0 else (findNewline rest).map (fun i => i + 1)

/-- The framing loop `while ((pos = buffer.find('\n')) != npos)`: each round takes
`line = buffer.substr(0, pos)` and does `buffer.erase(0, pos + 1)`.  Returns the lines in
order and the buffer left.  `fuel` bounds the number of rounds. -/
def frameLoop : Nat → List UInt8 → List (List UInt8) × List UInt8
  | 0, buffer => ([], buffer)
  | fuel + 1, buffer =>
    match findNewline buffer with
    | none => ([], buffer)
    | some pos =>
      let line := buffer.take pos
      let r := frameLoop fuel (buffer.drop (pos + 1))
      (line :: r.1, r.2)

/-- One read of the main loop on a connection with pending buffer `pending`:
`recvBuffers[fd] += string(buf)` followed by the framing loop.  The loop removes at least
one byte per round, so `length + 1` rounds are enough to run it to its end. -/
def receiveChunk (pending chunk : List UInt8) : List (List UInt8) × List UInt8 :=
  frameLoop ((pending ++ cString chunk).length + 1) (pending ++ cString chunk)

/-- The byte string `l1 + "\n" + ... + ln + "\n"` of a list of lines. -/
def joinLines : List (List UInt8) → List UInt8
  | [] => []
  | l :: rest => l ++ 10 :: joinLines rest

/-! ## Frame of the timeout monitor -/

/-- A map entry with its running total blanked: what `checkQuestionTimeout` must not change. -/
def stripTotal (e : Int × Player) : Int × Player := (e.1, { e.2 with totalScore := 0 })

/-- Every recorded answer was submitted by a player who still has a record. -/
def answersRegistered (g : Game) : Prop :=
  ∀ a ∈ g.answers, (mapFind g.players a.playerId).isSome

/-- Scenario A with Bob's answer at 5200 ms, after which Bob's connection (socket 7) drops. -/
def departedEvents : List Event := scenarioEvents ++ [Event.disconnect 7]

/-! ## `std::sort` of GNU libstdc++

The routine behind `sort(ranking.begin(), ranking.end(), comp)` of `jsonFinal`, transcribed
from `bits/stl_algo.h` and `bits/stl_heap.h` (`_S_threshold = 16`) with `comp = rankBefore`.
A range `[first, last)` is a list and an iterator is a position in it, counted from `first`.
Each `while` loop of the library takes a bound on its rounds, the length of the range; every
round moves a position inside the range, so the bound is not reached. -/

/-- The element `*(first + i)` of a range held as a list (positions outside the range are
never read by the library for a valid comparator). -/
def elemAt (xs : List Player) (i : Nat) : Player := xs.getD i Player.zero

/-- The `std::iter_swap(first + i, first + j)`. -/
def iter_swap (xs : List Player) (i j : Nat) : List Player :=
  (xs.set i (elemAt xs j)).set j (elemAt xs i)

/-- The number of halvings that bring `n` below 2, at most `fuel` of them. -/
def lg_loop : Nat → Nat → Nat
  | 0, _ => 0
  | fuel + 1, n => if n < 2 then 0 else lg_loop fuel (n / 2) + 1

/-- The `std::__lg(n)`: the position of the highest set bit of `n`, which is the floor of its
binary logarithm. -/
def lg (n : Nat) : Nat := lg_loop n n

/-- The `__move_median_to_first(result, a, b, c, comp)` on positions of the range. -/
def move_median_to_first (xs : List Player) (result a b c : Nat) : List Player :=
  if rankBefore (elemAt xs a) (elemAt xs b) then
    if rankBefore (elemAt xs b) (elemAt xs c) then iter_swap xs result b
    else if rankBefore (elemAt xs a) (elemAt xs c) then iter_swap xs result c
    else iter_swap xs result a
  else if rankBefore (elemAt xs a) (elemAt xs c) then iter_swap xs result a
  else if rankBefore (elemAt xs b) (elemAt xs c) then iter_swap xs result c
  else iter_swap xs result b

/-- The loop `while (comp(first, pivot)) ++first;` of `__unguarded_partition`. -/
def scanUp (xs : List Player) (pivot : Nat) : Nat → Nat → Nat
  | 0, first => first
  | fuel + 1, first =>
    if rankBefore (elemAt xs first) (elemAt xs pivot) then scanUp xs pivot fuel (first + 1)
    else first

/-- The loop `while (comp(pivot, last)) --last;` of `__unguarded_partition`. -/
def scanDown (xs : List Player) (pivot : Nat) : Nat → Nat → Nat
  | 0, last => last
  | fuel + 1, last =>
    if rankBefore (elemAt xs pivot) (elemAt xs last) then scanDown xs pivot fuel (last - 1)
    else last

/-- The `__unguarded_partition(first, last, pivot, comp)`: returns the rearranged range and
the cut position.  `fuel` bounds the rounds of the outer loop. -/
def unguarded_partition (pivot : Nat) : Nat → List Player → Nat → Nat → List Player × Nat
  | 0, xs, first, _ => (xs, first)
  | fuel + 1, xs, first, last =>
    let first1 := scanUp xs pivot xs.length first
    let last1 := scanDown xs pivot xs.length (last - 1)
    if ¬ (first1 < last1) then (xs, first1)
    else unguarded_partition pivot fuel (iter_swap xs first1 last1) (first1 + 1) last1

/-- The `__unguarded_partition_pivot(first, last, comp)` on a whole range. -/
def unguarded_partition_pivot (xs : List Player) : List Player × Nat :=
  let mid := xs.length / 2
  let xs1 := move_median_to_first xs 0 1 mid (xs.length - 1)
  unguarded_partition 0 xs.length xs1 1 xs.length

/-- The loop of `__push_heap(first, holeIndex, topIndex, value, comp)`. -/
def push_heap (top : Nat) (value : Player) : Nat → List Player → Nat → List Player
  | 0, xs, hole => xs.set hole value
  | fuel + 1, xs, hole =>
    let parent := (hole - 1) / 2
    if hole > top ∧ rankBefore (elemAt xs parent) value = true then
      push_heap top value fuel (xs.set hole (elemAt xs parent)) parent
    else xs.set hole value

/-- The first loop of `__adjust_heap`: returns the range, the hole and `secondChild`. -/
def adjust_heap_loop (len : Nat) : Nat → List Player → Nat → Nat → List Player × Nat × Nat
  | 0, xs, hole, secondChild => (xs, hole, secondChild)
  | fuel + 1, xs, hole, secondChild =>
    if secondChild < (len - 1) / 2 then
      let sc := 2 * (secondChild + 1)
      let sc1 := if rankBefore (elemAt xs sc) (elemAt xs (sc - 1)) then sc - 1 else sc
      adjust_heap_loop len fuel (xs.set hole (elemAt xs sc1)) sc1 sc1
    else (xs, hole, secondChild)

/-- The `__adjust_heap(first, holeIndex, len, value, comp)`. -/
def adjust_heap (xs : List Player) (holeIndex len : Nat) (value : Player) : List Player :=
  let r := adjust_heap_loop len len xs holeIndex holeIndex
  let xs1 := r.1
  let hole1 := r.2.1
  let secondChild := r.2.2
  if len % 2 = 0 ∧ secondChild = (len - 2) / 2 then
    let sc := 2 * (secondChild + 1)
    push_heap holeIndex value len (xs1.set hole1 (elemAt xs1 (sc - 1))) (sc - 1)
  else push_heap holeIndex value len xs1 hole1

/-- The `__pop_heap(first, last, result, comp)` with `first` the start of the range. -/
def pop_heap (xs : List Player) (last result : Nat) : List Player :=
  let value := elemAt xs result
  adjust_heap (xs.set result (elemAt xs 0)) 0 last value

/-- The loop of `__make_heap`, from `parent` down to 0. -/
def make_heap_loop (len : Nat) : Nat → List Player → List Player
  | 0, xs => adjust_heap xs 0 len (elemAt xs 0)
  | parent + 1, xs =>
    make_heap_loop len parent (adjust_heap xs (parent + 1) len (elemAt xs (parent + 1)))

/-- The `__make_heap(first, last, comp)` on a whole range. -/
def make_heap (xs : List Player) : List Player :=
  if xs.length < 2 then xs else make_heap_loop xs.length ((xs.length - 2) / 2) xs

/-- The `__sort_heap(first, last, comp)`: `while (last - first > 1) { --last; pop_heap }`. -/
def sort_heap : Nat → List Player → List Player
  | 0, xs => xs
  | last + 1, xs => if last + 1 > 1 then sort_heap last (pop_heap xs last last) else xs

/-- The `__partial_sort(first, last, last, comp)` of `__introsort_loop`: `__heap_select` with
`middle = last` is `__make_heap` alone, followed by `__sort_heap`. -/
def heap_sort_range (xs : List Player) : List Player := sort_heap xs.length (make_heap xs)

/-- The `__introsort_loop(first, last, depth_limit, comp)` on a whole range.  Each round of
its `while` loop sorts `[cut, last)` by the recursive call and goes on with `[first, cut)`
under the same decremented depth limit, which is the second call here. -/
def introsort_loop : Nat → List Player → List Player
  | 0, xs => if xs.length > 16 then heap_sort_range xs else xs
  | depth + 1, xs =>
    if xs.length > 16 then
      let r := unguarded_partition_pivot xs
      let right := introsort_loop depth (r.1.drop r.2)
      let left := introsort_loop depth (r.1.take r.2)
      left ++ right
    else xs

/-- The loop of `__unguarded_linear_insert` on the elements before the insertion point, last
one first: `val` moves left past every element it is ranked before. -/
def insertRev (val : Player) : List Player → List Player
  | [] => [val]
  | x :: rest => if rankBefore val x then x :: insertRev val rest else val :: x :: rest

/-- The `__unguarded_linear_insert(last, comp)`: `pre` is the range before `last`, `val` the
element at `last`; the result is the range up to and including `last`. -/
def unguarded_linear_insert (pre : List Player) (val : Player) : List Player :=
  (insertRev val pre.reverse).reverse

/-- One round of the loop of `__insertion_sort`. -/
def insertion_step (pre : List Player) (val : Player) : List Player :=
  match pre with
  | [] => [val]
  | first :: _ => if rankBefore val first then val :: pre else unguarded_linear_insert pre val

/-- The `__insertion_sort(first, last, comp)`. -/
def insertion_sort (xs : List Player) : List Player :=
  match xs with
  | [] => []
  | x :: rest => rest.foldl insertion_step [x]

/-- The `__final_insertion_sort(first, last, comp)`. -/
def final_insertion_sort (xs : List Player) : List Player :=
  if xs.length > 16 then
    (xs.drop 16).foldl unguarded_linear_insert (insertion_sort (xs.take 16))
  else insertion_sort xs

/-- The `std::sort(first, last, comp)` of GNU libstdc++ with the comparator of `jsonFinal`. -/
def std_sort (xs : List Player) : List Player :=
  if xs.length = 0 then xs
  else final_insertion_sort (introsort_loop (lg xs.length * 2) xs)

/-- A session with seventeen players (connections 7 to 23, ids 2 to 18): the host creates the
game with one question and opens the lobby, the players join, the question is started and
runs out with no answer received. -/
def crowdEvents : List Event :=
  [ Event.create_game 5 { name := some "Alice" } 234,
    Event.add_question 5
      { text := some "2+2?", answers := some ["3", "4"], correct := some 1,
        time_limit_ms := some 1000 },
    Event.start_game 5,
    Event.join 7 (joinMsg "1234" "P02"),
    Event.join 8 (joinMsg "1234" "P03"),
    Event.join 9 (joinMsg "1234" "P04"),
    Event.join 10 (joinMsg "1234" "P05"),
    Event.join 11 (joinMsg "1234" "P06"),
    Event.join 12 (joinMsg "1234" "P07"),
    Event.join 13 (joinMsg "1234" "P08"),
    Event.join 14 (joinMsg "1234" "P09"),
    Event.join 15 (joinMsg "1234" "P10"),
    Event.join 16 (joinMsg "1234" "P11"),
    Event.join 17 (joinMsg "1234" "P12"),
    Event.join 18 (joinMsg "1234" "P13"),
    Event.join 19 (joinMsg "1234" "P14"),
    Event.join 20 (joinMsg "1234" "P15"),
    Event.join 21 (joinMsg "1234" "P16"),
    Event.join 22 (joinMsg "1234" "P17"),
    Event.join 23 (joinMsg "1234" "P18"),
    Event.begin_quiz 5 5000,
    Event.timeout 6001 ]

/-- What holds of the stored time limits and of the recorded receive times in every reachable
state: a time limit is a value of its `int` field, and every recorded answer was received less
than 2^31 ms after the question start (`handleAnswer` drops an answer that arrives more than
the time limit after the start). -/
def TimesOk (g : Game) : Prop :=
  (∀ q ∈ g.questions, q.timeLimitMs < 2147483648)
    ∧ ∀ a ∈ g.answers, a.receiveTimeMs - g.questionStartTime < 2147483648

/-- Scenario B up to the timeout that closes its only question (state QUESTION_RESULTS). -/
def closedEvents : List Event := scenarioEvents ++ [Event.timeout 6000]

/-- A session with two questions, up to the timeout that closes the first one. -/
def twoQuestionEvents : List Event :=
  [ Event.create_game 5 { name := some "Alice" } 234,
    Event.add_question 5
      { text := some "2+2?", answers := some ["3", "4"], correct := some 1,
        time_limit_ms := some 1000 },
    Event.add_question 5
      { text := some "3+3?", answers := some ["6", "7"], correct := some 0,
        time_limit_ms := some 2000 },
    Event.start_game 5,
    Event.join 7 { room := some "1234", name := some "Bob" },
    Event.begin_quiz 5 5000,
    Event.answer 7 bobAnswer 5200,
    Event.timeout 6000 ]

/-! # Theorems -/

/-! ## Machine-integer lemmas -/

theorem toInt32_of_range (x : Int) (hlo : -2147483648 ≤ x) (hhi : x < 2147483648) :
    toInt32 x = x := by
  unfold toInt32; omega

theorem toInt32_lower (x : Int) : -2147483648 ≤ toInt32 x := by
  unfold toInt32; omega

theorem toInt32_upper (x : Int) : toInt32 x < 2147483648 := by
  unfold toInt32; omega

theorem toInt32_le_self (x : Int) (h : 0 ≤ x) : toInt32 x ≤ x := by
  unfold toInt32; omega

theorem intSize_le_length {α : Type} (xs : List α) : intSize xs ≤ (xs.length : Int) := by
  unfold intSize
  exact toInt32_le_self _ (Int.ofNat_nonneg _)

theorem awarded_nonneg (s : Int) (q : Question) (a : Answer) : 0 ≤ awarded s q a := by
  unfold awarded
  split
  · exact le_max_left _ _
  · exact le_refl _

/-! ## Map lemmas -/

theorem mapFind_mapInsert_self (m : PlayerMap) (k : Int) (p : Player) :
    mapFind (mapInsert m k p) k = some p := by
  induction m with
  | nil => simp [mapInsert, mapFind]
  | cons e rest ih =>
    obtain ⟨k', p'⟩ := e
    unfold mapInsert
    by_cases h1 : k' = k
    · simp [h1, mapFind]
    · by_cases h2 : k < k'
      · simp [h1, h2, mapFind]
      · simp [h1, h2, mapFind, ih]

theorem mapFind_mapInsert_ne (m : PlayerMap) (k k' : Int) (p : Player) (h : k' ≠ k) :
    mapFind (mapInsert m k p) k' = mapFind m k' := by
  induction m with
  | nil => simp [mapInsert, mapFind, Ne.symm h]
  | cons e rest ih =>
    obtain ⟨k0, p0⟩ := e
    unfold mapInsert
    by_cases h1 : k0 = k
    · subst h1
      simp [mapFind, Ne.symm h]
    · by_cases h2 : k < k0
      · simp [h1, h2, mapFind, Ne.symm h]
      · by_cases h3 : k0 = k'
        · subst h3
          simp [h1, h2, mapFind]
        · simp [h1, h2, mapFind, h3, ih]

theorem scoreAnswers_players (g : Game) (q : Question) :
    (scoreAnswers g q).players = g.answers.foldl (scoreOne g.questionStartTime q) g.players := rfl

theorem totalOf_scoreOne (s : Int) (q : Question) (m : PlayerMap) (a : Answer) (k : Int) :
    totalOf (scoreOne s q m a) k = totalOf m k + (if a.playerId = k then awarded s q a else 0) := by
  unfold scoreOne awarded mapIndex totalOf
  by_cases hk : a.playerId = k
  · subst hk
    cases hf : mapFind m a.playerId with
    | none =>
      by_cases hc : a.answerIndex = q.correct
      · simp [hc, mapFind_mapInsert_self, Player.zero]
      · simp [hc, mapFind_mapInsert_self, Player.zero]
    | some p =>
      by_cases hc : a.answerIndex = q.correct
      · simp [hc, mapFind_mapInsert_self]
      · simp [hc, hf]
  · have hk' : k ≠ a.playerId := fun h => hk h.symm
    cases hf : mapFind m a.playerId with
    | none =>
      by_cases hc : a.answerIndex = q.correct
      · simp [hc, hk, mapFind_mapInsert_ne _ _ _ _ hk']
      · simp [hc, hk, mapFind_mapInsert_ne _ _ _ _ hk']
    | some p =>
      by_cases hc : a.answerIndex = q.correct
      · simp [hc, hk, mapFind_mapInsert_ne _ _ _ _ hk']
      · simp [hc, hk]

theorem totalOf_foldl_scoreOne (s : Int) (q : Question) (k : Int) (answers : List Answer) :
    ∀ m : PlayerMap, totalOf (answers.foldl (scoreOne s q) m) k
      = totalOf m k + ((answers.filter (fun a => a.playerId = k)).map (awarded s q)).sum := by
  induction answers with
  | nil => intro m; simp
  | cons a rest ih =>
    intro m
    rw [List.foldl_cons, ih, totalOf_scoreOne]
    by_cases hk : a.playerId = k
    · simp [List.filter_cons, hk, add_assoc]
    · simp [List.filter_cons, hk]

/-- The total of every player id after `scoreAnswers`, with the points as the code computes them. -/
theorem totalOf_scoreAnswers (g : Game) (q : Question) (k : Int) :
    totalOf (scoreAnswers g q).players k
      = totalOf g.players k
        + ((g.answers.filter (fun a => a.playerId = k)).map (awarded g.questionStartTime q)).sum := by
  rw [scoreAnswers_players]
  exact totalOf_foldl_scoreOne _ _ _ _ _

theorem awarded_eq_specPoints (s : Int) (q : Question) (a : Answer)
    (h0 : s ≤ a.receiveTimeMs) (h1 : (a.receiveTimeMs - s) / 10 < 2147483648) :
    awarded s q a = specPoints s q a := by
  unfold awarded specPoints
  have hnn : 0 ≤ a.receiveTimeMs - s := by omega
  have htd : Int.tdiv (a.receiveTimeMs - s) 10 = (a.receiveTimeMs - s) / 10 :=
    Int.tdiv_eq_ediv hnn (by decide)
  have hq : 0 ≤ (a.receiveTimeMs - s) / 10 := Int.ediv_nonneg hnn (by decide)
  rw [htd, toInt32_of_range _ (by omega) h1]

/-! ## C2: scoring near the deadline -/

/-- The scoring formula for a state whose recorded answers were received no earlier than the
question start and whose `elapsed/10` fits the 32-bit `int` the code converts it to. -/
theorem scoreAnswers_adds_spec_points_of_bounds (g : Game) (q : Question) (k : Int)
    (h : ∀ a ∈ g.answers, g.questionStartTime ≤ a.receiveTimeMs ∧
      (a.receiveTimeMs - g.questionStartTime) / 10 < 2147483648) :
    totalOf (scoreAnswers g q).players k
      = totalOf g.players k
        + ((g.answers.filter (fun a => a.playerId = k)).map
            (specPoints g.questionStartTime q)).sum := by
  rw [totalOf_scoreAnswers]
  congr 2
  apply List.map_congr_left
  intro a ha
  have hmem : a ∈ g.answers := (List.mem_filter.mp ha).1
  exact awarded_eq_specPoints _ _ _ (h a hmem).1 (h a hmem).2

theorem tdiv_ten_bounds (x : Int) (hlo : -2147483658 ≤ x) (hhi : x ≤ 9999) :
    -2147483648 ≤ Int.tdiv x 10 ∧ Int.tdiv x 10 ≤ 999 := by
  rcases le_or_lt 0 x with hx | hx
  · rw [Int.tdiv_eq_ediv hx (by decide)]
    omega
  · have h1 : Int.tdiv x 10 = -(Int.tdiv (-x) 10) := by
      rw [Int.neg_tdiv, neg_neg]
    rw [h1, Int.tdiv_eq_ediv (by omega) (by decide)]
    omega

/-- C2 (amended): for every question whose time limit is at most 10009 ms (the default is
10000 ms), a correct recorded answer whose elapsed time is exactly `timeLimitMs − 10` ms
raises its submitter's total by at least 1 point.  The lower bound on `timeLimitMs` is the
range of the `int` field. -/
theorem scoreAnswers_near_deadline (g : Game) (q : Question) (a : Answer)
    (ha : a ∈ g.answers) (hc : a.answerIndex = q.correct)
    (he : a.receiveTimeMs - g.questionStartTime = q.timeLimitMs - 10)
    (hlo : -2147483648 ≤ q.timeLimitMs) (hhi : q.timeLimitMs ≤ 10009) :
    totalOf g.players a.playerId + 1 ≤ totalOf (scoreAnswers g q).players a.playerId := by
  rw [totalOf_scoreAnswers]
  have hmem : awarded g.questionStartTime q a ∈
      (g.answers.filter (fun b => b.playerId = a.playerId)).map (awarded g.questionStartTime q) :=
    List.mem_map_of_mem _ (List.mem_filter.mpr ⟨ha, by simp⟩)
  have hsum := List.single_le_sum
    (l := (g.answers.filter (fun b => b.playerId = a.playerId)).map (awarded g.questionStartTime q))
    (fun x hx => by
      obtain ⟨b, _, rfl⟩ := List.mem_map.mp hx
      exact awarded_nonneg _ _ _) _ hmem
  have hpt : 1 ≤ awarded g.questionStartTime q a := by
    unfold awarded
    rw [if_pos hc, he]
    have hb := tdiv_ten_bounds (q.timeLimitMs - 10) (by omega) (by omega)
    rw [toInt32_of_range _ hb.1 (by omega)]
    exact le_max_of_le_right (by omega)
  omega

/-- C2 witness: with the default limit of 10000 ms, an answer at elapsed 9990 ms earns 1. -/
theorem scoreAnswers_near_deadline_witness :
    totalOf (answeredGame (sampleQuestion 10000) 9990).players 2 + 1
      ≤ totalOf (scoreAnswers (answeredGame (sampleQuestion 10000) 9990)
          (sampleQuestion 10000)).players 2 :=
  scoreAnswers_near_deadline (answeredGame (sampleQuestion 10000) 9990) (sampleQuestion 10000)
    { playerId := 2, answerIndex := 1, receiveTimeMs := 5000 + 9990 }
    (by decide) (by decide) (by decide) (by decide) (by decide)

/-- C2 counterexample: with a time limit of 20000 ms, Bob's correct answer received at elapsed
19990 ms (= limit − 10) earns `max(0, 1000 − 1999) = 0`: his total stays 0. -/
theorem scoreAnswers_near_deadline_fails :
    ({ playerId := 2, answerIndex := 1, receiveTimeMs := 5000 + 19990 } : Answer)
        ∈ (answeredGame (sampleQuestion 20000) 19990).answers
      ∧ (1 : Int) = (sampleQuestion 20000).correct
      ∧ (5000 + 19990 : Int) - (answeredGame (sampleQuestion 20000) 19990).questionStartTime
          = (sampleQuestion 20000).timeLimitMs - 10
      ∧ totalOf (answeredGame (sampleQuestion 20000) 19990).players 2 = 0
      ∧ totalOf (scoreAnswers (answeredGame (sampleQuestion 20000) 19990)
          (sampleQuestion 20000)).players 2 = 0 := by
  refine ⟨by decide, by decide, by decide, by decide, by decide⟩

/-! ## C3, C4, C5: guards of the handlers -/

theorem mapFind_of_find (m : PlayerMap) (f : Int × Player → Bool) (e : Int × Player)
    (h : m.find? f = some e) : ∃ p, mapFind m e.1 = some p := by
  induction m with
  | nil => simp at h
  | cons x rest ih =>
    obtain ⟨k, p⟩ := x
    by_cases hk : k = e.1
    · exact ⟨p, by simp [mapFind, hk]⟩
    · rw [List.find?_cons] at h
      cases hfx : f (k, p) with
      | true =>
        rw [hfx] at h
        simp only [Option.some.injEq] at h
        exact absurd (by rw [← h]) hk
      | false =>
        rw [hfx] at h
        obtain ⟨p', hp'⟩ := ih h
        exact ⟨p', by simp [mapFind, hk, hp']⟩

/-- The id returned by `findPlayerIdByFd`, unless it is −1, is a key of the map. -/
theorem mapFind_findPlayerIdByFd (g : Game) (fd : Int) (h : findPlayerIdByFd g fd ≠ -1) :
    ∃ p, mapFind g.players (findPlayerIdByFd g fd) = some p := by
  unfold findPlayerIdByFd at h ⊢
  cases hf : g.players.find? (fun p => decide (p.2.socketFd = fd)) with
  | none => rw [hf] at h; exact absurd rfl h
  | some e => exact mapFind_of_find _ _ _ hf

theorem mapIndex_of_mapFind (m : PlayerMap) (k : Int) (p : Player) (h : mapFind m k = some p) :
    mapIndex m k = (m, p) := by
  unfold mapIndex
  rw [h]

theorem currentQuestion_eq_some (g : Game) (q : Question) (h : currentQuestion g = some q) :
    ¬ (g.currentQuestionIndex < 0 ∨ g.currentQuestionIndex ≥ intSize g.questions)
      ∧ questionAt g.questions g.currentQuestionIndex = some q := by
  unfold currentQuestion at h
  split at h
  · rename_i hv
    exact ⟨by omega, h⟩
  · simp at h

theorem handleNext_of_state_ne (stdSort : List Player → List Player) (g : Game) (fd now : Int)
    (h : g.state ≠ GameState.QUESTION_RESULTS) : handleNext stdSort g fd now = (g, []) := by
  by_cases hp : findPlayerIdByFd g fd = -1
  · simp [handleNext, hp]
  obtain ⟨p, hfind⟩ := mapFind_findPlayerIdByFd g fd hp
  by_cases hh : p.isHost = true
  · simp [handleNext, hp, mapIndex_of_mapFind _ _ _ hfind, hh, h]
  · simp [handleNext, hp, mapIndex_of_mapFind _ _ _ hfind, hh]

theorem handleReset_of_state_ne (g : Game) (fd : Int) (h : g.state ≠ GameState.FINISHED) :
    handleReset g fd = (g, []) := by
  by_cases hp : findPlayerIdByFd g fd = -1
  · simp [handleReset, hp]
  obtain ⟨p, hfind⟩ := mapFind_findPlayerIdByFd g fd hp
  by_cases hh : p.isHost = true
  · simp [handleReset, hp, mapIndex_of_mapFind _ _ _ hfind, hh, h]
  · simp [handleReset, hp, mapIndex_of_mapFind _ _ _ hfind, hh]

/-- C4: state-machine legality.  For every game, connection, message, clock reading and sort:
`handleAnswer` leaves the game unchanged (and sends nothing) when the state is not
QUESTION_ACTIVE, `handleNext` when it is not QUESTION_RESULTS, `handleReset` when it is not
FINISHED. -/
theorem handlers_noop_outside_state (stdSort : List Player → List Player) (g : Game) (fd : Int)
    (msg : Msg) (now : Int) :
    (g.state ≠ GameState.QUESTION_ACTIVE → handleAnswer g fd msg now = (g, []))
      ∧ (g.state ≠ GameState.QUESTION_RESULTS → handleNext stdSort g fd now = (g, []))
      ∧ (g.state ≠ GameState.FINISHED → handleReset g fd = (g, [])) := by
  refine ⟨?_, handleNext_of_state_ne stdSort g fd now, handleReset_of_state_ne g fd⟩
  intro hs
  simp [handleAnswer, hs]

/-- C4 witness: in a running question, `next_question` and `reset_game` from the host's
connection change nothing; in a closed question, `answer` from Bob changes nothing. -/
theorem handlers_noop_outside_state_witness :
    handleNext insertionSort (activeGame (sampleQuestion 1000)) 5 5200
        = (activeGame (sampleQuestion 1000), [])
      ∧ handleReset (activeGame (sampleQuestion 1000)) 5 = (activeGame (sampleQuestion 1000), [])
      ∧ handleAnswer { activeGame (sampleQuestion 1000) with state := GameState.QUESTION_RESULTS }
          7 bobAnswer 5200
        = ({ activeGame (sampleQuestion 1000) with state := GameState.QUESTION_RESULTS }, []) :=
  ⟨(handlers_noop_outside_state insertionSort (activeGame (sampleQuestion 1000)) 5 bobAnswer
      5200).2.1 (by decide),
   (handlers_noop_outside_state insertionSort (activeGame (sampleQuestion 1000)) 5 bobAnswer
      5200).2.2 (by decide),
   (handlers_noop_outside_state insertionSort
      { activeGame (sampleQuestion 1000) with state := GameState.QUESTION_RESULTS } 7 bobAnswer
      5200).1 (by decide)⟩

theorem mapFind_isSome_mapInsert (m : PlayerMap) (k k' : Int) (p : Player)
    (h : (mapFind m k').isSome) : (mapFind (mapInsert m k p) k').isSome := by
  by_cases hk : k' = k
  · subst hk
    rw [mapFind_mapInsert_self]
    rfl
  · rw [mapFind_mapInsert_ne _ _ _ _ hk]
    exact h

theorem mapFind_isSome_scoreOne (s : Int) (q : Question) (m : PlayerMap) (a : Answer) (k : Int)
    (h : (mapFind m k).isSome) : (mapFind (scoreOne s q m a) k).isSome := by
  unfold scoreOne mapIndex
  cases hf : mapFind m a.playerId with
  | none =>
    by_cases hc : a.answerIndex = q.correct
    · simp only [hc, if_true]
      exact mapFind_isSome_mapInsert _ _ _ _ (mapFind_isSome_mapInsert _ _ _ _ h)
    · simp only [hc, if_false]
      exact mapFind_isSome_mapInsert _ _ _ _ h
  | some p =>
    by_cases hc : a.answerIndex = q.correct
    · simp only [hc, if_true]
      exact mapFind_isSome_mapInsert _ _ _ _ h
    · simp only [hc, if_false]
      exact h

theorem mapFind_isSome_scoreOne_self (s : Int) (q : Question) (m : PlayerMap) (a : Answer) :
    (mapFind (scoreOne s q m a) a.playerId).isSome := by
  unfold scoreOne mapIndex
  cases hf : mapFind m a.playerId with
  | none =>
    by_cases hc : a.answerIndex = q.correct
    · simp [hc, mapFind_mapInsert_self]
    · simp [hc, mapFind_mapInsert_self]
  | some p =>
    by_cases hc : a.answerIndex = q.correct
    · simp [hc, mapFind_mapInsert_self]
    · simp [hc, hf]

theorem mapFind_isSome_foldl_scoreOne (s : Int) (q : Question) (k : Int) (l : List Answer) :
    ∀ m : PlayerMap, (mapFind m k).isSome → (mapFind (l.foldl (scoreOne s q) m) k).isSome := by
  induction l with
  | nil => intro m h; exact h
  | cons a rest ih =>
    intro m h
    rw [List.foldl_cons]
    exact ih _ (mapFind_isSome_scoreOne _ _ _ _ _ h)

theorem mapFind_isSome_foldl_scoreOne_mem (s : Int) (q : Question) (l : List Answer) :
    ∀ m : PlayerMap, ∀ a ∈ l, (mapFind (l.foldl (scoreOne s q) m) a.playerId).isSome := by
  induction l with
  | nil => intro m a ha; simp at ha
  | cons b rest ih =>
    intro m a ha
    rw [List.foldl_cons]
    rcases List.mem_cons.mp ha with hab | hr
    · subst hab
      exact mapFind_isSome_foldl_scoreOne _ _ _ _ _ (mapFind_isSome_scoreOne_self _ _ _ _)
    · exact ih _ a hr

theorem resultItems_isSome (g : Game) (q : Question) (l : List Answer)
    (h : ∀ a ∈ l, (mapFind g.players a.playerId).isSome) : (resultItems g q l).isSome := by
  induction l with
  | nil => rfl
  | cons a rest ih =>
    have ha := h a (List.mem_cons_self _ _)
    have hr := ih (fun b hb => h b (List.mem_cons_of_mem _ hb))
    obtain ⟨p, hp⟩ := Option.isSome_iff_exists.mp ha
    obtain ⟨items, hi⟩ := Option.isSome_iff_exists.mp hr
    simp [resultItems, hp, hi]

/-- After `scoreAnswers` every submitter has a record, so `players.at` in
`jsonQuestionResults` does not throw. -/
theorem jsonQuestionResults_after_scoring (g : Game) (q : Question) (st : GameState) :
    ∃ j, jsonQuestionResults { scoreAnswers g q with state := st } q = some j := by
  have h := resultItems_isSome { scoreAnswers g q with state := st } q g.answers (by
    intro a ha
    show (mapFind (scoreAnswers g q).players a.playerId).isSome
    rw [scoreAnswers_players]
    exact mapFind_isSome_foldl_scoreOne_mem _ _ _ _ a ha)
  obtain ⟨items, hi⟩ := Option.isSome_iff_exists.mp h
  refine ⟨Reply.question_results q.correct items, ?_⟩
  unfold jsonQuestionResults
  have hans : ({ scoreAnswers g q with state := st } : Game).answers = g.answers := rfl
  rw [hans, hi]

theorem checkQuestionTimeout_of_state_ne (g : Game) (now : Int)
    (h : g.state ≠ GameState.QUESTION_ACTIVE) : checkQuestionTimeout g now = (g, []) := by
  simp [checkQuestionTimeout, h]

/-- What a run of the timeout check does in QUESTION_ACTIVE with a valid current question. -/
theorem checkQuestionTimeout_active (g : Game) (now : Int) (q : Question)
    (hs : g.state = GameState.QUESTION_ACTIVE) (hq : currentQuestion g = some q) :
    (now - g.questionStartTime < q.timeLimitMs → checkQuestionTimeout g now = (g, []))
      ∧ (q.timeLimitMs ≤ now - g.questionStartTime →
          ∃ j, jsonQuestionResults
                { scoreAnswers g q with state := GameState.QUESTION_RESULTS } q = some j
            ∧ checkQuestionTimeout g now =
              ({ scoreAnswers g q with state := GameState.QUESTION_RESULTS },
                broadcast { scoreAnswers g q with state := GameState.QUESTION_RESULTS } j)) := by
  obtain ⟨hidx, hqa⟩ := currentQuestion_eq_some g q hq
  constructor
  · intro ht
    have ht' : ¬ (now - g.questionStartTime ≥ q.timeLimitMs) := by omega
    simp [checkQuestionTimeout, hidx, hqa, ht']
  · intro ht
    obtain ⟨j, hj⟩ := jsonQuestionResults_after_scoring g q GameState.QUESTION_RESULTS
    refine ⟨j, hj, ?_⟩
    have ht' : now - g.questionStartTime ≥ q.timeLimitMs := ht
    unfold checkQuestionTimeout
    rw [if_neg (by simp [hs]), if_neg hidx, hqa]
    simp only [ht', if_true, hj]

/-- C5: idempotence of the timeout monitor.  For every game and clock readings `t1`, `t2`
(so in particular for `t1 ≤ t2`): if the run at `t1` left the state QUESTION_RESULTS, a second
run at `t2` returns that same game and sends nothing.  A run that makes the transition
applies `scoreAnswers` once and sends one broadcast of the results.  The check changes
nothing and sends nothing when the state is not QUESTION_ACTIVE, and when the elapsed time
is strictly less than the current question's time limit. -/
theorem checkQuestionTimeout_idempotent (g : Game) (t1 t2 : Int) :
    ((checkQuestionTimeout g t1).1.state = GameState.QUESTION_RESULTS →
        checkQuestionTimeout (checkQuestionTimeout g t1).1 t2 = ((checkQuestionTimeout g t1).1, []))
      ∧ (g.state = GameState.QUESTION_ACTIVE →
          (checkQuestionTimeout g t1).1.state = GameState.QUESTION_RESULTS →
          ∃ q j, currentQuestion g = some q
            ∧ checkQuestionTimeout g t1 =
              ({ scoreAnswers g q with state := GameState.QUESTION_RESULTS },
                broadcast { scoreAnswers g q with state := GameState.QUESTION_RESULTS } j))
      ∧ (g.state ≠ GameState.QUESTION_ACTIVE → checkQuestionTimeout g t1 = (g, []))
      ∧ (∀ q, currentQuestion g = some q → t1 - g.questionStartTime < q.timeLimitMs →
          checkQuestionTimeout g t1 = (g, [])) := by
  refine ⟨?_, ?_, checkQuestionTimeout_of_state_ne g t1, ?_⟩
  · intro h
    exact checkQuestionTimeout_of_state_ne _ _ (by rw [h]; decide)
  · intro hs hres
    cases hq : currentQuestion g with
    | none =>
      exfalso
      have hsame : checkQuestionTimeout g t1 = (g, []) := by
        unfold currentQuestion at hq
        unfold checkQuestionTimeout
        by_cases hidx : g.currentQuestionIndex < 0 ∨ g.currentQuestionIndex ≥ intSize g.questions
        · simp [hidx]
        · rw [if_pos (by omega)] at hq
          simp [hidx, hq]
      rw [hsame] at hres
      rw [hs] at hres
      exact absurd hres (by decide)
    | some q =>
      obtain ⟨hlt, hge⟩ := checkQuestionTimeout_active g t1 q hs hq
      by_cases ht : t1 - g.questionStartTime < q.timeLimitMs
      · exfalso
        rw [hlt ht, hs] at hres
        exact absurd hres (by decide)
      · obtain ⟨j, _, hj⟩ := hge (by omega)
        exact ⟨q, j, rfl, hj⟩
  · intro q hq ht
    by_cases hs : g.state = GameState.QUESTION_ACTIVE
    · exact (checkQuestionTimeout_active g t1 q hs hq).1 ht
    · exact checkQuestionTimeout_of_state_ne g t1 hs

/-- C5 witness: with Bob's answer at 200 ms, the check at 6000 ms closes the 1000 ms
question (Bob's total becomes 980) and the check at 6500 ms then changes nothing; a check at
5500 ms, before the deadline, changes nothing. -/
theorem checkQuestionTimeout_idempotent_witness :
    checkQuestionTimeout
        (checkQuestionTimeout (answeredGame (sampleQuestion 1000) 200) 6000).1 6500
        = ((checkQuestionTimeout (answeredGame (sampleQuestion 1000) 200) 6000).1, [])
      ∧ totalOf (checkQuestionTimeout (answeredGame (sampleQuestion 1000) 200) 6000).1.players 2
        = 980
      ∧ checkQuestionTimeout (answeredGame (sampleQuestion 1000) 200) 5500
        = (answeredGame (sampleQuestion 1000) 200, []) :=
  ⟨(checkQuestionTimeout_idempotent (answeredGame (sampleQuestion 1000) 200) 6000 6500).1
      (by decide),
   by decide,
   (checkQuestionTimeout_idempotent (answeredGame (sampleQuestion 1000) 200) 5500 5500).2.2.2
      (sampleQuestion 1000) (by decide) (by decide)⟩

/-! ## Shape of each handler's result -/

theorem Game.eta_state (g : Game) {st : GameState} (h : g.state = st) :
    ({ g with state := st } : Game) = g := by
  subst h
  rfl

theorem startQuestion_cases (g : Game) (now : Int) :
    (startQuestion g now).1 = g
      ∨ (g.currentQuestionIndex + 1 < intSize g.questions
          ∧ (startQuestion g now).1 =
            { g with
              currentQuestionIndex := g.currentQuestionIndex + 1, answers := [],
              players := g.players.map (fun p => (p.1, { p.2 with answered := false })),
              questionStartTime := now, state := GameState.QUESTION_ACTIVE }) := by
  unfold startQuestion
  by_cases h : g.currentQuestionIndex + 1 ≥ intSize g.questions
  · left; simp [h]
  · right
    refine ⟨by omega, ?_⟩
    rw [if_neg h]
    simp only [resetAnswerFlags]
    split <;> rfl

theorem handleStart_cases (g : Game) (fd now : Int) :
    (handleStart g fd now).1 = g
      ∨ (g.state = GameState.LOBBY
          ∧ (handleStart g fd now).1 = (startQuestion { g with currentQuestionIndex := -1 } now).1)
      ∨ (g.state = GameState.QUESTION_RESULTS
          ∧ (handleStart g fd now).1 = (startQuestion g now).1) := by
  by_cases hp : findPlayerIdByFd g fd = -1
  · left; simp [handleStart, hp]
  obtain ⟨p, hfind⟩ := mapFind_findPlayerIdByFd g fd hp
  by_cases hh : p.isHost = true
  swap
  · left; simp [handleStart, hp, mapIndex_of_mapFind _ _ _ hfind, hh]
  by_cases hl : g.state = GameState.LOBBY
  · right; left
    refine ⟨hl, ?_⟩
    simp [handleStart, hp, mapIndex_of_mapFind _ _ _ hfind, hh, hl]
  by_cases hr : g.state = GameState.QUESTION_RESULTS
  · right; right
    refine ⟨hr, ?_⟩
    simp [handleStart, hp, mapIndex_of_mapFind _ _ _ hfind, hh, hr]
    rw [Game.eta_state g hr]
  · left; simp [handleStart, hp, mapIndex_of_mapFind _ _ _ hfind, hh, hl, hr]

theorem handleNext_cases (stdSort : List Player → List Player) (g : Game) (fd now : Int) :
    (handleNext stdSort g fd now).1 = g
      ∨ (g.state = GameState.QUESTION_RESULTS
          ∧ g.currentQuestionIndex + 1 ≥ intSize g.questions
          ∧ (handleNext stdSort g fd now).1 = { g with state := GameState.FINISHED })
      ∨ (g.state = GameState.QUESTION_RESULTS
          ∧ ¬ (g.currentQuestionIndex + 1 ≥ intSize g.questions)
          ∧ (handleNext stdSort g fd now).1 = (startQuestion g now).1) := by
  by_cases hp : findPlayerIdByFd g fd = -1
  · left; simp [handleNext, hp]
  obtain ⟨p, hfind⟩ := mapFind_findPlayerIdByFd g fd hp
  by_cases hh : p.isHost = true
  swap
  · left; simp [handleNext, hp, mapIndex_of_mapFind _ _ _ hfind, hh]
  by_cases hr : g.state = GameState.QUESTION_RESULTS
  swap
  · left; simp [handleNext, hp, mapIndex_of_mapFind _ _ _ hfind, hh, hr]
  by_cases hlast : g.currentQuestionIndex + 1 ≥ intSize g.questions
  · right; left
    refine ⟨hr, hlast, ?_⟩
    simp [handleNext, hp, mapIndex_of_mapFind _ _ _ hfind, hh, hr, hlast, finishGame]
  · right; right
    refine ⟨hr, hlast, ?_⟩
    simp [handleNext, hp, mapIndex_of_mapFind _ _ _ hfind, hh, hr, hlast]
    rw [Game.eta_state g hr]

theorem handleReset_cases (g : Game) (fd : Int) :
    (handleReset g fd).1 = g
      ∨ (g.state = GameState.FINISHED ∧ (handleReset g fd).1 = initGame) := by
  by_cases hp : findPlayerIdByFd g fd = -1
  · left; simp [handleReset, hp]
  obtain ⟨p, hfind⟩ := mapFind_findPlayerIdByFd g fd hp
  by_cases hh : p.isHost = true
  swap
  · left; simp [handleReset, hp, mapIndex_of_mapFind _ _ _ hfind, hh]
  by_cases hf : g.state = GameState.FINISHED
  · right
    refine ⟨hf, ?_⟩
    simp [handleReset, hp, mapIndex_of_mapFind _ _ _ hfind, hh, hf, resetGame, resetAll, initGame]
  · left; simp [handleReset, hp, mapIndex_of_mapFind _ _ _ hfind, hh, hf]

theorem handleCreateGame_cases (g : Game) (fd : Int) (msg : Msg) (rnd : Nat) :
    (handleCreateGame g fd msg rnd).1 = g
      ∨ ((g.state = GameState.NO_GAME ∨ g.state = GameState.FINISHED)
          ∧ ∃ name, (handleCreateGame g fd msg rnd).1 =
            { roomCode := generateRoomCode rnd, state := GameState.SETUP,
              players := [(1, { id := 1, name := name, totalScore := 0, isHost := true,
                                answered := false, socketFd := fd })],
              questions := [], nextPlayerId := 2, currentQuestionIndex := -1,
              questionStartTime := 0, answers := [] }) := by
  by_cases h : g.state ≠ GameState.NO_GAME ∧ g.state ≠ GameState.FINISHED
  · left; simp [handleCreateGame, h]
  · right
    refine ⟨by
      by_cases h1 : g.state = GameState.NO_GAME
      · exact Or.inl h1
      · by_cases h2 : g.state = GameState.FINISHED
        · exact Or.inr h2
        · exact absurd ⟨h1, h2⟩ h,
      if msg.name.getD "" = "" then "host" else msg.name.getD "", ?_⟩
    unfold handleCreateGame
    rw [if_neg h]
    simp [resetAll, mapInsert]

theorem handleAddQuestion_cases (g : Game) (fd : Int) (msg : Msg) :
    (handleAddQuestion g fd msg).1 = g
      ∨ (g.state = GameState.SETUP
          ∧ ∃ q, (handleAddQuestion g fd msg).1 = { g with questions := g.questions ++ [q] }) := by
  by_cases hs : g.state = GameState.SETUP
  swap
  · left; simp [handleAddQuestion, hs]
  by_cases hp : findPlayerIdByFd g fd = -1
  · left; simp [handleAddQuestion, hp]
  obtain ⟨p, hfind⟩ := mapFind_findPlayerIdByFd g fd hp
  by_cases hh : p.isHost = true
  swap
  · left; simp [handleAddQuestion, hp, mapIndex_of_mapFind _ _ _ hfind, hh]
  by_cases hv : (msg.text.getD "" = "" ∨ msg.answers.getD [] = [] ∨ msgInt msg.correct (-1) < 0
      ∨ msgInt msg.correct (-1) ≥ intSize (msg.answers.getD []))
  · left
    unfold handleAddQuestion
    simp only [mapIndex_of_mapFind _ _ _ hfind]
    simp [hs, hp, hh, hv]
    rw [Game.eta_state g hs]
  · right
    refine ⟨hs, { id := intSize g.questions + 1, text := msg.text.getD "",
                  answers := msg.answers.getD [], correct := msgInt msg.correct (-1),
                  timeLimitMs := msgInt msg.time_limit_ms 10000 }, ?_⟩
    unfold handleAddQuestion
    simp only [mapIndex_of_mapFind _ _ _ hfind]
    simp [hs, hp, hh, hv]

theorem handleOpenLobby_cases (g : Game) (fd : Int) :
    (handleOpenLobby g fd).1 = g
      ∨ (g.state = GameState.SETUP ∧ g.questions ≠ []
          ∧ (handleOpenLobby g fd).1 = { g with state := GameState.LOBBY }) := by
  by_cases hp : findPlayerIdByFd g fd = -1
  · left; simp [handleOpenLobby, hp]
  obtain ⟨p, hfind⟩ := mapFind_findPlayerIdByFd g fd hp
  by_cases hh : p.isHost = true
  swap
  · left; simp [handleOpenLobby, hp, mapIndex_of_mapFind _ _ _ hfind, hh]
  by_cases hs : g.state = GameState.SETUP
  swap
  · left; simp [handleOpenLobby, hp, mapIndex_of_mapFind _ _ _ hfind, hh, hs]
  by_cases hq : g.questions = []
  · left
    simp [handleOpenLobby, hp, mapIndex_of_mapFind _ _ _ hfind, hh, hs, hq]
    cases g
    simp_all
  · right
    refine ⟨hs, hq, ?_⟩
    simp [handleOpenLobby, hp, mapIndex_of_mapFind _ _ _ hfind, hh, hs, hq]

theorem handleJoin_cases (g : Game) (fd : Int) (msg : Msg) :
    (handleJoin g fd msg).1 = g
      ∨ (g.state = GameState.LOBBY
          ∧ ∃ name, (handleJoin g fd msg).1 =
            { g with
              nextPlayerId := g.nextPlayerId + 1,
              players := mapInsert g.players g.nextPlayerId
                { id := g.nextPlayerId, name := name, totalScore := 0,
                  isHost := g.players.isEmpty, answered := false, socketFd := fd } }) := by
  by_cases hs : g.state = GameState.LOBBY
  swap
  · left; simp [handleJoin, hs]
  by_cases hv : msg.room.getD "" ≠ g.roomCode ∨ msg.name.getD "" = ""
  · left
    unfold handleJoin
    rw [if_neg (by simp [hs])]
    simp only [hv, if_true]
  · right
    refine ⟨hs, msg.name.getD "", ?_⟩
    unfold handleJoin
    rw [if_neg (by simp [hs])]
    simp only [hv, if_false]

theorem handleAnswer_cases (g : Game) (fd : Int) (msg : Msg) (now : Int) :
    (handleAnswer g fd msg now).1 = g
      ∨ (g.state = GameState.QUESTION_ACTIVE
          ∧ ∃ p, mapFind g.players (findPlayerIdByFd g fd) = some p
            ∧ p.isHost = false ∧ p.answered = false
            ∧ ∃ a : Answer, a.playerId = findPlayerIdByFd g fd
              ∧ (handleAnswer g fd msg now).1 =
                { g with
                  players := mapInsert g.players (findPlayerIdByFd g fd) { p with answered := true },
                  answers := g.answers ++ [a] }) := by
  by_cases hs : g.state = GameState.QUESTION_ACTIVE
  swap
  · left; simp [handleAnswer, hs]
  by_cases hids : msgInt msg.question_id (-1) < 0 ∨ msgInt msg.answer (-1) < 0
  · left; simp [handleAnswer, hids]
  by_cases hidx : g.currentQuestionIndex < 0 ∨ g.currentQuestionIndex ≥ intSize g.questions
  · left; simp [handleAnswer, hidx]
  cases hq : questionAt g.questions g.currentQuestionIndex with
  | none => left; simp [handleAnswer, hq]
  | some q =>
    by_cases hid : q.id = msgInt msg.question_id (-1)
    swap
    · left; simp [handleAnswer, hq, hid]
    by_cases ht : now - g.questionStartTime > q.timeLimitMs
    · left; simp [handleAnswer, hq, ht]
    by_cases hp : findPlayerIdByFd g fd = -1
    · left; simp [handleAnswer, hq, hp]
    obtain ⟨p, hfind⟩ := mapFind_findPlayerIdByFd g fd hp
    by_cases hh : p.isHost = true
    · left; simp [handleAnswer, hq, mapIndex_of_mapFind _ _ _ hfind, hh]
    by_cases han : p.answered = true
    · left; simp [handleAnswer, hq, mapIndex_of_mapFind _ _ _ hfind, han]
    right
    refine ⟨hs, p, hfind, by simpa using hh, by simpa using han,
      { playerId := findPlayerIdByFd g fd, answerIndex := msgInt msg.answer (-1),
        receiveTimeMs := now }, rfl, ?_⟩
    simp [handleAnswer, hs, hids, hidx, hq, ht, hp, mapIndex_of_mapFind _ _ _ hfind, hh, han, hid]

theorem checkQuestionTimeout_cases (g : Game) (now : Int) :
    (checkQuestionTimeout g now).1 = g
      ∨ (g.state = GameState.QUESTION_ACTIVE
          ∧ ∃ q, (checkQuestionTimeout g now).1 =
            { scoreAnswers g q with state := GameState.QUESTION_RESULTS }) := by
  by_cases hs : g.state = GameState.QUESTION_ACTIVE
  swap
  · left; rw [checkQuestionTimeout_of_state_ne g now hs]
  cases hq : currentQuestion g with
  | none =>
    left
    unfold currentQuestion at hq
    unfold checkQuestionTimeout
    by_cases hidx : g.currentQuestionIndex < 0 ∨ g.currentQuestionIndex ≥ intSize g.questions
    · simp [hidx]
    · rw [if_pos (by omega)] at hq
      simp [hidx, hq]
  | some q =>
    obtain ⟨hlt, hge⟩ := checkQuestionTimeout_active g now q hs hq
    by_cases ht : now - g.questionStartTime < q.timeLimitMs
    · left; rw [hlt ht]
    · right
      obtain ⟨j, _, hj⟩ := hge (by omega)
      exact ⟨hs, q, by rw [hj]⟩

theorem disconnectClient_cases (g : Game) (fd : Int) :
    (disconnectClient g fd).1 = g
      ∨ (disconnectClient g fd).1 =
        { g with players := g.players.filter (fun p => !decide (p.2.socketFd = fd)) } := by
  unfold disconnectClient
  by_cases hp : findPlayerIdByFd g fd ≠ -1
  · right
    rw [if_pos hp]
    unfold closeClient
    dsimp only
    split <;> rfl
  · left
    rw [if_neg hp]

/-! ## The map under insertion -/

theorem keysSorted_cons (k : Int) (p : Player) (m : PlayerMap) :
    keysSorted ((k, p) :: m) ↔ (∀ e ∈ m, k < e.1) ∧ keysSorted m := by
  unfold keysSorted
  rw [List.map_cons, List.pairwise_cons]
  constructor
  · rintro ⟨h1, h2⟩
    exact ⟨fun e he => h1 e.1 (List.mem_map_of_mem _ he), h2⟩
  · rintro ⟨h1, h2⟩
    refine ⟨fun x hx => ?_, h2⟩
    obtain ⟨e, he, rfl⟩ := List.mem_map.mp hx
    exact h1 e he

theorem mem_of_mapFind (m : PlayerMap) (k : Int) (p : Player) (h : mapFind m k = some p) :
    (k, p) ∈ m := by
  induction m with
  | nil => simp [mapFind] at h
  | cons e rest ih =>
    obtain ⟨k', p'⟩ := e
    unfold mapFind at h
    by_cases hk : k' = k
    · rw [if_pos hk] at h
      cases h
      subst hk
      exact List.mem_cons_self _ _
    · rw [if_neg hk] at h
      exact List.mem_cons_of_mem _ (ih h)

theorem mapFind_eq_none_of_fresh (m : PlayerMap) (k : Int) (h : ∀ e ∈ m, e.1 < k) :
    mapFind m k = none := by
  cases hf : mapFind m k with
  | none => rfl
  | some p =>
    have := h _ (mem_of_mapFind _ _ _ hf)
    simp at this

theorem mem_mapInsert (m : PlayerMap) (k : Int) (p : Player) (e : Int × Player)
    (h : e ∈ mapInsert m k p) : e = (k, p) ∨ e ∈ m := by
  induction m with
  | nil => simp [mapInsert] at h; exact Or.inl h
  | cons x rest ih =>
    obtain ⟨k', p'⟩ := x
    unfold mapInsert at h
    by_cases h1 : k' = k
    · rw [if_pos h1] at h
      rcases List.mem_cons.mp h with h | h
      · exact Or.inl h
      · exact Or.inr (List.mem_cons_of_mem _ h)
    · rw [if_neg h1] at h
      by_cases h2 : k < k'
      · rw [if_pos h2] at h
        rcases List.mem_cons.mp h with h | h
        · exact Or.inl h
        · exact Or.inr h
      · rw [if_neg h2] at h
        rcases List.mem_cons.mp h with h | h
        · exact Or.inr (h ▸ List.mem_cons_self _ _)
        · rcases ih h with h | h
          · exact Or.inl h
          · exact Or.inr (List.mem_cons_of_mem _ h)

/-- In a sorted map the entry stored by `mapInsert` is the only one under its key. -/
theorem mem_mapInsert_sorted (m : PlayerMap) (k : Int) (p : Player) (hs : keysSorted m)
    (e : Int × Player) (h : e ∈ mapInsert m k p) : e = (k, p) ∨ (e ∈ m ∧ e.1 ≠ k) := by
  induction m with
  | nil => simp [mapInsert] at h; exact Or.inl h
  | cons x rest ih =>
    obtain ⟨k', p'⟩ := x
    obtain ⟨hlt, hrest⟩ := (keysSorted_cons _ _ _).mp hs
    unfold mapInsert at h
    by_cases h1 : k' = k
    · rw [if_pos h1] at h
      rcases List.mem_cons.mp h with h | h
      · exact Or.inl h
      · refine Or.inr ⟨List.mem_cons_of_mem _ h, ?_⟩
        have := hlt e h
        omega
    · rw [if_neg h1] at h
      by_cases h2 : k < k'
      · rw [if_pos h2] at h
        rcases List.mem_cons.mp h with h | h
        · exact Or.inl h
        · refine Or.inr ⟨h, ?_⟩
          rcases List.mem_cons.mp h with h | h
          · rw [h]; exact h1
          · have := hlt e h
            omega
      · rw [if_neg h2] at h
        rcases List.mem_cons.mp h with h | h
        · exact Or.inr ⟨h ▸ List.mem_cons_self _ _, by rw [h]; exact h1⟩
        · rcases ih hrest h with h | h
          · exact Or.inl h
          · exact Or.inr ⟨List.mem_cons_of_mem _ h.1, h.2⟩

theorem keysSorted_mapInsert (m : PlayerMap) (k : Int) (p : Player) (hs : keysSorted m) :
    keysSorted (mapInsert m k p) := by
  induction m with
  | nil => simp [mapInsert, keysSorted]
  | cons x rest ih =>
    obtain ⟨k', p'⟩ := x
    obtain ⟨hlt, hrest⟩ := (keysSorted_cons _ _ _).mp hs
    unfold mapInsert
    by_cases h1 : k' = k
    · rw [if_pos h1]
      subst h1
      exact (keysSorted_cons _ _ _).mpr ⟨hlt, hrest⟩
    · rw [if_neg h1]
      by_cases h2 : k < k'
      · rw [if_pos h2]
        refine (keysSorted_cons _ _ _).mpr ⟨?_, hs⟩
        intro e he
        rcases List.mem_cons.mp he with he | he
        · rw [he]; exact h2
        · have := hlt e he
          omega
      · rw [if_neg h2]
        refine (keysSorted_cons _ _ _).mpr ⟨?_, ih hrest⟩
        intro e he
        rcases mem_mapInsert _ _ _ _ he with he | he
        · rw [he]
          show k' < k
          omega
        · exact hlt e he

theorem hostCount_cons (k : Int) (p : Player) (m : PlayerMap) :
    hostCount ((k, p) :: m) = hostCount m + (if p.isHost then 1 else 0) := by
  unfold hostCount
  rw [List.countP_cons]

theorem hostCount_mapInsert_new (m : PlayerMap) (k : Int) (p : Player)
    (h : mapFind m k = none) :
    hostCount (mapInsert m k p) = hostCount m + (if p.isHost then 1 else 0) := by
  induction m with
  | nil =>
    unfold mapInsert
    rw [hostCount_cons]
  | cons x rest ih =>
    obtain ⟨k', p'⟩ := x
    unfold mapFind at h
    by_cases h1 : k' = k
    · rw [if_pos h1] at h
      cases h
    · rw [if_neg h1] at h
      unfold mapInsert
      rw [if_neg h1]
      by_cases h2 : k < k'
      · rw [if_pos h2, hostCount_cons]
      · rw [if_neg h2, hostCount_cons, hostCount_cons, ih h]
        omega

theorem hostCount_mapInsert_replace (m : PlayerMap) (k : Int) (p p0 : Player)
    (hs : keysSorted m) (h : mapFind m k = some p0) (hh : p.isHost = p0.isHost) :
    hostCount (mapInsert m k p) = hostCount m := by
  induction m with
  | nil => simp [mapFind] at h
  | cons x rest ih =>
    obtain ⟨k', p'⟩ := x
    obtain ⟨hlt, hrest⟩ := (keysSorted_cons _ _ _).mp hs
    unfold mapFind at h
    unfold mapInsert
    by_cases h1 : k' = k
    · rw [if_pos h1] at h
      cases h
      rw [if_pos h1, hostCount_cons, hostCount_cons, hh]
    · rw [if_neg h1] at h
      rw [if_neg h1]
      by_cases h2 : k < k'
      · exfalso
        have := hlt _ (mem_of_mapFind _ _ _ h)
        simp only at this
        omega
      · rw [if_neg h2, hostCount_cons, hostCount_cons, ih hrest h]

/-! ## The map under `scoreAnswers` -/

theorem keysSorted_scoreOne (s : Int) (q : Question) (m : PlayerMap) (a : Answer)
    (hs : keysSorted m) : keysSorted (scoreOne s q m a) := by
  unfold scoreOne mapIndex
  cases hf : mapFind m a.playerId with
  | none =>
    by_cases hc : a.answerIndex = q.correct
    · simp only [hc, if_true]
      exact keysSorted_mapInsert _ _ _ (keysSorted_mapInsert _ _ _ hs)
    · simp only [hc, if_false]
      exact keysSorted_mapInsert _ _ _ hs
  | some p =>
    by_cases hc : a.answerIndex = q.correct
    · simp only [hc, if_true]
      exact keysSorted_mapInsert _ _ _ hs
    · simp only [hc, if_false]
      exact hs

theorem hostCount_scoreOne (s : Int) (q : Question) (m : PlayerMap) (a : Answer)
    (hs : keysSorted m) : hostCount (scoreOne s q m a) = hostCount m := by
  unfold scoreOne mapIndex
  cases hf : mapFind m a.playerId with
  | none =>
    have h0 : hostCount (mapInsert m a.playerId Player.zero) = hostCount m := by
      rw [hostCount_mapInsert_new _ _ _ hf]
      simp [Player.zero]
    by_cases hc : a.answerIndex = q.correct
    · simp only [hc, if_true]
      refine Eq.trans (hostCount_mapInsert_replace _ _ _ Player.zero
        (keysSorted_mapInsert _ _ _ hs) (mapFind_mapInsert_self _ _ _) ?_) h0
      rfl
    · simp only [hc, if_false]
      exact h0
  | some p =>
    by_cases hc : a.answerIndex = q.correct
    · simp only [hc, if_true]
      exact hostCount_mapInsert_replace _ _ _ p hs hf rfl
    · simp only [hc, if_false]

theorem mem_scoreOne (s : Int) (q : Question) (m : PlayerMap) (a : Answer) (e : Int × Player)
    (h : e ∈ scoreOne s q m a) : e.1 = a.playerId ∨ e ∈ m := by
  unfold scoreOne mapIndex at h
  cases hf : mapFind m a.playerId with
  | none =>
    rw [hf] at h
    by_cases hc : a.answerIndex = q.correct
    · simp only [hc, if_true] at h
      rcases mem_mapInsert _ _ _ _ h with h | h
      · exact Or.inl (by rw [h])
      · rcases mem_mapInsert _ _ _ _ h with h | h
        · exact Or.inl (by rw [h])
        · exact Or.inr h
    · simp only [hc, if_false] at h
      rcases mem_mapInsert _ _ _ _ h with h | h
      · exact Or.inl (by rw [h])
      · exact Or.inr h
  | some p =>
    rw [hf] at h
    by_cases hc : a.answerIndex = q.correct
    · simp only [hc, if_true] at h
      rcases mem_mapInsert _ _ _ _ h with h | h
      · exact Or.inl (by rw [h])
      · exact Or.inr h
    · simp only [hc, if_false] at h
      exact Or.inr h

theorem foldl_scoreOne_facts (s : Int) (q : Question) (l : List Answer) :
    ∀ m : PlayerMap, keysSorted m →
      keysSorted (l.foldl (scoreOne s q) m)
        ∧ hostCount (l.foldl (scoreOne s q) m) = hostCount m
        ∧ ∀ e ∈ l.foldl (scoreOne s q) m, (∃ a ∈ l, e.1 = a.playerId) ∨ e ∈ m := by
  induction l with
  | nil => intro m hs; exact ⟨hs, rfl, fun e he => Or.inr he⟩
  | cons a rest ih =>
    intro m hs
    rw [List.foldl_cons]
    obtain ⟨h1, h2, h3⟩ := ih (scoreOne s q m a) (keysSorted_scoreOne _ _ _ _ hs)
    refine ⟨h1, by rw [h2, hostCount_scoreOne _ _ _ _ hs], ?_⟩
    intro e he
    rcases h3 e he with ⟨b, hb, hk⟩ | h
    · exact Or.inl ⟨b, List.mem_cons_of_mem _ hb, hk⟩
    · rcases mem_scoreOne _ _ _ _ _ h with h | h
      · exact Or.inl ⟨a, List.mem_cons_self _ _, h⟩
      · exact Or.inr h

/-! ## The room code is never empty -/

theorem toDigitsCore_ne_nil (b : Nat) (fuel : Nat) :
    ∀ (n : Nat) (ds : List Char), ds ≠ [] → Nat.toDigitsCore b fuel n ds ≠ [] := by
  induction fuel with
  | zero => intro n ds h; simpa [Nat.toDigitsCore] using h
  | succ f ih =>
    intro n ds _
    unfold Nat.toDigitsCore
    dsimp only
    split
    · exact List.cons_ne_nil _ _
    · exact ih _ _ (List.cons_ne_nil _ _)

theorem to_string_ne_empty (n : Nat) : to_string n ≠ "" := by
  unfold to_string Nat.repr Nat.toDigits
  intro h
  have h1 : Nat.toDigitsCore 10 (n + 1) n [] ≠ [] := by
    unfold Nat.toDigitsCore
    dsimp only
    split
    · exact List.cons_ne_nil _ _
    · exact toDigitsCore_ne_nil _ _ _ _ (List.cons_ne_nil _ _)
  apply h1
  have h2 := congrArg String.data h
  simpa [List.asString] using h2

theorem generateRoomCode_ne_empty (rnd : Nat) : generateRoomCode rnd ≠ "" :=
  to_string_ne_empty _

/-! ## Preservation of the invariant -/

theorem hostCount_map_flags (m : PlayerMap) :
    hostCount (m.map (fun p => (p.1, { p.2 with answered := false }))) = hostCount m := by
  unfold hostCount
  rw [List.countP_map]
  rfl

theorem keysSorted_map_flags (m : PlayerMap) (h : keysSorted m) :
    keysSorted (m.map (fun p => (p.1, { p.2 with answered := false }))) := by
  unfold keysSorted at h ⊢
  rw [List.map_map]
  exact h

theorem keysSorted_filter (m : PlayerMap) (f : Int × Player → Bool) (h : keysSorted m) :
    keysSorted (m.filter f) := by
  unfold keysSorted at h ⊢
  exact List.Pairwise.sublist ((List.filter_sublist m).map _) h

theorem hostCount_filter_le (m : PlayerMap) (f : Int × Player → Bool) :
    hostCount (m.filter f) ≤ hostCount m := by
  unfold hostCount
  exact List.Sublist.countP_le _ (List.filter_sublist m)

theorem Inv.index_ge (g : Game) (h : Inv g) : -1 ≤ g.currentQuestionIndex := by
  cases hs : g.state with
  | NO_GAME => have := h.indexBefore (Or.inl hs); omega
  | SETUP => have := h.indexBefore (Or.inr (Or.inl hs)); omega
  | LOBBY => have := h.indexBefore (Or.inr (Or.inr hs)); omega
  | QUESTION_ACTIVE => have := (h.indexValid (Or.inl hs)).1; omega
  | QUESTION_RESULTS => have := (h.indexValid (Or.inr hs)).1; omega
  | FINISHED => have := h.indexAfter hs; omega

theorem inv_initGame : Inv initGame := by
  constructor <;> simp [initGame, keysSorted, hostCount]

theorem inv_startQuestion (g : Game) (now : Int) (h : Inv g)
    (hst : g.state = GameState.LOBBY ∨ g.state = GameState.QUESTION_RESULTS) :
    Inv (startQuestion g now).1 := by
  rcases startQuestion_cases g now with hsame | ⟨hlt, hform⟩
  · rw [hsame]; exact h
  rw [hform]
  have hne : g.state ≠ GameState.NO_GAME := by
    rcases hst with hs | hs <;> rw [hs] <;> decide
  exact
    { sorted := keysSorted_map_flags _ h.sorted
      keysFresh := by
        intro e he
        obtain ⟨e', he', rfl⟩ := List.mem_map.mp he
        exact h.keysFresh e' he'
      answersFresh := by intro a ha; simp at ha
      answersNodup := by simp
      answeredFlag := by intro _ a ha; simp at ha
      answersEmpty := by intro hs; simp at hs
      roomCode := by
        have := h.roomCode.mpr hne
        simpa using this
      oneHost := by
        show hostCount (g.players.map _) ≤ 1
        rw [hostCount_map_flags]; exact h.oneHost
      indexBefore := by intro hs; simp at hs
      indexValid := by
        intro _
        have := h.index_ge
        exact ⟨by show 0 ≤ g.currentQuestionIndex + 1; omega, hlt⟩
      indexAfter := by intro hs; simp at hs }

theorem inv_handleStart (g : Game) (fd now : Int) (h : Inv g) : Inv (handleStart g fd now).1 := by
  rcases handleStart_cases g fd now with hsame | ⟨hs, hform⟩ | ⟨hs, hform⟩
  · rw [hsame]; exact h
  · rw [hform]
    have hidx := h.indexBefore (Or.inr (Or.inr hs))
    have heq : ({ g with currentQuestionIndex := -1 } : Game) = g := by
      cases g; simp_all
    rw [heq]
    exact inv_startQuestion g now h (Or.inl hs)
  · rw [hform]
    exact inv_startQuestion g now h (Or.inr hs)

theorem inv_finish (g : Game) (h : Inv g) (hs : g.state = GameState.QUESTION_RESULTS) :
    Inv { g with state := GameState.FINISHED } :=
  { sorted := h.sorted
    keysFresh := h.keysFresh
    answersFresh := h.answersFresh
    answersNodup := h.answersNodup
    answeredFlag := by intro hs'; simp at hs'
    answersEmpty := by intro hs'; simp at hs'
    roomCode := by
      have := h.roomCode.mpr (by rw [hs]; decide)
      simpa using this
    oneHost := h.oneHost
    indexBefore := by intro hs'; simp at hs'
    indexValid := by intro hs'; simp at hs'
    indexAfter := fun _ => (h.indexValid (Or.inr hs)).1 }

theorem inv_handleNext (stdSort : List Player → List Player) (g : Game) (fd now : Int)
    (h : Inv g) : Inv (handleNext stdSort g fd now).1 := by
  rcases handleNext_cases stdSort g fd now with hsame | ⟨hs, _, hform⟩ | ⟨hs, _, hform⟩
  · rw [hsame]; exact h
  · rw [hform]; exact inv_finish g h hs
  · rw [hform]; exact inv_startQuestion g now h (Or.inr hs)

theorem inv_handleReset (g : Game) (fd : Int) (h : Inv g) : Inv (handleReset g fd).1 := by
  rcases handleReset_cases g fd with hsame | ⟨_, hform⟩
  · rw [hsame]; exact h
  · rw [hform]; exact inv_initGame

theorem inv_handleCreateGame (g : Game) (fd : Int) (msg : Msg) (rnd : Nat) (h : Inv g) :
    Inv (handleCreateGame g fd msg rnd).1 := by
  rcases handleCreateGame_cases g fd msg rnd with hsame | ⟨_, name, hform⟩
  · rw [hsame]; exact h
  rw [hform]
  constructor <;> simp [keysSorted, hostCount, generateRoomCode_ne_empty]

theorem inv_handleAddQuestion (g : Game) (fd : Int) (msg : Msg) (h : Inv g) :
    Inv (handleAddQuestion g fd msg).1 := by
  rcases handleAddQuestion_cases g fd msg with hsame | ⟨hs, q, hform⟩
  · rw [hsame]; exact h
  rw [hform]
  exact
    { sorted := h.sorted
      keysFresh := h.keysFresh
      answersFresh := h.answersFresh
      answersNodup := h.answersNodup
      answeredFlag := h.answeredFlag
      answersEmpty := h.answersEmpty
      roomCode := h.roomCode
      oneHost := h.oneHost
      indexBefore := h.indexBefore
      indexValid := by
        intro hs'
        rcases hs' with hs' | hs' <;>
          · have hs'' : g.state = _ := hs'
            rw [hs] at hs''
            cases hs''
      indexAfter := h.indexAfter }

theorem inv_handleOpenLobby (g : Game) (fd : Int) (h : Inv g) :
    Inv (handleOpenLobby g fd).1 := by
  rcases handleOpenLobby_cases g fd with hsame | ⟨hs, _, hform⟩
  · rw [hsame]; exact h
  rw [hform]
  exact
    { sorted := h.sorted
      keysFresh := h.keysFresh
      answersFresh := h.answersFresh
      answersNodup := h.answersNodup
      answeredFlag := by intro hs'; simp at hs'
      answersEmpty := fun _ => h.answersEmpty (Or.inr (Or.inl hs))
      roomCode := by
        have := h.roomCode.mpr (by rw [hs]; decide)
        simpa using this
      oneHost := h.oneHost
      indexBefore := fun _ => h.indexBefore (Or.inr (Or.inl hs))
      indexValid := by intro hs'; simp at hs'
      indexAfter := by intro hs'; simp at hs' }

theorem inv_handleJoin (g : Game) (fd : Int) (msg : Msg) (h : Inv g) :
    Inv (handleJoin g fd msg).1 := by
  rcases handleJoin_cases g fd msg with hsame | ⟨hs, name, hform⟩
  · rw [hsame]; exact h
  rw [hform]
  have hans : g.answers = [] := h.answersEmpty (Or.inr (Or.inr hs))
  have hnone : mapFind g.players g.nextPlayerId = none :=
    mapFind_eq_none_of_fresh _ _ h.keysFresh
  exact
    { sorted := keysSorted_mapInsert _ _ _ h.sorted
      keysFresh := by
        intro e he
        show e.1 < g.nextPlayerId + 1
        rcases mem_mapInsert _ _ _ _ he with he | he
        · rw [he]; show g.nextPlayerId < g.nextPlayerId + 1; omega
        · have := h.keysFresh e he; omega
      answersFresh := by
        intro a ha
        have ha' : a ∈ g.answers := ha
        rw [hans] at ha'
        simp at ha'
      answersNodup := h.answersNodup
      answeredFlag := by
        intro hs'
        have hs'' : g.state = GameState.QUESTION_ACTIVE := hs'
        rw [hs] at hs''
        cases hs''
      answersEmpty := h.answersEmpty
      roomCode := h.roomCode
      oneHost := by
        show hostCount (mapInsert g.players g.nextPlayerId _) ≤ 1
        rw [hostCount_mapInsert_new _ _ _ hnone]
        cases hp : g.players with
        | nil => simp [hostCount]
        | cons x rest =>
          have := h.oneHost
          rw [hp] at this
          simpa using this
      indexBefore := h.indexBefore
      indexValid := h.indexValid
      indexAfter := h.indexAfter }

theorem inv_handleAnswer (g : Game) (fd : Int) (msg : Msg) (now : Int) (h : Inv g) :
    Inv (handleAnswer g fd msg now).1 := by
  rcases handleAnswer_cases g fd msg now with hsame | ⟨hs, p, hfind, hhost, hans, a, hid, hform⟩
  · rw [hsame]; exact h
  rw [hform]
  have hmem := mem_of_mapFind _ _ _ hfind
  have hnot : ∀ b ∈ g.answers, b.playerId ≠ findPlayerIdByFd g fd := by
    intro b hb heq
    have := h.answeredFlag hs b hb _ hmem heq.symm
    simp [hans] at this
  exact
    { sorted := keysSorted_mapInsert _ _ _ h.sorted
      keysFresh := by
        intro e he
        rcases mem_mapInsert _ _ _ _ he with he | he
        · rw [he]; exact h.keysFresh (findPlayerIdByFd g fd, p) hmem
        · exact h.keysFresh e he
      answersFresh := by
        intro b hb
        rcases List.mem_append.mp hb with hb | hb
        · exact h.answersFresh b hb
        · simp only [List.mem_singleton] at hb
          rw [hb, hid]
          exact h.keysFresh _ hmem
      answersNodup := by
        show ((g.answers ++ [a]).map (fun a => a.playerId)).Nodup
        rw [List.map_append, List.nodup_append]
        refine ⟨h.answersNodup, by simp, ?_⟩
        intro x hx hx'
        simp only [List.map_cons, List.map_nil, List.mem_singleton] at hx'
        obtain ⟨b, hb, rfl⟩ := List.mem_map.mp hx
        exact hnot b hb (hx'.trans hid)
      answeredFlag := by
        intro _ b hb e he hk
        rcases mem_mapInsert_sorted _ _ _ h.sorted _ he with he | ⟨he, hne⟩
        · rw [he]
        · rcases List.mem_append.mp hb with hb | hb
          · exact h.answeredFlag hs b hb e he hk
          · simp only [List.mem_singleton] at hb
            exact absurd (hk.trans (by rw [hb, hid])) hne
      answersEmpty := by
        intro hs'
        have hs'' : g.state = GameState.NO_GAME ∨ g.state = GameState.SETUP
            ∨ g.state = GameState.LOBBY := hs'
        rw [hs] at hs''
        simp at hs''
      roomCode := h.roomCode
      oneHost := by
        show hostCount (mapInsert g.players (findPlayerIdByFd g fd) _) ≤ 1
        refine le_of_eq_of_le (hostCount_mapInsert_replace _ _ _ p h.sorted hfind ?_) h.oneHost
        rfl
      indexBefore := h.indexBefore
      indexValid := h.indexValid
      indexAfter := h.indexAfter }

theorem inv_checkQuestionTimeout (g : Game) (now : Int) (h : Inv g) :
    Inv (checkQuestionTimeout g now).1 := by
  rcases checkQuestionTimeout_cases g now with hsame | ⟨hs, q, hform⟩
  · rw [hsame]; exact h
  rw [hform]
  obtain ⟨h1, h2, h3⟩ := foldl_scoreOne_facts g.questionStartTime q g.answers g.players h.sorted
  exact
    { sorted := h1
      keysFresh := by
        intro e he
        rcases h3 e he with ⟨a, ha, hk⟩ | he
        · rw [hk]; exact h.answersFresh a ha
        · exact h.keysFresh e he
      answersFresh := h.answersFresh
      answersNodup := h.answersNodup
      answeredFlag := by intro hs'; simp at hs'
      answersEmpty := by intro hs'; simp at hs'
      roomCode := by
        have := h.roomCode.mpr (by rw [hs]; decide)
        simpa [scoreAnswers] using this
      oneHost := by
        show hostCount (g.answers.foldl (scoreOne g.questionStartTime q) g.players) ≤ 1
        rw [h2]; exact h.oneHost
      indexBefore := by intro hs'; simp at hs'
      indexValid := fun _ => h.indexValid (Or.inl hs)
      indexAfter := by intro hs'; simp at hs' }

theorem inv_disconnectClient (g : Game) (fd : Int) (h : Inv g) :
    Inv (disconnectClient g fd).1 := by
  rcases disconnectClient_cases g fd with hsame | hform
  · rw [hsame]; exact h
  rw [hform]
  exact
    { sorted := keysSorted_filter _ _ h.sorted
      keysFresh := fun e he => h.keysFresh e (List.mem_filter.mp he).1
      answersFresh := h.answersFresh
      answersNodup := h.answersNodup
      answeredFlag := fun hs a ha e he hk => h.answeredFlag hs a ha e (List.mem_filter.mp he).1 hk
      answersEmpty := h.answersEmpty
      roomCode := h.roomCode
      oneHost := le_trans (hostCount_filter_le _ _) h.oneHost
      indexBefore := h.indexBefore
      indexValid := h.indexValid
      indexAfter := h.indexAfter }

theorem inv_step (stdSort : List Player → List Player) (g : Game) (e : Event) (h : Inv g) :
    Inv (step stdSort g e) := by
  cases e with
  | create_game fd msg rnd => exact inv_handleCreateGame g fd msg rnd h
  | add_question fd msg => exact inv_handleAddQuestion g fd msg h
  | start_game fd => exact inv_handleOpenLobby g fd h
  | join fd msg => exact inv_handleJoin g fd msg h
  | begin_quiz fd now => exact inv_handleStart g fd now h
  | answer fd msg now => exact inv_handleAnswer g fd msg now h
  | next_question fd now => exact inv_handleNext stdSort g fd now h
  | reset_game fd => exact inv_handleReset g fd h
  | timeout now => exact inv_checkQuestionTimeout g now h
  | disconnect fd => exact inv_disconnectClient g fd h

theorem inv_run (stdSort : List Player → List Player) (events : List Event) :
    ∀ g : Game, Inv g → Inv (run stdSort g events) := by
  induction events with
  | nil => intro g h; exact h
  | cons e rest ih =>
    intro g h
    exact ih _ (inv_step stdSort g e h)

/-- Every state the server can reach satisfies the invariant. -/
theorem inv_of_reachable (stdSort : List Player → List Player) (g : Game)
    (h : Reachable stdSort g) : Inv g := by
  obtain ⟨events, rfl⟩ := h
  exact inv_run stdSort events initGame inv_initGame

/-! ## The host count in executions without disconnects -/

theorem hostCount_startQuestion (g : Game) (now : Int) :
    hostCount (startQuestion g now).1.players = hostCount g.players := by
  rcases startQuestion_cases g now with hsame | ⟨_, hform⟩
  · rw [hsame]
  · rw [hform]
    exact hostCount_map_flags _

theorem hostOne_step (stdSort : List Player → List Player) (g : Game) (e : Event) (h : Inv g)
    (h1 : g.state ≠ GameState.NO_GAME → hostCount g.players = 1)
    (he : Event.isDisconnect e = false) :
    (step stdSort g e).state ≠ GameState.NO_GAME → hostCount (step stdSort g e).players = 1 := by
  cases e with
  | create_game fd msg rnd =>
    show (handleCreateGame g fd msg rnd).1.state ≠ _ → hostCount (handleCreateGame g fd msg rnd).1.players = 1
    rcases handleCreateGame_cases g fd msg rnd with hsame | ⟨_, name, hform⟩
    · rw [hsame]; exact h1
    · rw [hform]; intro _; simp [hostCount]
  | add_question fd msg =>
    show (handleAddQuestion g fd msg).1.state ≠ _ → hostCount (handleAddQuestion g fd msg).1.players = 1
    rcases handleAddQuestion_cases g fd msg with hsame | ⟨_, q, hform⟩
    · rw [hsame]; exact h1
    · rw [hform]; exact h1
  | start_game fd =>
    show (handleOpenLobby g fd).1.state ≠ _ → hostCount (handleOpenLobby g fd).1.players = 1
    rcases handleOpenLobby_cases g fd with hsame | ⟨hs, _, hform⟩
    · rw [hsame]; exact h1
    · rw [hform]; intro _; exact h1 (by rw [hs]; decide)
  | join fd msg =>
    show (handleJoin g fd msg).1.state ≠ _ → hostCount (handleJoin g fd msg).1.players = 1
    rcases handleJoin_cases g fd msg with hsame | ⟨hs, name, hform⟩
    · rw [hsame]; exact h1
    · rw [hform]
      intro _
      have hc := h1 (by rw [hs]; decide)
      show hostCount (mapInsert g.players g.nextPlayerId _) = 1
      rw [hostCount_mapInsert_new _ _ _ (mapFind_eq_none_of_fresh _ _ h.keysFresh)]
      cases hp : g.players with
      | nil => rw [hp] at hc; simp [hostCount] at hc
      | cons x rest => rw [hp] at hc; simpa using hc
  | begin_quiz fd now =>
    show (handleStart g fd now).1.state ≠ _ → hostCount (handleStart g fd now).1.players = 1
    rcases handleStart_cases g fd now with hsame | ⟨hs, hform⟩ | ⟨hs, hform⟩
    · rw [hsame]; exact h1
    · rw [hform, hostCount_startQuestion]; intro _; exact h1 (by rw [hs]; decide)
    · rw [hform, hostCount_startQuestion]; intro _; exact h1 (by rw [hs]; decide)
  | answer fd msg now =>
    show (handleAnswer g fd msg now).1.state ≠ _ → hostCount (handleAnswer g fd msg now).1.players = 1
    rcases handleAnswer_cases g fd msg now with hsame | ⟨hs, p, hfind, _, _, a, _, hform⟩
    · rw [hsame]; exact h1
    · rw [hform]
      intro _
      refine Eq.trans (hostCount_mapInsert_replace _ _ _ p h.sorted hfind ?_)
        (h1 (by rw [hs]; decide))
      rfl
  | next_question fd now =>
    show (handleNext stdSort g fd now).1.state ≠ _ →
      hostCount (handleNext stdSort g fd now).1.players = 1
    rcases handleNext_cases stdSort g fd now with hsame | ⟨hs, _, hform⟩ | ⟨hs, _, hform⟩
    · rw [hsame]; exact h1
    · rw [hform]; intro _; exact h1 (by rw [hs]; decide)
    · rw [hform, hostCount_startQuestion]; intro _; exact h1 (by rw [hs]; decide)
  | reset_game fd =>
    show (handleReset g fd).1.state ≠ _ → hostCount (handleReset g fd).1.players = 1
    rcases handleReset_cases g fd with hsame | ⟨_, hform⟩
    · rw [hsame]; exact h1
    · rw [hform]; intro hne; exact absurd rfl hne
  | timeout now =>
    show (checkQuestionTimeout g now).1.state ≠ _ →
      hostCount (checkQuestionTimeout g now).1.players = 1
    rcases checkQuestionTimeout_cases g now with hsame | ⟨hs, q, hform⟩
    · rw [hsame]; exact h1
    · rw [hform]
      intro _
      exact (foldl_scoreOne_facts g.questionStartTime q g.answers g.players h.sorted).2.1.trans
        (h1 (by rw [hs]; decide))
  | disconnect fd => simp [Event.isDisconnect] at he

theorem hostOne_run (stdSort : List Player → List Player) (events : List Event) :
    ∀ g : Game, Inv g → (g.state ≠ GameState.NO_GAME → hostCount g.players = 1) →
      (∀ e ∈ events, Event.isDisconnect e = false) →
      ((run stdSort g events).state ≠ GameState.NO_GAME →
        hostCount (run stdSort g events).players = 1) := by
  induction events with
  | nil => intro g _ h1 _; exact h1
  | cons e rest ih =>
    intro g h h1 hev
    exact ih _ (inv_step stdSort g e h)
      (hostOne_step stdSort g e h h1 (hev e (List.mem_cons_self _ _)))
      (fun e' he' => hev e' (List.mem_cons_of_mem _ he'))

/-! ## C6 – C10: invariants of the reachable states -/

/-- C6: in every reachable state the answers list holds at most one entry per player id,
and an `answer` message from a connection whose player already has a recorded answer is
dropped (the game is unchanged), so only the first answer is there to be scored. -/
theorem answers_one_per_player (stdSort : List Player → List Player) (g : Game)
    (h : Reachable stdSort g) :
    (g.answers.map (fun a => a.playerId)).Nodup
      ∧ ∀ (fd : Int) (msg : Msg) (now : Int),
          (∃ a ∈ g.answers, a.playerId = findPlayerIdByFd g fd) →
          (handleAnswer g fd msg now).1 = g := by
  have hinv := inv_of_reachable stdSort g h
  refine ⟨hinv.answersNodup, ?_⟩
  rintro fd msg now ⟨a, ha, hid⟩
  rcases handleAnswer_cases g fd msg now with hsame | ⟨hs, p, hfind, _, hans, _⟩
  · exact hsame
  · exfalso
    have := hinv.answeredFlag hs a ha _ (mem_of_mapFind _ _ _ hfind) hid.symm
    simp [hans] at this

/-- C6 witness: after scenario A and Bob's answer, the list holds Bob's single answer and a
second `answer` from Bob's connection changes nothing. -/
theorem answers_one_per_player_witness :
    (run insertionSort initGame scenarioEvents).answers
        = [{ playerId := 2, answerIndex := 1, receiveTimeMs := 5200 }]
      ∧ ((run insertionSort initGame scenarioEvents).answers.map (fun a => a.playerId)).Nodup
      ∧ (handleAnswer (run insertionSort initGame scenarioEvents) 7
            { question_id := some 1, answer := some 0 } 5300).1
          = run insertionSort initGame scenarioEvents :=
  ⟨by decide,
   (answers_one_per_player insertionSort _ ⟨scenarioEvents, rfl⟩).1,
   (answers_one_per_player insertionSort _ ⟨scenarioEvents, rfl⟩).2 7 _ 5300
     ⟨{ playerId := 2, answerIndex := 1, receiveTimeMs := 5200 }, by decide, by decide⟩⟩

/-- C7 (amended): in every reachable state the answers list is empty while the state is
NO_GAME, SETUP or LOBBY, and it is empty right after every transition into QUESTION_ACTIVE
made by `startQuestion`.  The timeout monitor does not touch the list: the answers of the
closed question stay recorded until the next question starts or the session is reset. -/
theorem answers_empty_until_question (stdSort : List Player → List Player) (g : Game)
    (h : Reachable stdSort g) :
    (g.state = GameState.NO_GAME ∨ g.state = GameState.SETUP ∨ g.state = GameState.LOBBY →
        g.answers = [])
      ∧ (∀ now : Int, g.currentQuestionIndex + 1 < intSize g.questions →
          (startQuestion g now).1.state = GameState.QUESTION_ACTIVE
            ∧ (startQuestion g now).1.answers = [])
      ∧ (∀ now : Int, (checkQuestionTimeout g now).1.answers = g.answers) := by
  refine ⟨(inv_of_reachable stdSort g h).answersEmpty, ?_, ?_⟩
  · intro now hlt
    rcases startQuestion_cases g now with hsame | ⟨_, hform⟩
    · exfalso
      unfold startQuestion at hsame
      rw [if_neg (by omega)] at hsame
      have hidx := congrArg Game.currentQuestionIndex hsame
      dsimp only [resetAnswerFlags] at hidx
      split at hidx <;> simp at hidx
    · rw [hform]
      exact ⟨rfl, rfl⟩
  · intro now
    rcases checkQuestionTimeout_cases g now with hsame | ⟨_, q, hform⟩
    · rw [hsame]
    · rw [hform]
      rfl

/-- C7 witness: in the lobby of scenario A (Bob has joined) the list is empty, and it is
empty when the first question starts. -/
theorem answers_empty_until_question_witness :
    (run insertionSort initGame (scenarioEvents.take 4)).state = GameState.LOBBY
      ∧ (run insertionSort initGame (scenarioEvents.take 4)).answers = []
      ∧ (startQuestion (run insertionSort initGame (scenarioEvents.take 4)) 5000).1.answers = [] :=
  ⟨by decide,
   (answers_empty_until_question insertionSort _ ⟨scenarioEvents.take 4, rfl⟩).1
     (Or.inr (Or.inr (by decide))),
   ((answers_empty_until_question insertionSort _ ⟨scenarioEvents.take 4, rfl⟩).2.1 5000
     (by decide)).2⟩

/-- C7 counterexample: after scenario A, Bob's answer at 5200 ms and the timeout check at
6000 ms, the state is QUESTION_RESULTS and the answers list still holds Bob's answer. -/
theorem answers_kept_in_results :
    (run insertionSort initGame (scenarioEvents ++ [Event.timeout 6000])).state
        = GameState.QUESTION_RESULTS
      ∧ (run insertionSort initGame (scenarioEvents ++ [Event.timeout 6000])).answers
        = [{ playerId := 2, answerIndex := 1, receiveTimeMs := 5200 }] := by
  refine ⟨by decide, by decide⟩

/-- C8: in every reachable state, `roomCode` is non-empty if and only if the state is not
NO_GAME. -/
theorem roomCode_nonempty_iff (stdSort : List Player → List Player) (g : Game)
    (h : Reachable stdSort g) : g.roomCode ≠ "" ↔ g.state ≠ GameState.NO_GAME :=
  (inv_of_reachable stdSort g h).roomCode

/-- C8 witness: after `create_game` the room code is "1234" and the state is SETUP; in the
initial state the code is empty and the state is NO_GAME. -/
theorem roomCode_nonempty_iff_witness :
    ((run insertionSort initGame (scenarioEvents.take 1)).roomCode = "1234"
        ∧ (run insertionSort initGame (scenarioEvents.take 1)).state = GameState.SETUP)
      ∧ ((run insertionSort initGame (scenarioEvents.take 1)).roomCode ≠ ""
          ↔ (run insertionSort initGame (scenarioEvents.take 1)).state ≠ GameState.NO_GAME)
      ∧ ((run insertionSort initGame []).roomCode ≠ ""
          ↔ (run insertionSort initGame []).state ≠ GameState.NO_GAME) :=
  ⟨⟨by decide, by decide⟩,
   roomCode_nonempty_iff insertionSort _ ⟨scenarioEvents.take 1, rfl⟩,
   roomCode_nonempty_iff insertionSort _ ⟨[], rfl⟩⟩

/-- C9 (amended): in every reachable state at most one entry of `players` has
`isHost = true`; and in every state reached without a client disconnect whose state is not
NO_GAME, exactly one entry has `isHost = true`. -/
theorem host_unique (stdSort : List Player → List Player) (g : Game) :
    (Reachable stdSort g → hostCount g.players ≤ 1)
      ∧ (ReachableConnected stdSort g → g.state ≠ GameState.NO_GAME →
          hostCount g.players = 1) := by
  constructor
  · intro h
    exact (inv_of_reachable stdSort g h).oneHost
  · rintro ⟨events, hev, rfl⟩
    exact hostOne_run stdSort events initGame inv_initGame (fun hne => absurd rfl hne) hev

/-- C9 witness: after scenario A and Bob's answer (no disconnect) exactly one player, Alice,
is host. -/
theorem host_unique_witness :
    hostCount (run insertionSort initGame scenarioEvents).players ≤ 1
      ∧ hostCount (run insertionSort initGame scenarioEvents).players = 1 :=
  ⟨(host_unique insertionSort _).1 ⟨scenarioEvents, rfl⟩,
   (host_unique insertionSort _).2 ⟨scenarioEvents, by decide, rfl⟩ (by decide)⟩

/-- C9 counterexample: Alice creates the game on socket 5 and her connection drops; the
state is SETUP (not NO_GAME) and no entry of `players` is host. -/
theorem host_lost_on_disconnect :
    (run insertionSort initGame
        [Event.create_game 5 { name := some "Alice" } 234, Event.disconnect 5]).state
        = GameState.SETUP
      ∧ hostCount (run insertionSort initGame
          [Event.create_game 5 { name := some "Alice" } 234, Event.disconnect 5]).players = 0 := by
  refine ⟨by decide, by decide⟩

/-- C10: in every reachable state, if the state is QUESTION_ACTIVE or QUESTION_RESULTS then
`0 ≤ currentQuestionIndex < questions.size()` (also for the size converted to `int`, as
the code compares it); and `currentQuestionIndex = -1` holds exactly in the states NO_GAME,
SETUP and LOBBY. -/
theorem currentQuestionIndex_valid (stdSort : List Player → List Player) (g : Game)
    (h : Reachable stdSort g) :
    (g.state = GameState.QUESTION_ACTIVE ∨ g.state = GameState.QUESTION_RESULTS →
        0 ≤ g.currentQuestionIndex
          ∧ g.currentQuestionIndex < (g.questions.length : Int)
          ∧ g.currentQuestionIndex < intSize g.questions)
      ∧ (g.currentQuestionIndex = -1 ↔
          g.state = GameState.NO_GAME ∨ g.state = GameState.SETUP
            ∨ g.state = GameState.LOBBY) := by
  have hinv := inv_of_reachable stdSort g h
  constructor
  · intro hs
    obtain ⟨h0, h1⟩ := hinv.indexValid hs
    have := intSize_le_length g.questions
    exact ⟨h0, by omega, h1⟩
  · constructor
    · intro hidx
      cases hs : g.state with
      | NO_GAME => exact Or.inl rfl
      | SETUP => exact Or.inr (Or.inl rfl)
      | LOBBY => exact Or.inr (Or.inr rfl)
      | QUESTION_ACTIVE => have := (hinv.indexValid (Or.inl hs)).1; omega
      | QUESTION_RESULTS => have := (hinv.indexValid (Or.inr hs)).1; omega
      | FINISHED => have := hinv.indexAfter hs; omega
    · exact hinv.indexBefore

/-- C10 witness: in the running first question of scenario A the index is 0, below the one
stored question; in the lobby before it the index is −1. -/
theorem currentQuestionIndex_valid_witness :
    (run insertionSort initGame scenarioEvents).currentQuestionIndex = 0
      ∧ (0 ≤ (run insertionSort initGame scenarioEvents).currentQuestionIndex
          ∧ (run insertionSort initGame scenarioEvents).currentQuestionIndex
              < ((run insertionSort initGame scenarioEvents).questions.length : Int)
          ∧ (run insertionSort initGame scenarioEvents).currentQuestionIndex
              < intSize (run insertionSort initGame scenarioEvents).questions)
      ∧ (run insertionSort initGame (scenarioEvents.take 4)).currentQuestionIndex = -1 :=
  ⟨by decide,
   (currentQuestionIndex_valid insertionSort _ ⟨scenarioEvents, rfl⟩).1 (Or.inl (by decide)),
   (currentQuestionIndex_valid insertionSort _ ⟨scenarioEvents.take 4, rfl⟩).2.mpr
     (Or.inr (Or.inr (by decide)))⟩

/-! ## C11, C18: creating and resetting the session -/

/-- The result of `handleCreateGame` when the request is accepted. -/
theorem handleCreateGame_cases_full (g : Game) (fd : Int) (msg : Msg) (rnd : Nat)
    (h : g.state = GameState.NO_GAME ∨ g.state = GameState.FINISHED) :
    handleCreateGame g fd msg rnd =
      ({ roomCode := generateRoomCode rnd, state := GameState.SETUP,
         players := [(1, { id := 1, name := hostName msg, totalScore := 0, isHost := true,
                           answered := false, socketFd := fd })],
         questions := [], nextPlayerId := 2, currentQuestionIndex := -1,
         questionStartTime := 0, answers := [] },
       [(fd, Reply.create_ok (generateRoomCode rnd) 1)]) := by
  have hn : ¬ (g.state ≠ GameState.NO_GAME ∧ g.state ≠ GameState.FINISHED) := by
    rcases h with h | h <;> simp [h]
  have hname : (if msg.name.getD "" = "" then "host" else msg.name.getD "") = hostName msg := by
    unfold hostName
    cases msg.name with
    | none => simp
    | some n => simp
  unfold handleCreateGame
  rw [if_neg hn]
  simp only [resetAll, mapInsert, sendJson, hname]
  rfl

/-- C11: `create_game`.  For every game, connection, message and value of `rand()`: when the
state is neither NO_GAME nor FINISHED, `handleCreateGame` leaves the game unchanged and
replies with the error "game already exists"; otherwise the resulting game has state SETUP,
the generated room code, no questions, no answers, `currentQuestionIndex` −1, `nextPlayerId`
2 and exactly one player, with id 1, `isHost` true, total 0, bound to the requesting
connection and named by the supplied name ("host" when the name is absent or empty), and
the reply is `create_ok` with that room code and id 1. -/
theorem handleCreateGame_spec (g : Game) (fd : Int) (msg : Msg) (rnd : Nat) :
    (g.state ≠ GameState.NO_GAME ∧ g.state ≠ GameState.FINISHED →
        handleCreateGame g fd msg rnd = (g, [(fd, Reply.error "game already exists")]))
      ∧ (g.state = GameState.NO_GAME ∨ g.state = GameState.FINISHED →
          handleCreateGame g fd msg rnd =
            ({ roomCode := generateRoomCode rnd, state := GameState.SETUP,
               players := [(1, { id := 1, name := hostName msg, totalScore := 0, isHost := true,
                                 answered := false, socketFd := fd })],
               questions := [], nextPlayerId := 2, currentQuestionIndex := -1,
               questionStartTime := 0, answers := [] },
             [(fd, Reply.create_ok (generateRoomCode rnd) 1)])) := by
  constructor
  · intro h
    simp [handleCreateGame, h, sendJson]
  · exact handleCreateGame_cases_full g fd msg rnd

/-- C11 witness: `create_game` with name "Alice" on the initial session gives room "1234"
(`rand()` = 234) and host Alice with id 1; a second `create_game` is refused. -/
theorem handleCreateGame_spec_witness :
    handleCreateGame initGame 5 { name := some "Alice" } 234 =
        ({ roomCode := "1234", state := GameState.SETUP, players := [(1, alice)],
           questions := [], nextPlayerId := 2, currentQuestionIndex := -1,
           questionStartTime := 0, answers := [] },
         [(5, Reply.create_ok "1234" 1)])
      ∧ handleCreateGame (activeGame (sampleQuestion 1000)) 9 { name := some "Eve" } 77 =
        (activeGame (sampleQuestion 1000), [(9, Reply.error "game already exists")]) :=
  ⟨((handleCreateGame_spec initGame 5 { name := some "Alice" } 234).2 (Or.inl rfl)).trans
      (by decide),
   (handleCreateGame_spec (activeGame (sampleQuestion 1000)) 9 { name := some "Eve" } 77).1
      (by decide)⟩

theorem toDigitsCore_four_digits (f n : Nat) (ds : List Char) (h1 : 1000 ≤ n) (h2 : n ≤ 9999) :
    Nat.toDigitsCore 10 (f + 4) n ds =
      Nat.digitChar (n / 10 / 10 / 10 % 10) :: Nat.digitChar (n / 10 / 10 % 10)
        :: Nat.digitChar (n / 10 % 10) :: Nat.digitChar (n % 10) :: ds := by
  show Nat.toDigitsCore 10 (f + 3 + 1) n ds = _
  rw [Nat.toDigitsCore]
  rw [if_neg (by omega)]
  show Nat.toDigitsCore 10 (f + 2 + 1) (n / 10) _ = _
  rw [Nat.toDigitsCore]
  rw [if_neg (by omega)]
  show Nat.toDigitsCore 10 (f + 1 + 1) (n / 10 / 10) _ = _
  rw [Nat.toDigitsCore]
  rw [if_neg (by omega)]
  show Nat.toDigitsCore 10 (f + 1) (n / 10 / 10 / 10) _ = _
  rw [Nat.toDigitsCore]
  rw [if_pos (by omega)]

theorem digitChar_isDigit (d : Nat) (h : d < 10) : (Nat.digitChar d).isDigit = true := by
  interval_cases d <;> rfl

/-- The room code is the four-digit decimal rendering of a value in 1000..9999. -/
theorem generateRoomCode_four_digits (rnd : Nat) :
    1000 ≤ 1000 + rnd % 9000 ∧ 1000 + rnd % 9000 ≤ 9999
      ∧ (generateRoomCode rnd).data.length = 4
      ∧ ∀ c ∈ (generateRoomCode rnd).data, c.isDigit = true := by
  have h1 : 1000 ≤ 1000 + rnd % 9000 := by omega
  have h2 : 1000 + rnd % 9000 ≤ 9999 := by omega
  have hfuel : 1000 + rnd % 9000 + 1 = (rnd % 9000 + 997) + 4 := by omega
  have hd : (generateRoomCode rnd).data =
      [Nat.digitChar ((1000 + rnd % 9000) / 10 / 10 / 10 % 10),
       Nat.digitChar ((1000 + rnd % 9000) / 10 / 10 % 10),
       Nat.digitChar ((1000 + rnd % 9000) / 10 % 10),
       Nat.digitChar ((1000 + rnd % 9000) % 10)] := by
    unfold generateRoomCode to_string Nat.repr Nat.toDigits
    rw [hfuel, toDigitsCore_four_digits _ _ _ h1 h2]
    rfl
  refine ⟨h1, h2, by rw [hd]; rfl, ?_⟩
  intro c hc
  rw [hd] at hc
  simp only [List.mem_cons, List.mem_singleton, List.not_mem_nil, or_false] at hc
  rcases hc with rfl | rfl | rfl | rfl <;> exact digitChar_isDigit _ (Nat.mod_lt _ (by decide))

theorem handleReset_of_host (g : Game) (fd : Int) (hs : g.state = GameState.FINISHED)
    (hh : isRegisteredHost g fd) : handleReset g fd = (initGame, []) := by
  obtain ⟨hp, p, hfind, hhost⟩ := hh
  simp [handleReset, hp, mapIndex_of_mapFind _ _ _ hfind, hhost, hs, resetGame, resetAll,
    initGame]

/-- C18: scenario D.  For every game in state FINISHED, `reset_game` from the registered host
yields the initial NO_GAME baseline (empty room code, no players, no questions, no answers,
`nextPlayerId` 1, `currentQuestionIndex` −1, `questionStartTime` 0) and sends nothing; a
`create_game` that follows, from any connection and for every value `rnd ≥ 0` of the random
source, succeeds: the state is SETUP, the reply is `create_ok`, and the room code is the
decimal rendering of `1000 + rnd % 9000`, a value in 1000..9999, made of exactly four decimal
digits. -/
theorem reset_then_create (g : Game) (fd : Int) (hs : g.state = GameState.FINISHED)
    (hh : isRegisteredHost g fd) :
    handleReset g fd =
        ({ roomCode := "", state := GameState.NO_GAME, players := [], questions := [],
           nextPlayerId := 1, currentQuestionIndex := -1, questionStartTime := 0,
           answers := [] }, [])
      ∧ ∀ (fd' : Int) (msg : Msg) (rnd : Nat),
          (handleCreateGame (handleReset g fd).1 fd' msg rnd).1.state = GameState.SETUP
            ∧ (handleCreateGame (handleReset g fd).1 fd' msg rnd).1.roomCode
                = to_string (1000 + rnd % 9000)
            ∧ (handleCreateGame (handleReset g fd).1 fd' msg rnd).2
                = [(fd', Reply.create_ok (to_string (1000 + rnd % 9000)) 1)]
            ∧ 1000 ≤ 1000 + rnd % 9000 ∧ 1000 + rnd % 9000 ≤ 9999
            ∧ (to_string (1000 + rnd % 9000)).data.length = 4
            ∧ ∀ c ∈ (to_string (1000 + rnd % 9000)).data, c.isDigit = true := by
  have hr := handleReset_of_host g fd hs hh
  refine ⟨hr, ?_⟩
  intro fd' msg rnd
  obtain ⟨h1, h2, h3, h4⟩ := generateRoomCode_four_digits rnd
  rw [hr]
  have hc : handleCreateGame initGame fd' msg rnd = _ :=
    (handleCreateGame_cases_full initGame fd' msg rnd (Or.inl rfl))
  rw [hc]
  exact ⟨rfl, rfl, rfl, h1, h2, h3, h4⟩

/-- C18 witness: the host's `reset_game` on the finished scenario gives the initial session,
and the next `create_game` with `rand()` = 9233 gives room code "1233". -/
theorem reset_then_create_witness :
    handleReset finishedGame 5 = (initGame, [])
      ∧ (handleCreateGame (handleReset finishedGame 5).1 7 { name := some "Bob" } 9233).1.roomCode
          = "1233" :=
  ⟨(reset_then_create finishedGame 5 (by decide) ⟨by decide, alice, by decide, rfl⟩).1,
   (((reset_then_create finishedGame 5 (by decide) ⟨by decide, alice, by decide, rfl⟩).2
      7 { name := some "Bob" } 9233).2.1).trans (by decide)⟩

/-! ## C12: validation of `add_question` -/

theorem handleAddQuestion_of_host (g : Game) (fd : Int) (msg : Msg)
    (hs : g.state = GameState.SETUP) (hh : isRegisteredHost g fd) :
    (questionValid (newQuestion g msg) →
        handleAddQuestion g fd msg =
          ({ g with questions := g.questions ++ [newQuestion g msg] },
            [(fd, Reply.add_question_ok (newQuestion g msg).id)]))
      ∧ (¬ questionValid (newQuestion g msg) →
          handleAddQuestion g fd msg = (g, [(fd, Reply.error "invalid question")])) := by
  obtain ⟨hp, p, hfind, hhost⟩ := hh
  have hsn : ¬ (g.state ≠ GameState.SETUP) := by simp [hs]
  constructor
  · intro hv
    unfold questionValid newQuestion at hv
    unfold handleAddQuestion
    rw [if_neg hsn]
    simp only [mapIndex_of_mapFind _ _ _ hfind, hp, hhost]
    simp only [if_false, Bool.not_true, Bool.false_eq_true]
    rw [if_neg hv]
    rfl
  · intro hv
    unfold questionValid newQuestion at hv
    rw [not_not] at hv
    unfold handleAddQuestion
    rw [if_neg hsn]
    simp only [mapIndex_of_mapFind _ _ _ hfind, hp, hhost]
    simp only [if_false, Bool.not_true, Bool.false_eq_true]
    rw [if_pos hv]
    rfl

/-- A request that is not from the registered host, or outside SETUP, stores nothing. -/
theorem handleAddQuestion_questions (g : Game) (fd : Int) (msg : Msg) :
    (handleAddQuestion g fd msg).1.questions = g.questions
      ∨ (questionValid (newQuestion g msg)
          ∧ (handleAddQuestion g fd msg).1.questions = g.questions ++ [newQuestion g msg]) := by
  by_cases hs : g.state = GameState.SETUP
  swap
  · left; simp [handleAddQuestion, hs]
  by_cases hp : findPlayerIdByFd g fd = -1
  · left; simp [handleAddQuestion, hp]
  obtain ⟨p, hfind⟩ := mapFind_findPlayerIdByFd g fd hp
  by_cases hh : p.isHost = true
  swap
  · left; simp [handleAddQuestion, hp, mapIndex_of_mapFind _ _ _ hfind, hh]
  obtain ⟨h1, h2⟩ := handleAddQuestion_of_host g fd msg hs ⟨hp, p, hfind, hh⟩
  by_cases hv : questionValid (newQuestion g msg)
  · right
    rw [h1 hv]
    exact ⟨hv, rfl⟩
  · left
    rw [h2 hv]

theorem startQuestion_questions (g : Game) (now : Int) :
    (startQuestion g now).1.questions = g.questions := by
  rcases startQuestion_cases g now with h | ⟨_, h⟩ <;> rw [h]

theorem step_questions (stdSort : List Player → List Player) (g : Game) (e : Event) :
    (step stdSort g e).questions = g.questions
      ∨ (step stdSort g e).questions = []
      ∨ ∃ msg, questionValid (newQuestion g msg)
          ∧ (step stdSort g e).questions = g.questions ++ [newQuestion g msg] := by
  cases e with
  | create_game fd msg rnd =>
    rcases handleCreateGame_cases g fd msg rnd with h | ⟨_, name, h⟩
    · left; show (handleCreateGame g fd msg rnd).1.questions = _; rw [h]
    · right; left; show (handleCreateGame g fd msg rnd).1.questions = _; rw [h]
  | add_question fd msg =>
    rcases handleAddQuestion_questions g fd msg with h | ⟨hv, h⟩
    · left; exact h
    · right; right; exact ⟨msg, hv, h⟩
  | start_game fd =>
    left
    show (handleOpenLobby g fd).1.questions = _
    rcases handleOpenLobby_cases g fd with h | ⟨_, _, h⟩ <;> rw [h]
  | join fd msg =>
    left
    show (handleJoin g fd msg).1.questions = _
    rcases handleJoin_cases g fd msg with h | ⟨_, name, h⟩ <;> rw [h]
  | begin_quiz fd now =>
    left
    show (handleStart g fd now).1.questions = _
    rcases handleStart_cases g fd now with h | ⟨_, h⟩ | ⟨_, h⟩
    · rw [h]
    · rw [h, startQuestion_questions]
    · rw [h, startQuestion_questions]
  | answer fd msg now =>
    left
    show (handleAnswer g fd msg now).1.questions = _
    rcases handleAnswer_cases g fd msg now with h | ⟨_, p, _, _, _, a, _, h⟩ <;> rw [h]
  | next_question fd now =>
    left
    show (handleNext stdSort g fd now).1.questions = _
    rcases handleNext_cases stdSort g fd now with h | ⟨_, _, h⟩ | ⟨_, _, h⟩
    · rw [h]
    · rw [h]
    · rw [h, startQuestion_questions]
  | reset_game fd =>
    show (handleReset g fd).1.questions = _ ∨ (handleReset g fd).1.questions = [] ∨ _
    rcases handleReset_cases g fd with h | ⟨_, h⟩
    · left; rw [h]
    · right; left; rw [h]; rfl
  | timeout now =>
    left
    show (checkQuestionTimeout g now).1.questions = _
    rcases checkQuestionTimeout_cases g now with h | ⟨_, q, h⟩
    · rw [h]
    · rw [h]; rfl
  | disconnect fd =>
    left
    show (disconnectClient g fd).1.questions = _
    rcases disconnectClient_cases g fd with h | h <;> rw [h]

theorem questionsOk_step (stdSort : List Player → List Player) (g : Game) (e : Event)
    (h : QuestionsOk g) : QuestionsOk (step stdSort g e) := by
  rcases step_questions stdSort g e with hq | hq | ⟨msg, hv, hq⟩
  · unfold QuestionsOk; rw [hq]; exact h
  · unfold QuestionsOk; rw [hq]; intro i q hi; simp at hi
  · unfold QuestionsOk
    rw [hq]
    intro i q hi
    by_cases hlt : i < g.questions.length
    · rw [List.getElem?_append_left hlt] at hi
      exact h i q hi
    · rw [List.getElem?_append_right (by omega)] at hi
      have hi0 : i - g.questions.length = 0 := by
        by_contra hne
        rw [List.getElem?_eq_none (by simp; omega)] at hi
        cases hi
      rw [hi0] at hi
      simp only [List.getElem?_cons_zero, Option.some.injEq] at hi
      subst hi
      have hil : i = g.questions.length := by omega
      unfold questionValid at hv
      refine ⟨by subst hil; rfl, ?_, ?_, ?_⟩
      · exact fun hnil => hv (Or.inr (Or.inl hnil))
      · by_contra hneg
        exact hv (Or.inr (Or.inr (Or.inl (by omega))))
      · by_contra hneg
        exact hv (Or.inr (Or.inr (Or.inr (by omega))))

theorem questionsOk_of_reachable (stdSort : List Player → List Player) (g : Game)
    (h : Reachable stdSort g) : QuestionsOk g := by
  obtain ⟨events, rfl⟩ := h
  have key : ∀ (evs : List Event) (g0 : Game), QuestionsOk g0 →
      QuestionsOk (run stdSort g0 evs) := by
    intro evs
    induction evs with
    | nil => intro g0 h0; exact h0
    | cons e rest ih => intro g0 h0; exact ih _ (questionsOk_step stdSort g0 e h0)
  exact key events initGame (by intro i q hi; simp [initGame] at hi)

theorem intSize_of_lt {α : Type} (xs : List α) (h : xs.length < 2147483648) :
    intSize xs = (xs.length : Int) := by
  unfold intSize
  exact toInt32_of_range _ (by omega) (by omega)

/-- The validation of `add_question` within the range of `int`: when the requester is the
registered host in SETUP and the option list has fewer than 2^31 entries, `handleAddQuestion`
appends the question (with id `(int)questions.size() + 1`, replying `add_question_ok`) if and
only if its text is non-empty, its option list is non-empty and `0 ≤ correct <` number of
options; on violation it replies "invalid question" and leaves the game unchanged.  In every
reachable state every stored question has a non-empty option list and a correct index within
its option bounds, and the question at each position `i < 2^31` (0-based) has id `i + 1`. -/
theorem handleAddQuestion_validation (stdSort : List Player → List Player) (g : Game) (fd : Int)
    (msg : Msg) :
    (g.state = GameState.SETUP → isRegisteredHost g fd →
        (newQuestion g msg).answers.length < 2147483648 →
        ((newQuestion g msg).text ≠ "" ∧ (newQuestion g msg).answers ≠ []
            ∧ 0 ≤ (newQuestion g msg).correct
            ∧ (newQuestion g msg).correct < ((newQuestion g msg).answers.length : Int) →
          handleAddQuestion g fd msg =
            ({ g with questions := g.questions ++ [newQuestion g msg] },
              [(fd, Reply.add_question_ok (newQuestion g msg).id)]))
        ∧ (¬ ((newQuestion g msg).text ≠ "" ∧ (newQuestion g msg).answers ≠ []
              ∧ 0 ≤ (newQuestion g msg).correct
              ∧ (newQuestion g msg).correct < ((newQuestion g msg).answers.length : Int)) →
            handleAddQuestion g fd msg = (g, [(fd, Reply.error "invalid question")])))
      ∧ (Reachable stdSort g → ∀ (i : Nat) (q : Question), g.questions[i]? = some q →
          (i < 2147483648 → q.id = (i : Int) + 1) ∧ q.answers ≠ [] ∧ 0 ≤ q.correct
            ∧ q.correct < (q.answers.length : Int)) := by
  constructor
  · intro hs hh hlen
    obtain ⟨h1, h2⟩ := handleAddQuestion_of_host g fd msg hs hh
    have hsz := intSize_of_lt _ hlen
    have hiff : questionValid (newQuestion g msg) ↔
        ((newQuestion g msg).text ≠ "" ∧ (newQuestion g msg).answers ≠ []
          ∧ 0 ≤ (newQuestion g msg).correct
          ∧ (newQuestion g msg).correct < ((newQuestion g msg).answers.length : Int)) := by
      unfold questionValid
      rw [hsz]
      constructor
      · intro hv
        refine ⟨fun h => hv (Or.inl h), fun h => hv (Or.inr (Or.inl h)), ?_, ?_⟩
        · by_contra hneg
          exact hv (Or.inr (Or.inr (Or.inl (by omega))))
        · by_contra hneg
          exact hv (Or.inr (Or.inr (Or.inr (by omega))))
      · rintro ⟨ht, ha, hc0, hc1⟩ hv
        rcases hv with hv | hv | hv | hv
        · exact ht hv
        · exact ha hv
        · omega
        · omega
    exact ⟨fun hv => h1 (hiff.mpr hv), fun hv => h2 (fun hq => hv (hiff.mp hq))⟩
  · intro hr i q hi
    obtain ⟨hid, hne, hc0, hc1⟩ := questionsOk_of_reachable stdSort g hr i q hi
    have := intSize_le_length q.answers
    refine ⟨?_, hne, hc0, by omega⟩
    intro hlt
    rw [hid, toInt32_of_range _ (by omega) (by omega)]

/-- Alice's question of scenario A is appended with id 1; the same question with correct
index 2 (out of bounds) is refused; and the stored question of the running scenario has
id 1. -/
theorem handleAddQuestion_validation_witness :
    handleAddQuestion setupGame 5
        { text := some "2+2?", answers := some ["3", "4"], correct := some 1,
          time_limit_ms := some 1000 }
        = ({ setupGame with questions := [sampleQuestion 1000] },
            [(5, Reply.add_question_ok 1)])
      ∧ handleAddQuestion setupGame 5
          { text := some "2+2?", answers := some ["3", "4"], correct := some 2 }
        = (setupGame, [(5, Reply.error "invalid question")])
      ∧ ((0 : Nat) < 2147483648 → (sampleQuestion 1000).id = ((0 : Nat) : Int) + 1) := by
  have hh : isRegisteredHost setupGame 5 := ⟨by decide, alice, by decide, rfl⟩
  refine ⟨?_, ?_, ?_⟩
  · exact (((handleAddQuestion_validation insertionSort setupGame 5 _).1 rfl hh
      (by decide)).1 (by decide)).trans (by decide)
  · exact ((handleAddQuestion_validation insertionSort setupGame 5 _).1 rfl hh
      (by decide)).2 (by decide)
  · exact ((handleAddQuestion_validation insertionSort _ 5 {}).2
      ⟨scenarioEvents, rfl⟩ 0 (sampleQuestion 1000) (by decide)).1

/-- C12, the code at the failing input: after `create_game` Alice is the registered host in
SETUP and sends a question with non-empty text, 2^31 options and correct index 0, so
`0 ≤ correct <` number of options; the code compares with `(int)answers.size()` = −2^31,
replies "invalid question" and stores nothing. -/
theorem handleAddQuestion_rejects_huge_option_list :
    run insertionSort initGame [Event.create_game 5 { name := some "Alice" } 234] = setupGame
      ∧ setupGame.state = GameState.SETUP
      ∧ isRegisteredHost setupGame 5
      ∧ ((newQuestion setupGame hugeOptionsMsg).text ≠ ""
          ∧ (newQuestion setupGame hugeOptionsMsg).answers ≠ []
          ∧ 0 ≤ (newQuestion setupGame hugeOptionsMsg).correct
          ∧ (newQuestion setupGame hugeOptionsMsg).correct
              < ((newQuestion setupGame hugeOptionsMsg).answers.length : Int))
      ∧ handleAddQuestion setupGame 5 hugeOptionsMsg
          = (setupGame, [(5, Reply.error "invalid question")]) := by
  have hh : isRegisteredHost setupGame 5 := ⟨by decide, alice, by decide, rfl⟩
  have hans : (newQuestion setupGame hugeOptionsMsg).answers = List.replicate 2147483648 "x" := rfl
  have hcor : (newQuestion setupGame hugeOptionsMsg).correct = 0 := by decide
  have htxt : (newQuestion setupGame hugeOptionsMsg).text = "t" := rfl
  have hlen : (List.replicate 2147483648 "x").length = 2147483648 := List.length_replicate _ _
  refine ⟨by decide, rfl, hh, ⟨?_, ?_, ?_, ?_⟩, ?_⟩
  · rw [htxt]; decide
  · rw [hans]
    intro hnil
    have := congrArg List.length hnil
    rw [hlen] at this
    exact absurd this (by decide)
  · rw [hcor]
  · rw [hcor, hans, hlen]; decide
  · apply (handleAddQuestion_of_host setupGame 5 hugeOptionsMsg rfl hh).2
    unfold questionValid
    rw [not_not]
    right; right; right
    rw [hcor, hans]
    unfold intSize
    rw [hlen]
    decide

/-! ## C13, C14: joining the lobby -/

theorem mapInsert_fresh (m : PlayerMap) (k : Int) (p : Player) (h : ∀ e ∈ m, e.1 < k) :
    mapInsert m k p = m ++ [(k, p)] := by
  induction m with
  | nil => rfl
  | cons x rest ih =>
    obtain ⟨k', p'⟩ := x
    have hk : k' < k := h (k', p') (List.mem_cons_self _ _)
    unfold mapInsert
    rw [if_neg (by omega), if_neg (by omega), ih (fun e he => h e (List.mem_cons_of_mem _ he))]
    rfl

theorem jsonLobby_eq (g : Game) : jsonLobby g = Reply.lobby_update (rosterNames g) g.roomCode :=
  rfl

/-- An accepted join: what `handleJoin` returns in LOBBY for the right room code and a
non-empty name, when every key of the map is below `nextPlayerId`. -/
theorem handleJoin_accept (g : Game) (fd : Int) (msg : Msg)
    (hs : g.state = GameState.LOBBY) (hroom : msg.room.getD "" = g.roomCode)
    (hname : msg.name.getD "" ≠ "") (hfresh : ∀ e ∈ g.players, e.1 < g.nextPlayerId) :
    handleJoin g fd msg =
      ({ g with
          nextPlayerId := g.nextPlayerId + 1,
          players := g.players ++ [(g.nextPlayerId, joinedPlayer g fd (msg.name.getD ""))] },
        (fd, Reply.join_ok g.nextPlayerId g.players.isEmpty) ::
          broadcast
            { g with
              nextPlayerId := g.nextPlayerId + 1,
              players := g.players ++ [(g.nextPlayerId, joinedPlayer g fd (msg.name.getD ""))] }
            (Reply.lobby_update
              (rosterNames g ++ (if g.players.isEmpty then [] else [msg.name.getD ""]))
              g.roomCode)) := by
  have hv : ¬ (msg.room.getD "" ≠ g.roomCode ∨ msg.name.getD "" = "") := by
    rintro (h | h)
    · exact h hroom
    · exact hname h
  have hroster : rosterNames
      { g with
        nextPlayerId := g.nextPlayerId + 1,
        players := g.players ++ [(g.nextPlayerId, joinedPlayer g fd (msg.name.getD ""))] }
      = rosterNames g ++ (if g.players.isEmpty then [] else [msg.name.getD ""]) := by
    unfold rosterNames
    simp only [List.filter_append, List.map_append]
    congr 1
    cases hp : g.players.isEmpty <;> simp [joinedPlayer, hp, List.filter]
  unfold handleJoin
  rw [if_neg (by simp [hs])]
  simp only [hv, if_false]
  rw [← hroster, ← jsonLobby_eq]
  simp only [mapInsert_fresh _ _ _ hfresh, sendJson, joinedPlayer]
  rfl

theorem joinAll_facts (joins : List (Int × String)) :
    ∀ g0 : Game, Inv g0 → g0.state = GameState.LOBBY → (∀ j ∈ joins, j.2 ≠ "") →
      Inv (joinAll g0 joins)
        ∧ (joinAll g0 joins).state = GameState.LOBBY
        ∧ (joinAll g0 joins).roomCode = g0.roomCode
        ∧ (joinAll g0 joins).nextPlayerId = g0.nextPlayerId + (joins.length : Int)
        ∧ rosterNames (joinAll g0 joins) =
            rosterNames g0 ++
              (if g0.players.isEmpty then (joins.map Prod.snd).tail else joins.map Prod.snd)
        ∧ (joins ≠ [] → (joinAll g0 joins).players ≠ []) := by
  induction joins with
  | nil =>
    intro g0 h0 hs _
    refine ⟨h0, hs, rfl, by simp [joinAll], ?_, fun h => absurd rfl h⟩
    cases g0.players.isEmpty <;> simp [joinAll]
  | cons j rest ih =>
    intro g0 h0 hs hn
    have hacc := handleJoin_accept g0 j.1 (joinMsg g0.roomCode j.2) hs rfl
      (hn j (List.mem_cons_self _ _)) h0.keysFresh
    have hinv1 : Inv (handleJoin g0 j.1 (joinMsg g0.roomCode j.2)).1 :=
      inv_handleJoin g0 j.1 _ h0
    have hstep : joinAll g0 (j :: rest)
        = joinAll (handleJoin g0 j.1 (joinMsg g0.roomCode j.2)).1 rest := rfl
    obtain ⟨i1, i2, i3, i4, i5, _⟩ := ih (handleJoin g0 j.1 (joinMsg g0.roomCode j.2)).1 hinv1
      (by rw [hacc]; exact hs) (fun j' hj' => hn j' (List.mem_cons_of_mem _ hj'))
    rw [hstep]
    have hne1 : (handleJoin g0 j.1 (joinMsg g0.roomCode j.2)).1.players ≠ [] := by
      rw [hacc]
      simp
    have hne : (joinAll (handleJoin g0 j.1 (joinMsg g0.roomCode j.2)).1 rest).players ≠ [] := by
      intro hnil
      cases rest with
      | nil => exact hne1 hnil
      | cons j2 rest2 =>
        obtain ⟨_, _, _, _, _, h6⟩ := ih (handleJoin g0 j.1 (joinMsg g0.roomCode j.2)).1 hinv1
          (by rw [hacc]; exact hs) (fun j' hj' => hn j' (List.mem_cons_of_mem _ hj'))
        exact h6 (List.cons_ne_nil _ _) hnil
    refine ⟨i1, i2, ?_, ?_, ?_, fun _ => hne⟩
    · rw [i3, hacc]
    · rw [i4, hacc]
      simp only [List.length_cons]
      push_cast
      omega
    · rw [i5]
      have hemp : (handleJoin g0 j.1 (joinMsg g0.roomCode j.2)).1.players.isEmpty = false := by
        cases hp : (handleJoin g0 j.1 (joinMsg g0.roomCode j.2)).1.players with
        | nil => exact absurd hp hne1
        | cons _ _ => rfl
      rw [hemp]
      have hr1 : rosterNames (handleJoin g0 j.1 (joinMsg g0.roomCode j.2)).1
          = rosterNames g0 ++ (if g0.players.isEmpty then [] else [j.2]) := by
        rw [hacc]
        unfold rosterNames
        simp only [List.filter_append, List.map_append]
        congr 1
        cases hp : g0.players.isEmpty <;> simp [joinedPlayer, hp, List.filter, joinMsg]
      rw [hr1]
      cases hp : g0.players.isEmpty <;> simp

/-- C13: joins in the lobby.  Let `g0` be a reachable state in LOBBY and `joins` any sequence
of `join` messages with the session's room code and non-empty names, processed one after
the other.  In the state after the sequence: the state is still LOBBY, `nextPlayerId` has
advanced by the number of joins (each join took the next id, so the ids assigned are strictly
increasing), every id in `players` is below `nextPlayerId` (so the next id is new), and the
roster of `jsonLobby` is the roster of `g0` followed by the names of the joiners in join order
(without the first joiner when `players` was empty: that joiner is the host).  A further join
is accepted: it is stored under id `nextPlayerId`, answered with `join_ok` carrying that id,
and the roster broadcast to every player is the previous roster followed by the new name. -/
theorem joins_in_lobby (stdSort : List Player → List Player) (g0 : Game)
    (hr : Reachable stdSort g0) (hs : g0.state = GameState.LOBBY)
    (joins : List (Int × String)) (hn : ∀ j ∈ joins, j.2 ≠ "") :
    (joinAll g0 joins).state = GameState.LOBBY
      ∧ (joinAll g0 joins).nextPlayerId = g0.nextPlayerId + (joins.length : Int)
      ∧ (∀ e ∈ (joinAll g0 joins).players, e.1 < (joinAll g0 joins).nextPlayerId)
      ∧ rosterNames (joinAll g0 joins) =
          rosterNames g0 ++
            (if g0.players.isEmpty then (joins.map Prod.snd).tail else joins.map Prod.snd)
      ∧ ∀ (fd : Int) (name : String), name ≠ "" →
          (handleJoin (joinAll g0 joins) fd (joinMsg g0.roomCode name)).1.players =
              (joinAll g0 joins).players ++
                [((joinAll g0 joins).nextPlayerId, joinedPlayer (joinAll g0 joins) fd name)]
            ∧ (handleJoin (joinAll g0 joins) fd (joinMsg g0.roomCode name)).1.nextPlayerId =
                (joinAll g0 joins).nextPlayerId + 1
            ∧ (handleJoin (joinAll g0 joins) fd (joinMsg g0.roomCode name)).2 =
                (fd, Reply.join_ok (joinAll g0 joins).nextPlayerId
                    (joinAll g0 joins).players.isEmpty) ::
                  broadcast (handleJoin (joinAll g0 joins) fd (joinMsg g0.roomCode name)).1
                    (Reply.lobby_update
                      (rosterNames (joinAll g0 joins) ++
                        (if (joinAll g0 joins).players.isEmpty then [] else [name]))
                      g0.roomCode) := by
  obtain ⟨i1, i2, i3, i4, i5, _⟩ :=
    joinAll_facts joins g0 (inv_of_reachable stdSort g0 hr) hs hn
  refine ⟨i2, i4, i1.keysFresh, i5, ?_⟩
  intro fd name hname
  have h := handleJoin_accept (joinAll g0 joins) fd (joinMsg g0.roomCode name) i2
    (by rw [i3]; rfl) hname i1.keysFresh
  refine ⟨by rw [h]; rfl, by rw [h], ?_⟩
  rw [h, i3]
  rfl

/-- C13 witness: after `create_game`, `add_question` and `start_game` of scenario A, the first
joiner "Bob" gets id 2 and the roster is ["Bob"]; after Bob and Carol have joined the roster
is ["Bob", "Carol"] and the next id is 4. -/
theorem joins_in_lobby_witness :
    (handleJoin (run insertionSort initGame (scenarioEvents.take 3)) 7
          (joinMsg "1234" "Bob")).2
        = [(7, Reply.join_ok 2 false), (5, Reply.lobby_update ["Bob"] "1234"),
           (7, Reply.lobby_update ["Bob"] "1234")]
      ∧ rosterNames (joinAll (run insertionSort initGame (scenarioEvents.take 3))
          [(7, "Bob"), (8, "Carol")]) = ["Bob", "Carol"]
      ∧ (joinAll (run insertionSort initGame (scenarioEvents.take 3))
          [(7, "Bob"), (8, "Carol")]).nextPlayerId = 4 :=
  ⟨(((joins_in_lobby insertionSort _ ⟨scenarioEvents.take 3, rfl⟩ (by decide) []
        (by decide)).2.2.2.2 7 "Bob" (by decide)).2.2).trans (by decide),
   ((joins_in_lobby insertionSort _ ⟨scenarioEvents.take 3, rfl⟩ (by decide)
        [(7, "Bob"), (8, "Carol")] (by decide)).2.2.2.1).trans (by decide),
   ((joins_in_lobby insertionSort _ ⟨scenarioEvents.take 3, rfl⟩ (by decide)
        [(7, "Bob"), (8, "Carol")] (by decide)).2.1).trans (by decide)⟩

theorem players_ne_nil_of_connected (stdSort : List Player → List Player) (g : Game)
    (h : ReachableConnected stdSort g) (hs : g.state ≠ GameState.NO_GAME) : g.players ≠ [] := by
  obtain ⟨events, hev, rfl⟩ := h
  have h1 := hostOne_run stdSort events initGame inv_initGame (fun hne => absurd rfl hne) hev hs
  intro hnil
  rw [hnil] at h1
  simp [hostCount] at h1

/-- C14 (amended): for every reachable game in state LOBBY and every join carrying the
session's room code and a non-empty name, `handleJoin` registers, under the next id, a player
bound to the requesting connection, with the supplied name and total 0; that player is a
non-host player exactly when `players` was not empty, which is always the case when no
client has disconnected, and is made host when `players` was empty. -/
theorem handleJoin_registers (stdSort : List Player → List Player) (g : Game) (fd : Int)
    (msg : Msg) (hr : Reachable stdSort g) (hs : g.state = GameState.LOBBY)
    (hroom : msg.room.getD "" = g.roomCode) (hname : msg.name.getD "" ≠ "") :
    (handleJoin g fd msg).1.players =
        g.players ++
          [(g.nextPlayerId,
            { id := g.nextPlayerId, name := msg.name.getD "", totalScore := 0,
              isHost := g.players.isEmpty, answered := false, socketFd := fd })]
      ∧ mapFind (handleJoin g fd msg).1.players g.nextPlayerId =
          some { id := g.nextPlayerId, name := msg.name.getD "", totalScore := 0,
                 isHost := g.players.isEmpty, answered := false, socketFd := fd }
      ∧ (g.players ≠ [] → g.players.isEmpty = false)
      ∧ (ReachableConnected stdSort g → g.players.isEmpty = false) := by
  have hinv := inv_of_reachable stdSort g hr
  have hacc := handleJoin_accept g fd msg hs hroom hname hinv.keysFresh
  have hne : ∀ m : PlayerMap, m ≠ [] → m.isEmpty = false := by
    intro m hm
    cases m with
    | nil => exact absurd rfl hm
    | cons _ _ => rfl
  refine ⟨by rw [hacc]; rfl, ?_, hne _, ?_⟩
  · rw [hacc]
    show mapFind (g.players ++ [(g.nextPlayerId, joinedPlayer g fd (msg.name.getD ""))]) _ = _
    rw [← mapInsert_fresh _ _ _ hinv.keysFresh, mapFind_mapInsert_self]
    rfl
  · intro hc
    exact hne _ (players_ne_nil_of_connected stdSort g hc (by rw [hs]; decide))

/-- C14 witness: in the lobby of scenario A, Bob's join registers the non-host player Bob on
socket 7 under id 2. -/
theorem handleJoin_registers_witness :
    mapFind (handleJoin (run insertionSort initGame (scenarioEvents.take 3)) 7
        (joinMsg "1234" "Bob")).1.players 2 = some bob :=
  ((handleJoin_registers insertionSort (run insertionSort initGame (scenarioEvents.take 3)) 7
      (joinMsg "1234" "Bob") ⟨scenarioEvents.take 3, rfl⟩ (by decide) (by decide)
      (by decide)).2.1).trans (by decide)

/-- C14 counterexample: Alice opens the lobby of scenario A and her connection drops; the
state is LOBBY with no player left, and Bob's join (right room code, non-empty name)
registers Bob with `isHost = true`. -/
theorem handleJoin_registers_host_in_empty_lobby :
    (run insertionSort initGame (scenarioEvents.take 3 ++ [Event.disconnect 5])).state
        = GameState.LOBBY
      ∧ (run insertionSort initGame (scenarioEvents.take 3 ++ [Event.disconnect 5])).roomCode
        = "1234"
      ∧ (handleJoin (run insertionSort initGame (scenarioEvents.take 3 ++ [Event.disconnect 5]))
          7 (joinMsg "1234" "Bob")).1.players = [(2, { bob with isHost := true })] := by
  refine ⟨by decide, by decide, by decide⟩

/-! ## C15, C16: the final ranking -/

theorem insertRanked_perm (p : Player) (l : List Player) : (insertRanked p l).Perm (p :: l) := by
  induction l with
  | nil => exact List.Perm.refl _
  | cons x xs ih =>
    unfold insertRanked
    split
    · exact List.Perm.refl _
    · exact (List.Perm.cons x ih).trans (List.Perm.swap p x xs)

theorem rankBefore_false_iff (a b : Player) :
    rankBefore b a = false ↔ b.totalScore ≤ a.totalScore := by
  unfold rankBefore
  simp

theorem insertRanked_sorted (p : Player) (l : List Player)
    (h : l.Pairwise (fun a b => rankBefore b a = false)) :
    (insertRanked p l).Pairwise (fun a b => rankBefore b a = false) := by
  induction l with
  | nil => simp [insertRanked]
  | cons x xs ih =>
    obtain ⟨hx, hxs⟩ := List.pairwise_cons.mp h
    unfold insertRanked
    by_cases hb : rankBefore p x = true
    · rw [if_pos hb]
      refine List.pairwise_cons.mpr ⟨?_, h⟩
      intro y hy
      have hpx : x.totalScore < p.totalScore := by
        unfold rankBefore at hb
        simpa using hb
      rw [rankBefore_false_iff]
      rcases List.mem_cons.mp hy with rfl | hy
      · omega
      · have := (rankBefore_false_iff _ _).mp (hx y hy)
        omega
    · rw [if_neg hb]
      refine List.pairwise_cons.mpr ⟨?_, ih hxs⟩
      intro y hy
      rcases List.mem_cons.mp ((insertRanked_perm p xs).subset hy) with rfl | hy
      · simpa using hb
      · exact hx y hy

theorem insertionSort_foldl (l : List Player) :
    ∀ acc : List Player, acc.Pairwise (fun a b => rankBefore b a = false) →
      (l.foldl (fun acc p => insertRanked p acc) acc).Perm (acc ++ l)
        ∧ (l.foldl (fun acc p => insertRanked p acc) acc).Pairwise
            (fun a b => rankBefore b a = false) := by
  induction l with
  | nil => intro acc h; simpa using h
  | cons p rest ih =>
    intro acc h
    rw [List.foldl_cons]
    obtain ⟨h1, h2⟩ := ih (insertRanked p acc) (insertRanked_sorted p acc h)
    refine ⟨h1.trans ?_, h2⟩
    have hp : (insertRanked p acc ++ rest).Perm ((p :: acc) ++ rest) :=
      List.Perm.append_right rest (insertRanked_perm p acc)
    have hm : (acc ++ p :: rest).Perm (p :: (acc ++ rest)) := List.perm_middle
    exact hp.trans (by simpa using hm.symm)

theorem stdSortSpec_insertionSort : StdSortSpec insertionSort := by
  intro l
  have h := insertionSort_foldl l [] List.Pairwise.nil
  exact ⟨by simpa using h.1, h.2⟩

theorem jsonFinal_eq (stdSort : List Player → List Player) (g : Game) :
    jsonFinal stdSort g = Reply.final_results ((stdSort (nonHostPlayers g)).map renderRank) :=
  rfl

theorem nonHostPlayers_isHost (g : Game) (p : Player) (h : p ∈ nonHostPlayers g) :
    p.isHost = false := by
  unfold nonHostPlayers at h
  obtain ⟨e, he, rfl⟩ := List.mem_map.mp h
  simpa using (List.mem_filter.mp he).2

/-- C15: for every game and every `std::sort` that meets its contract, the ranking built by
`jsonFinal` is the rendering (name, total) of a rearrangement of exactly the non-host
players in `players` (no host among them), and its totals are in non-increasing order. -/
theorem jsonFinal_ranking (stdSort : List Player → List Player) (hspec : StdSortSpec stdSort)
    (g : Game) :
    ∃ ranked : List Player,
      ranked.Perm (nonHostPlayers g)
        ∧ (∀ p ∈ ranked, p.isHost = false)
        ∧ jsonFinal stdSort g = Reply.final_results (ranked.map renderRank)
        ∧ (ranked.map renderRank).Pairwise (fun a b => b.total ≤ a.total) := by
  obtain ⟨hperm, hsorted⟩ := hspec (nonHostPlayers g)
  refine ⟨stdSort (nonHostPlayers g), hperm, ?_, jsonFinal_eq stdSort g, ?_⟩
  · intro p hp
    exact nonHostPlayers_isHost g p (hperm.subset hp)
  · rw [List.pairwise_map]
    exact hsorted.imp (fun {a b} hab => (rankBefore_false_iff a b).mp hab)

/-- C15 witness: with insertion sort as `std::sort`, the ranking of Bob 980, Carol 990,
Dave 980 (host Alice left out) is Carol, Bob, Dave. -/
theorem jsonFinal_ranking_witness :
    (∃ ranked : List Player,
        ranked.Perm (nonHostPlayers podiumGame)
          ∧ (∀ p ∈ ranked, p.isHost = false)
          ∧ jsonFinal insertionSort podiumGame = Reply.final_results (ranked.map renderRank)
          ∧ (ranked.map renderRank).Pairwise (fun a b => b.total ≤ a.total))
      ∧ jsonFinal insertionSort podiumGame =
          Reply.final_results
            [{ name := "Carol", total := 990 }, { name := "Bob", total := 980 },
             { name := "Dave", total := 980 }] :=
  ⟨jsonFinal_ranking insertionSort stdSortSpec_insertionSort podiumGame, by decide⟩

theorem mem_insertRev (val y : Player) (r : List Player) :
    y ∈ insertRev val r ↔ y = val ∨ y ∈ r := by
  induction r with
  | nil => simp [insertRev]
  | cons x rest ih =>
    unfold insertRev
    split
    · simp only [List.mem_cons, ih]
      tauto
    · simp only [List.mem_cons]

theorem insertRev_sorted (val : Player) (r : List Player)
    (h : r.Pairwise (fun a b => rankBefore a b = false)) :
    (insertRev val r).Pairwise (fun a b => rankBefore a b = false) := by
  induction r with
  | nil => simp [insertRev]
  | cons x rest ih =>
    obtain ⟨hx, hrest⟩ := List.pairwise_cons.mp h
    unfold insertRev
    by_cases hb : rankBefore val x = true
    · rw [if_pos hb]
      refine List.pairwise_cons.mpr ⟨?_, ih hrest⟩
      intro y hy
      rcases (mem_insertRev val y rest).mp hy with rfl | hy
      · have hvx : x.totalScore < y.totalScore := by
          unfold rankBefore at hb
          simpa using hb
        rw [rankBefore_false_iff]
        omega
      · exact hx y hy
    · rw [if_neg hb]
      refine List.pairwise_cons.mpr ⟨?_, h⟩
      intro y hy
      have hvx : val.totalScore ≤ x.totalScore := by
        unfold rankBefore at hb
        simpa using hb
      rw [rankBefore_false_iff]
      rcases List.mem_cons.mp hy with rfl | hy
      · exact hvx
      · have := (rankBefore_false_iff _ _).mp (hx y hy)
        omega

theorem filter_insertRev (val : Player) (t : Int) (r : List Player) :
    (insertRev val r).filter (fun x => decide (x.totalScore = t))
      = (if val.totalScore = t then [val] else [])
        ++ r.filter (fun x => decide (x.totalScore = t)) := by
  induction r with
  | nil =>
    unfold insertRev
    by_cases hp : val.totalScore = t <;> simp [hp]
  | cons x rest ih =>
    unfold insertRev
    by_cases hb : rankBefore val x = true
    · rw [if_pos hb]
      have hvx : x.totalScore < val.totalScore := by
        unfold rankBefore at hb
        simpa using hb
      by_cases hp : val.totalScore = t
      · have hxt : ¬ x.totalScore = t := by omega
        rw [List.filter_cons_of_neg (by simpa using hxt),
          List.filter_cons_of_neg (by simpa using hxt), ih]
      · rw [if_neg hp] at ih ⊢
        rw [List.nil_append] at ih ⊢
        by_cases hxt : x.totalScore = t
        · rw [List.filter_cons_of_pos (by simpa using hxt),
            List.filter_cons_of_pos (by simpa using hxt), ih]
        · rw [List.filter_cons_of_neg (by simpa using hxt),
            List.filter_cons_of_neg (by simpa using hxt), ih]
    · rw [if_neg hb]
      by_cases hp : val.totalScore = t
      · rw [if_pos hp, List.filter_cons_of_pos (by simpa using hp)]
        rfl
      · rw [if_neg hp, List.filter_cons_of_neg (by simpa using hp)]
        rfl

theorem unguarded_linear_insert_sorted (pre : List Player) (val : Player)
    (h : pre.Pairwise (fun a b => rankBefore b a = false)) :
    (unguarded_linear_insert pre val).Pairwise (fun a b => rankBefore b a = false) := by
  unfold unguarded_linear_insert
  rw [List.pairwise_reverse]
  exact insertRev_sorted val pre.reverse (List.pairwise_reverse.mpr h)

theorem filter_unguarded_linear_insert (pre : List Player) (val : Player) (t : Int) :
    (unguarded_linear_insert pre val).filter (fun x => decide (x.totalScore = t))
      = pre.filter (fun x => decide (x.totalScore = t))
        ++ (if val.totalScore = t then [val] else []) := by
  unfold unguarded_linear_insert
  rw [List.filter_reverse, filter_insertRev, List.reverse_append, List.filter_reverse,
    List.reverse_reverse]
  by_cases hp : val.totalScore = t <;> simp [hp]

theorem insertion_step_sorted (pre : List Player) (val : Player)
    (h : pre.Pairwise (fun a b => rankBefore b a = false)) :
    (insertion_step pre val).Pairwise (fun a b => rankBefore b a = false) := by
  cases pre with
  | nil => simp [insertion_step]
  | cons first rest =>
    unfold insertion_step
    by_cases hb : rankBefore val first = true
    · simp only [hb, if_true]
      refine List.pairwise_cons.mpr ⟨?_, h⟩
      intro y hy
      have hvx : first.totalScore < val.totalScore := by
        unfold rankBefore at hb
        simpa using hb
      rw [rankBefore_false_iff]
      rcases List.mem_cons.mp hy with rfl | hy
      · omega
      · have := (rankBefore_false_iff _ _).mp ((List.pairwise_cons.mp h).1 y hy)
        omega
    · simp only [hb]
      exact unguarded_linear_insert_sorted _ val h

theorem filter_insertion_step (pre : List Player) (val : Player) (t : Int)
    (h : pre.Pairwise (fun a b => rankBefore b a = false)) :
    (insertion_step pre val).filter (fun x => decide (x.totalScore = t))
      = pre.filter (fun x => decide (x.totalScore = t))
        ++ (if val.totalScore = t then [val] else []) := by
  cases pre with
  | nil =>
    unfold insertion_step
    by_cases hp : val.totalScore = t <;> simp [hp]
  | cons first rest =>
    unfold insertion_step
    by_cases hb : rankBefore val first = true
    · simp only [hb, if_true]
      have hvx : first.totalScore < val.totalScore := by
        unfold rankBefore at hb
        simpa using hb
      by_cases hp : val.totalScore = t
      · have hnone : (first :: rest).filter (fun y => decide (y.totalScore = t)) = [] := by
          rw [List.filter_eq_nil_iff]
          intro y hy
          have hle : y.totalScore ≤ first.totalScore := by
            rcases List.mem_cons.mp hy with rfl | hy
            · exact le_refl _
            · exact (rankBefore_false_iff _ _).mp ((List.pairwise_cons.mp h).1 y hy)
          simp only [decide_eq_true_eq]
          omega
        rw [List.filter_cons_of_pos (by simpa using hp), hnone, if_pos hp]
        rfl
      · rw [List.filter_cons_of_neg (by simpa using hp), if_neg hp, List.append_nil]
    · simp only [hb]
      exact filter_unguarded_linear_insert _ val t

theorem filter_insertion_foldl (t : Int) (l : List Player) :
    ∀ pre : List Player, pre.Pairwise (fun a b => rankBefore b a = false) →
      (l.foldl insertion_step pre).filter (fun x => decide (x.totalScore = t))
        = pre.filter (fun x => decide (x.totalScore = t))
          ++ l.filter (fun x => decide (x.totalScore = t)) := by
  induction l with
  | nil => intro pre _; simp
  | cons p rest ih =>
    intro pre h
    rw [List.foldl_cons, ih _ (insertion_step_sorted pre p h), filter_insertion_step pre p t h]
    by_cases hp : p.totalScore = t
    · rw [if_pos hp, List.filter_cons_of_pos (by simpa using hp)]
      simp
    · rw [if_neg hp, List.filter_cons_of_neg (by simpa using hp)]
      simp

theorem filter_insertion_sort (t : Int) (l : List Player) :
    (insertion_sort l).filter (fun x => decide (x.totalScore = t))
      = l.filter (fun x => decide (x.totalScore = t)) := by
  cases l with
  | nil => rfl
  | cons x rest =>
    unfold insertion_sort
    rw [filter_insertion_foldl t rest [x] (List.pairwise_singleton _ _), ← List.filter_append]
    rfl

theorem introsort_loop_of_le (depth : Nat) (l : List Player) (h : l.length ≤ 16) :
    introsort_loop depth l = l := by
  cases depth with
  | zero =>
    unfold introsort_loop
    rw [if_neg (by omega)]
  | succ d =>
    unfold introsort_loop
    rw [if_neg (by omega)]

theorem std_sort_of_le (l : List Player) (h : l.length ≤ 16) : std_sort l = insertion_sort l := by
  unfold std_sort
  by_cases hl : l.length = 0
  · rw [if_pos hl, List.length_eq_zero.mp hl]
    rfl
  · rw [if_neg hl, introsort_loop_of_le _ l h]
    unfold final_insertion_sort
    rw [if_neg (by omega)]

/-- C16 (amended): for every game with at most 16 non-host players and every total `t`, the
ranking built by `jsonFinal` with the `std::sort` of GNU libstdc++ holds the non-host players
whose total is `t` in their original relative order (the order of the `players` map). -/
theorem jsonFinal_ties_in_order_up_to_16 (g : Game) (hsize : (nonHostPlayers g).length ≤ 16)
    (t : Int) :
    jsonFinal std_sort g = Reply.final_results ((std_sort (nonHostPlayers g)).map renderRank)
      ∧ (std_sort (nonHostPlayers g)).filter (fun p => decide (p.totalScore = t))
          = (nonHostPlayers g).filter (fun p => decide (p.totalScore = t)) := by
  refine ⟨jsonFinal_eq std_sort g, ?_⟩
  rw [std_sort_of_le _ hsize]
  exact filter_insertion_sort t (nonHostPlayers g)

/-- C16 witness: in the podium game (Bob 980, Carol 990, Dave 980) the ranking is Carol, Bob,
Dave: the two players with total 980 come out in map order, Bob before Dave. -/
theorem jsonFinal_ties_in_order_up_to_16_witness :
    (nonHostPlayers podiumGame).length ≤ 16
      ∧ (jsonFinal std_sort podiumGame
            = Reply.final_results ((std_sort (nonHostPlayers podiumGame)).map renderRank)
          ∧ (std_sort (nonHostPlayers podiumGame)).filter (fun p => decide (p.totalScore = 980))
              = (nonHostPlayers podiumGame).filter (fun p => decide (p.totalScore = 980)))
      ∧ jsonFinal std_sort podiumGame =
          Reply.final_results
            [{ name := "Carol", total := 990 }, { name := "Bob", total := 980 },
             { name := "Dave", total := 980 }] :=
  ⟨by decide, jsonFinal_ties_in_order_up_to_16 podiumGame (by decide) 980, by decide⟩

set_option maxRecDepth 100000

/-- C16 counterexample: seventeen players join and nobody answers the only question, so all
totals are 0 when the host sends `next_question` after the question has closed.  The
`players` map holds them in the order P02, ..., P18, and the ranking that `finishGame` sends
to every client starts with P10, P18, P17: P10 stands before P02 although P02 precedes it in
the map and both have total 0. -/
theorem jsonFinal_ties_reordered_by_std_sort :
    (run std_sort initGame crowdEvents).state = GameState.QUESTION_RESULTS
      ∧ (nonHostPlayers (run std_sort initGame crowdEvents)).map renderRank
          = [{ name := "P02", total := 0 }, { name := "P03", total := 0 },
             { name := "P04", total := 0 }, { name := "P05", total := 0 },
             { name := "P06", total := 0 }, { name := "P07", total := 0 },
             { name := "P08", total := 0 }, { name := "P09", total := 0 },
             { name := "P10", total := 0 }, { name := "P11", total := 0 },
             { name := "P12", total := 0 }, { name := "P13", total := 0 },
             { name := "P14", total := 0 }, { name := "P15", total := 0 },
             { name := "P16", total := 0 }, { name := "P17", total := 0 },
             { name := "P18", total := 0 }]
      ∧ (handleNext std_sort (run std_sort initGame crowdEvents) 5 7000).2.head?
          = some (5, Reply.final_results
            [{ name := "P10", total := 0 }, { name := "P18", total := 0 },
             { name := "P17", total := 0 }, { name := "P16", total := 0 },
             { name := "P15", total := 0 }, { name := "P14", total := 0 },
             { name := "P13", total := 0 }, { name := "P12", total := 0 },
             { name := "P11", total := 0 }, { name := "P02", total := 0 },
             { name := "P09", total := 0 }, { name := "P08", total := 0 },
             { name := "P07", total := 0 }, { name := "P06", total := 0 },
             { name := "P05", total := 0 }, { name := "P04", total := 0 },
             { name := "P03", total := 0 }]) := by
  refine ⟨by decide, by decide, by decide⟩

/-! ## C17: `next_question` -/

theorem startQuestion_of_lt (g : Game) (now : Int)
    (h : g.currentQuestionIndex + 1 < intSize g.questions) :
    (startQuestion g now).1 =
      { g with
        currentQuestionIndex := g.currentQuestionIndex + 1, answers := [],
        players := g.players.map (fun p => (p.1, { p.2 with answered := false })),
        questionStartTime := now, state := GameState.QUESTION_ACTIVE } := by
  unfold startQuestion
  rw [if_neg (by omega)]
  simp only [resetAnswerFlags]
  split <;> rfl

theorem handleNext_of_host (stdSort : List Player → List Player) (g : Game) (fd now : Int)
    (hs : g.state = GameState.QUESTION_RESULTS) (hh : isRegisteredHost g fd) :
    (g.currentQuestionIndex + 1 ≥ intSize g.questions →
        handleNext stdSort g fd now =
          ({ g with state := GameState.FINISHED },
            broadcast { g with state := GameState.FINISHED }
              (jsonFinal stdSort { g with state := GameState.FINISHED })))
      ∧ (g.currentQuestionIndex + 1 < intSize g.questions →
          (handleNext stdSort g fd now).1 =
            { g with
              currentQuestionIndex := g.currentQuestionIndex + 1, answers := [],
              players := g.players.map (fun p => (p.1, { p.2 with answered := false })),
              questionStartTime := now, state := GameState.QUESTION_ACTIVE }) := by
  obtain ⟨hp, p, hfind, hhost⟩ := hh
  have hsn : ¬ (g.state ≠ GameState.QUESTION_RESULTS) := by simp [hs]
  have hunf : handleNext stdSort g fd now =
      if g.currentQuestionIndex + 1 ≥ intSize g.questions then finishGame stdSort g
      else startQuestion g now := by
    unfold handleNext
    simp only [mapIndex_of_mapFind _ _ _ hfind, hp, hhost]
    simp only [if_false, Bool.not_true, Bool.false_eq_true]
    rw [if_neg hsn]
  constructor
  · intro h
    rw [hunf, if_pos h]
    rfl
  · intro h
    rw [hunf, if_neg (by omega)]
    exact startQuestion_of_lt g now h

theorem handleNext_of_not_host (stdSort : List Player → List Player) (g : Game) (fd now : Int)
    (hh : ¬ isRegisteredHost g fd) : handleNext stdSort g fd now = (g, []) := by
  by_cases hp : findPlayerIdByFd g fd = -1
  · simp [handleNext, hp]
  obtain ⟨p, hfind⟩ := mapFind_findPlayerIdByFd g fd hp
  have hhost : p.isHost = false := by
    cases hb : p.isHost with
    | false => rfl
    | true => exact absurd ⟨hp, p, hfind, hb⟩ hh
  simp [handleNext, hp, mapIndex_of_mapFind _ _ _ hfind, hhost]

theorem length_lt_of_int_ids (g : Game) (hq : QuestionsOk g)
    (hid : ∀ q ∈ g.questions, q.id ≤ 2147483647) : g.questions.length < 2147483648 := by
  by_contra hge
  have hlt : 2147483647 < g.questions.length := by omega
  have hget : g.questions[2147483647]? = some g.questions[2147483647] :=
    List.getElem?_eq_getElem hlt
  have h1 := (hq 2147483647 _ hget).1
  have h2 := hid _ (List.getElem?_mem hget)
  rw [h1] at h2
  unfold toInt32 at h2
  omega

/-- C17: for every game in state QUESTION_RESULTS and a request from the registered host,
`handleNext` sets the state to FINISHED, changing no other field (and broadcasts the final
ranking), when `currentQuestionIndex + 1 ≥ questions.size()`; otherwise, in every state the
server reaches (the question ids being values of their `int` field), it advances to the next
question: `currentQuestionIndex` increases by exactly 1, `answers` is cleared, every player's
`answered` flag is false, `questionStartTime` is the current time and the state is
QUESTION_ACTIVE, nothing else changed.  A request from a connection that is not the registered
host leaves the game unchanged and sends nothing, in every state. -/
theorem handleNext_spec (stdSort : List Player → List Player) (g : Game) (fd now : Int) :
    (g.state = GameState.QUESTION_RESULTS → isRegisteredHost g fd →
        (g.currentQuestionIndex + 1 ≥ (g.questions.length : Int) →
          handleNext stdSort g fd now =
            ({ g with state := GameState.FINISHED },
              broadcast { g with state := GameState.FINISHED }
                (jsonFinal stdSort { g with state := GameState.FINISHED })))
        ∧ (Reachable stdSort g → (∀ q ∈ g.questions, q.id ≤ 2147483647) →
            g.currentQuestionIndex + 1 < (g.questions.length : Int) →
            (handleNext stdSort g fd now).1 =
              { g with
                currentQuestionIndex := g.currentQuestionIndex + 1, answers := [],
                players := g.players.map (fun p => (p.1, { p.2 with answered := false })),
                questionStartTime := now, state := GameState.QUESTION_ACTIVE }))
      ∧ (¬ isRegisteredHost g fd → handleNext stdSort g fd now = (g, [])) := by
  refine ⟨?_, handleNext_of_not_host stdSort g fd now⟩
  intro hs hh
  obtain ⟨h1, h2⟩ := handleNext_of_host stdSort g fd now hs hh
  constructor
  · intro hge
    have := intSize_le_length g.questions
    exact h1 (by omega)
  · intro hr hid hlt
    have hlen := length_lt_of_int_ids g (questionsOk_of_reachable stdSort g hr) hid
    rw [intSize_of_lt _ hlen] at h2
    exact h2 hlt

/-- C17 witness: after the only question of scenario B has closed, the host's `next_question`
finishes the game; in the session with a second question it starts that question at 7000 ms;
Bob's `next_question` changes nothing. -/
theorem handleNext_spec_witness :
    (handleNext insertionSort (run insertionSort initGame closedEvents) 5 7000).1
        = { run insertionSort initGame closedEvents with state := GameState.FINISHED }
      ∧ (handleNext insertionSort (run insertionSort initGame twoQuestionEvents) 5 7000).1
        = { run insertionSort initGame twoQuestionEvents with
            currentQuestionIndex := 1, answers := [],
            players := [(1, alice), (2, { bob with totalScore := 980 })],
            questionStartTime := 7000, state := GameState.QUESTION_ACTIVE }
      ∧ handleNext insertionSort (run insertionSort initGame closedEvents) 7 7000
        = (run insertionSort initGame closedEvents, []) := by
  have hh1 : isRegisteredHost (run insertionSort initGame closedEvents) 5 :=
    ⟨by decide, alice, by decide, rfl⟩
  have hh2 : isRegisteredHost (run insertionSort initGame twoQuestionEvents) 5 :=
    ⟨by decide, alice, by decide, rfl⟩
  refine ⟨?_, ?_, ?_⟩
  · rw [((handleNext_spec insertionSort (run insertionSort initGame closedEvents) 5 7000).1
      (by decide) hh1).1 (by decide)]
  · exact (((handleNext_spec insertionSort (run insertionSort initGame twoQuestionEvents) 5
      7000).1 (by decide) hh2).2 ⟨twoQuestionEvents, rfl⟩ (by decide) (by decide)).trans
      (by decide)
  · apply (handleNext_spec insertionSort (run insertionSort initGame closedEvents) 7 7000).2
    rintro ⟨_, p, hfind, hhost⟩
    have hb : some p = some { bob with answered := true, totalScore := 980 } :=
      hfind.symm.trans (by decide)
    cases hb
    cases hhost

/-! ## C19: the results broadcast agrees with the scoring -/

theorem resultItems_forall₂ (G : Game) (q : Question) (l : List Answer) :
    ∀ items, resultItems G q l = some items →
      List.Forall₂ (fun a it => a ∈ l ∧ ∃ p, mapFind G.players a.playerId = some p
        ∧ it = { name := p.name, points := awarded G.questionStartTime q a,
                 total := p.totalScore }) l items := by
  induction l with
  | nil =>
    intro items h
    simp only [resultItems, Option.some.injEq] at h
    subst h
    exact List.Forall₂.nil
  | cons a rest ih =>
    intro items h
    unfold resultItems at h
    cases hf : mapFind G.players a.playerId with
    | none => rw [hf] at h; cases h
    | some p =>
      rw [hf] at h
      cases hr : resultItems G q rest with
      | none => rw [hr] at h; cases h
      | some its =>
        rw [hr] at h
        simp only [Option.some.injEq] at h
        subst h
        refine List.Forall₂.cons ⟨List.mem_cons_self _ _, p, hf, rfl⟩ ?_
        exact (ih its hr).imp (fun {b it} hb => ⟨List.mem_cons_of_mem _ hb.1, hb.2⟩)

theorem filter_playerId_of_nodup (l : List Answer)
    (hn : (l.map (fun a => a.playerId)).Nodup) (a : Answer) (ha : a ∈ l) :
    l.filter (fun b => decide (b.playerId = a.playerId)) = [a] := by
  induction l with
  | nil => simp at ha
  | cons x rest ih =>
    rw [List.map_cons, List.nodup_cons] at hn
    obtain ⟨hx, hrest⟩ := hn
    rcases List.mem_cons.mp ha with rfl | har
    · rw [List.filter_cons_of_pos (by simp)]
      congr 1
      rw [List.filter_eq_nil_iff]
      intro b hb
      simp only [decide_eq_true_eq]
      intro hbe
      exact hx (hbe ▸ List.mem_map_of_mem _ hb)
    · have hne : x.playerId ≠ a.playerId := by
        intro he
        exact hx (he ▸ List.mem_map_of_mem _ har)
      rw [List.filter_cons_of_neg (by simpa using hne)]
      exact ih hrest har

/-- C19: in every reachable QUESTION_ACTIVE state whose deadline has passed,
`checkQuestionTimeout` broadcasts one `question_results` message whose breakdown has one entry
per recorded answer, in order; the entry of an answer reports as `points` the amount by which
`scoreAnswers` raised the total stored under the answer's player id, and as `total` (with
`name`) the `totalScore` of that player's record after scoring, so
`total = (total before the question closed) + points`.  The total of an id without a record
counts as 0. -/
theorem question_results_consistent (stdSort : List Player → List Player) (g : Game) (now : Int)
    (q : Question) (hr : Reachable stdSort g) (hs : g.state = GameState.QUESTION_ACTIVE)
    (hq : currentQuestion g = some q) (ht : q.timeLimitMs ≤ now - g.questionStartTime) :
    (checkQuestionTimeout g now).1 = { scoreAnswers g q with state := GameState.QUESTION_RESULTS }
      ∧ ∃ items : List ResultItem,
          (checkQuestionTimeout g now).2 =
              broadcast (checkQuestionTimeout g now).1 (Reply.question_results q.correct items)
            ∧ List.Forall₂
                (fun a it =>
                  it.points = totalOf (scoreAnswers g q).players a.playerId
                      - totalOf g.players a.playerId
                    ∧ (∃ p, mapFind (checkQuestionTimeout g now).1.players a.playerId = some p
                        ∧ it.total = p.totalScore ∧ it.name = p.name)
                    ∧ it.total = totalOf g.players a.playerId + it.points)
                g.answers items := by
  obtain ⟨j, hj, hres⟩ := (checkQuestionTimeout_active g now q hs hq).2 ht
  have hnodup := (inv_of_reachable stdSort g hr).answersNodup
  unfold jsonQuestionResults at hj
  cases hri : resultItems { scoreAnswers g q with state := GameState.QUESTION_RESULTS } q
      ({ scoreAnswers g q with state := GameState.QUESTION_RESULTS } : Game).answers with
  | none => rw [hri] at hj; cases hj
  | some items =>
    rw [hri] at hj
    simp only [Option.some.injEq] at hj
    subst hj
    refine ⟨by rw [hres], items, by rw [hres], ?_⟩
    have hf := resultItems_forall₂ _ q _ items hri
    rw [hres]
    refine hf.imp ?_
    rintro a it ⟨ha, p, hfind, rfl⟩
    have ha' : a ∈ g.answers := ha
    have htot : totalOf (scoreAnswers g q).players a.playerId
        = totalOf g.players a.playerId + awarded g.questionStartTime q a := by
      rw [totalOf_scoreAnswers, filter_playerId_of_nodup g.answers hnodup a ha']
      simp
    have hp : totalOf (scoreAnswers g q).players a.playerId = p.totalScore := by
      have hfind' : mapFind (scoreAnswers g q).players a.playerId = some p := hfind
      unfold totalOf
      rw [hfind']
    refine ⟨?_, ⟨p, hfind, rfl, rfl⟩, ?_⟩
    · show awarded g.questionStartTime q a = _
      omega
    · show p.totalScore = totalOf g.players a.playerId + awarded g.questionStartTime q a
      omega

/-- C19 witness: closing the question of scenario B at 6000 ms broadcasts Bob's entry with
points 980 and total 980 to both players, and Bob's stored total is 980. -/
theorem question_results_consistent_witness :
    (checkQuestionTimeout (run insertionSort initGame scenarioEvents) 6000).2
        = [(5, Reply.question_results 1 [{ name := "Bob", points := 980, total := 980 }]),
           (7, Reply.question_results 1 [{ name := "Bob", points := 980, total := 980 }])]
      ∧ (checkQuestionTimeout (run insertionSort initGame scenarioEvents) 6000).1
          = { scoreAnswers (run insertionSort initGame scenarioEvents) (sampleQuestion 1000) with
              state := GameState.QUESTION_RESULTS } :=
  ⟨by decide,
   (question_results_consistent insertionSort (run insertionSort initGame scenarioEvents) 6000
      (sampleQuestion 1000) ⟨scenarioEvents, rfl⟩ (by decide) (by decide) (by decide)).1⟩

/-! ## C20: message framing -/

theorem findNewline_none (buffer : List UInt8) (h : findNewline buffer = none) :
    (10 : UInt8) ∉ buffer := by
  induction buffer with
  | nil => simp
  | cons b rest ih =>
    unfold findNewline at h
    by_cases hb : b = 10
    · rw [if_pos hb] at h; cases h
    · rw [if_neg hb] at h
      have hr : findNewline rest = none := by
        cases hf : findNewline rest with
        | none => rfl
        | some i => rw [hf] at h; cases h
      intro hmem
      rcases List.mem_cons.mp hmem with h1 | h1
      · exact hb h1.symm
      · exact ih hr h1

theorem findNewline_some (buffer : List UInt8) :
    ∀ pos, findNewline buffer = some pos →
      buffer = buffer.take pos ++ 10 :: buffer.drop (pos + 1)
        ∧ (10 : UInt8) ∉ buffer.take pos ∧ pos < buffer.length := by
  induction buffer with
  | nil => intro pos h; cases h
  | cons b rest ih =>
    intro pos h
    unfold findNewline at h
    by_cases hb : b = 10
    · rw [if_pos hb] at h
      cases h
      subst hb
      simp
    · rw [if_neg hb] at h
      cases hf : findNewline rest with
      | none => rw [hf] at h; cases h
      | some i =>
        rw [hf] at h
        simp only [Option.map_some', Option.some.injEq] at h
        subst h
        obtain ⟨h1, h2, h3⟩ := ih i hf
        refine ⟨?_, ?_, ?_⟩
        · simp only [List.take_succ_cons, List.drop_succ_cons, List.cons_append]
          rw [← h1]
        · simp only [List.take_succ_cons]
          intro hmem
          rcases List.mem_cons.mp hmem with h4 | h4
          · exact hb h4.symm
          · exact h2 h4
        · simp only [List.length_cons]
          omega

/-- With enough rounds the framing loop splits the buffer losslessly at its newlines. -/
theorem frameLoop_spec (fuel : Nat) :
    ∀ buffer : List UInt8, buffer.length < fuel →
      joinLines (frameLoop fuel buffer).1 ++ (frameLoop fuel buffer).2 = buffer
        ∧ (∀ l ∈ (frameLoop fuel buffer).1, (10 : UInt8) ∉ l)
        ∧ (10 : UInt8) ∉ (frameLoop fuel buffer).2 := by
  induction fuel with
  | zero => intro buffer h; omega
  | succ f ih =>
    intro buffer h
    unfold frameLoop
    cases hf : findNewline buffer with
    | none =>
      exact ⟨rfl, fun l hl => by simp at hl, findNewline_none buffer hf⟩
    | some pos =>
      obtain ⟨h1, h2, h3⟩ := findNewline_some buffer pos hf
      obtain ⟨i1, i2, i3⟩ := ih (buffer.drop (pos + 1)) (by
        rw [List.length_drop]
        omega)
      refine ⟨?_, ?_, i3⟩
      · show joinLines (buffer.take pos :: (frameLoop f (buffer.drop (pos + 1))).1)
          ++ (frameLoop f (buffer.drop (pos + 1))).2 = buffer
        unfold joinLines
        rw [List.append_assoc, List.cons_append, i1]
        exact h1.symm
      · intro l hl
        rcases List.mem_cons.mp hl with rfl | hl
        · exact h2
        · exact i2 l hl

theorem cString_of_no_nul (chunk : List UInt8) (h : ∀ b ∈ chunk, b ≠ 0) :
    cString chunk = chunk := by
  unfold cString
  rw [List.takeWhile_eq_self_iff]
  intro b hb
  simpa using h b hb

/-- What the framing does for a chunk without NUL byte: the lines and the remainder add up to
`pending + chunk`, and neither a line nor the remainder contains a newline. -/
theorem receiveChunk_of_no_nul (pending chunk : List UInt8) (h : ∀ b ∈ chunk, b ≠ 0) :
    joinLines (receiveChunk pending chunk).1 ++ (receiveChunk pending chunk).2
        = pending ++ chunk
      ∧ (∀ l ∈ (receiveChunk pending chunk).1, (10 : UInt8) ∉ l)
      ∧ (10 : UInt8) ∉ (receiveChunk pending chunk).2 := by
  unfold receiveChunk
  rw [cString_of_no_nul chunk h]
  exact frameLoop_spec _ _ (Nat.lt_succ_self _)

/-- C20, the code at the failing input: with an empty pending buffer, the 4-byte chunk
`'a', NUL, 'b', '\n'` yields no line and leaves only `'a'` buffered, so lines and remainder do
not add up to `pending + chunk`; and the same 4 bytes read as `'a', NUL` then `'b', '\n'`
yield the line "ab": the framed messages depend on how the stream was split. -/
theorem receiveChunk_drops_after_nul :
    receiveChunk [] [97, 0, 98, 10] = ([], [97])
      ∧ joinLines (receiveChunk [] [97, 0, 98, 10]).1 ++ (receiveChunk [] [97, 0, 98, 10]).2
          ≠ [] ++ [97, 0, 98, 10]
      ∧ receiveChunk (receiveChunk [] [97, 0]).2 [98, 10] = ([[97, 98]], []) := by
  refine ⟨by decide, by decide, by decide⟩

/-! ## C21: who is registered when a question closes -/

theorem map_stripTotal_mapInsert (m : PlayerMap) (k : Int) (p p0 : Player)
    (hs : keysSorted m) (h : mapFind m k = some p0)
    (hp : stripTotal (k, p) = stripTotal (k, p0)) :
    (mapInsert m k p).map stripTotal = m.map stripTotal := by
  induction m with
  | nil => simp [mapFind] at h
  | cons x rest ih =>
    obtain ⟨k', p'⟩ := x
    obtain ⟨hlt, hrest⟩ := (keysSorted_cons _ _ _).mp hs
    unfold mapFind at h
    unfold mapInsert
    by_cases h1 : k' = k
    · rw [if_pos h1] at h
      cases h
      subst h1
      rw [if_pos rfl, List.map_cons, List.map_cons, hp]
    · rw [if_neg h1] at h
      rw [if_neg h1]
      by_cases h2 : k < k'
      · exfalso
        have := hlt _ (mem_of_mapFind _ _ _ h)
        simp only at this
        omega
      · rw [if_neg h2, List.map_cons, List.map_cons, ih hrest h]

theorem map_stripTotal_scoreOne (s : Int) (q : Question) (m : PlayerMap) (a : Answer)
    (hs : keysSorted m) (h : (mapFind m a.playerId).isSome) :
    (scoreOne s q m a).map stripTotal = m.map stripTotal := by
  obtain ⟨p, hp⟩ := Option.isSome_iff_exists.mp h
  unfold scoreOne
  rw [mapIndex_of_mapFind _ _ _ hp]
  by_cases hc : a.answerIndex = q.correct
  · simp only [hc, if_true]
    exact map_stripTotal_mapInsert _ _ _ p hs hp rfl
  · simp only [hc, if_false]

theorem map_stripTotal_foldl_scoreOne (s : Int) (q : Question) (l : List Answer) :
    ∀ m : PlayerMap, keysSorted m → (∀ a ∈ l, (mapFind m a.playerId).isSome) →
      (l.foldl (scoreOne s q) m).map stripTotal = m.map stripTotal := by
  induction l with
  | nil => intro m _ _; rfl
  | cons a rest ih =>
    intro m hs h
    rw [List.foldl_cons]
    rw [ih (scoreOne s q m a) (keysSorted_scoreOne _ _ _ _ hs)
      (fun b hb => mapFind_isSome_scoreOne _ _ _ _ _ (h b (List.mem_cons_of_mem _ hb)))]
    exact map_stripTotal_scoreOne _ _ _ _ hs (h a (List.mem_cons_self _ _))

theorem map_fst_of_map_stripTotal (m m' : PlayerMap)
    (h : m'.map stripTotal = m.map stripTotal) : m'.map Prod.fst = m.map Prod.fst := by
  have h2 := congrArg (List.map Prod.fst) h
  simpa [List.map_map, Function.comp, stripTotal] using h2

/-- What closing a question leaves alone when every submitter is still registered: in
every reachable state with that property, `checkQuestionTimeout` keeps the keys of `players`
and every field of every record except `totalScore`. -/
theorem checkQuestionTimeout_frame (stdSort : List Player → List Player) (g : Game) (now : Int)
    (hr : Reachable stdSort g) (hreg : answersRegistered g) :
    (checkQuestionTimeout g now).1.players.map stripTotal = g.players.map stripTotal
      ∧ (checkQuestionTimeout g now).1.players.map Prod.fst = g.players.map Prod.fst := by
  have hstrip : (checkQuestionTimeout g now).1.players.map stripTotal
      = g.players.map stripTotal := by
    rcases checkQuestionTimeout_cases g now with hsame | ⟨_, q, hform⟩
    · rw [hsame]
    · rw [hform]
      exact map_stripTotal_foldl_scoreOne g.questionStartTime q g.answers g.players
        (inv_of_reachable stdSort g hr).sorted hreg
  exact ⟨hstrip, map_fst_of_map_stripTotal _ _ hstrip⟩

theorem answersRegistered_step (stdSort : List Player → List Player) (g : Game) (e : Event)
    (h : answersRegistered g) (he : Event.isDisconnect e = false) :
    answersRegistered (step stdSort g e) := by
  have hnil : ∀ g' : Game, g'.answers = [] → answersRegistered g' := by
    intro g' hg a ha
    rw [hg] at ha
    simp at ha
  have hstart : ∀ (g' : Game) (now : Int), answersRegistered g' →
      answersRegistered (startQuestion g' now).1 := by
    intro g' now hg'
    rcases startQuestion_cases g' now with hsame | ⟨_, hform⟩
    · rw [hsame]; exact hg'
    · rw [hform]; exact hnil _ rfl
  cases e with
  | create_game fd msg rnd =>
    show answersRegistered (handleCreateGame g fd msg rnd).1
    rcases handleCreateGame_cases g fd msg rnd with hsame | ⟨_, name, hform⟩
    · rw [hsame]; exact h
    · rw [hform]; exact hnil _ rfl
  | add_question fd msg =>
    show answersRegistered (handleAddQuestion g fd msg).1
    rcases handleAddQuestion_cases g fd msg with hsame | ⟨_, q, hform⟩
    · rw [hsame]; exact h
    · rw [hform]; exact h
  | start_game fd =>
    show answersRegistered (handleOpenLobby g fd).1
    rcases handleOpenLobby_cases g fd with hsame | ⟨_, _, hform⟩
    · rw [hsame]; exact h
    · rw [hform]; exact h
  | join fd msg =>
    show answersRegistered (handleJoin g fd msg).1
    rcases handleJoin_cases g fd msg with hsame | ⟨_, name, hform⟩
    · rw [hsame]; exact h
    · rw [hform]
      intro a ha
      exact mapFind_isSome_mapInsert _ _ _ _ (h a ha)
  | begin_quiz fd now =>
    show answersRegistered (handleStart g fd now).1
    rcases handleStart_cases g fd now with hsame | ⟨_, hform⟩ | ⟨_, hform⟩
    · rw [hsame]; exact h
    · rw [hform]; exact hstart _ now h
    · rw [hform]; exact hstart _ now h
  | answer fd msg now =>
    show answersRegistered (handleAnswer g fd msg now).1
    rcases handleAnswer_cases g fd msg now with hsame | ⟨_, p, _, _, _, a, hid, hform⟩
    · rw [hsame]; exact h
    · rw [hform]
      intro b hb
      show (mapFind (mapInsert g.players (findPlayerIdByFd g fd) _) b.playerId).isSome
      rcases List.mem_append.mp hb with hb | hb
      · exact mapFind_isSome_mapInsert _ _ _ _ (h b hb)
      · simp only [List.mem_singleton] at hb
        rw [hb, hid, mapFind_mapInsert_self]
        rfl
  | next_question fd now =>
    show answersRegistered (handleNext stdSort g fd now).1
    rcases handleNext_cases stdSort g fd now with hsame | ⟨_, _, hform⟩ | ⟨_, _, hform⟩
    · rw [hsame]; exact h
    · rw [hform]; exact h
    · rw [hform]; exact hstart _ now h
  | reset_game fd =>
    show answersRegistered (handleReset g fd).1
    rcases handleReset_cases g fd with hsame | ⟨_, hform⟩
    · rw [hsame]; exact h
    · rw [hform]; exact hnil _ rfl
  | timeout now =>
    show answersRegistered (checkQuestionTimeout g now).1
    rcases checkQuestionTimeout_cases g now with hsame | ⟨_, q, hform⟩
    · rw [hsame]; exact h
    · rw [hform]
      intro a ha
      show (mapFind (scoreAnswers g q).players a.playerId).isSome
      rw [scoreAnswers_players]
      exact mapFind_isSome_foldl_scoreOne _ _ _ _ _ (h a ha)
  | disconnect fd => simp [Event.isDisconnect] at he

/-- In executions without a client disconnect every submitter stays registered, so closing a
question there changes only running totals. -/
theorem answersRegistered_of_connected (stdSort : List Player → List Player) (g : Game)
    (h : ReachableConnected stdSort g) : answersRegistered g := by
  obtain ⟨events, hev, rfl⟩ := h
  have key : ∀ (evs : List Event) (g0 : Game), answersRegistered g0 →
      (∀ e ∈ evs, Event.isDisconnect e = false) → answersRegistered (run stdSort g0 evs) := by
    intro evs
    induction evs with
    | nil => intro g0 h0 _; exact h0
    | cons e rest ih =>
      intro g0 h0 hd
      exact ih _ (answersRegistered_step stdSort g0 e h0 (hd e (List.mem_cons_self _ _)))
        (fun e' he' => hd e' (List.mem_cons_of_mem _ he'))
  exact key events initGame (by intro a ha; simp [initGame] at ha) hev

/-- C21, the code at the failing input: scenario A, Bob (id 2) answers at 5200 ms and his
connection drops, so `closeClient` erases his record and `players` holds only Alice under
key 1 while `answers` still names id 2.  The timeout check at 6000 ms then adds a record
under key 2: `scoreAnswers` reaches it through `players[a.playerId]`, which creates a
value-initialised record (id 0, empty name, socket 0) and gives it the 980 points.  The set
of player ids changed from {1} to {1, 2}, the new record's `id` field (0) differs from its
key (2), and the results are also sent to socket 0. -/
theorem checkQuestionTimeout_recreates_departed_player :
    (run insertionSort initGame departedEvents).players = [(1, alice)]
      ∧ (run insertionSort initGame departedEvents).answers
          = [{ playerId := 2, answerIndex := 1, receiveTimeMs := 5200 }]
      ∧ (checkQuestionTimeout (run insertionSort initGame departedEvents) 6000).1.players
          = [(1, alice),
             (2, { id := 0, name := "", totalScore := 980, isHost := false, answered := false,
                   socketFd := 0 })]
      ∧ (checkQuestionTimeout (run insertionSort initGame departedEvents) 6000).2
          = [(5, Reply.question_results 1 [{ name := "", points := 980, total := 980 }]),
             (0, Reply.question_results 1 [{ name := "", points := 980, total := 980 }])] := by
  refine ⟨by decide, by decide, by decide, by decide⟩

/-! ## C1: the scoring formula on the reachable states -/

theorem toInt32_lt (x : Int) : toInt32 x < 2147483648 := by
  unfold toInt32
  omega

theorem msgInt_lt (v : Option Int) (d : Int) (hd : d < 2147483648) :
    msgInt v d < 2147483648 := by
  cases v with
  | none => exact hd
  | some x => exact toInt32_lt x

theorem mem_of_questionAt (qs : List Question) (i : Int) (q : Question)
    (h : questionAt qs i = some q) : q ∈ qs := by
  unfold questionAt at h
  split at h
  · exact List.getElem?_mem h
  · cases h

theorem handleAnswer_answers (g : Game) (fd : Int) (msg : Msg) (now : Int) :
    (handleAnswer g fd msg now).1 = g
      ∨ ∃ (q : Question) (a : Answer), q ∈ g.questions
          ∧ a.receiveTimeMs - g.questionStartTime ≤ q.timeLimitMs
          ∧ (handleAnswer g fd msg now).1.answers = g.answers ++ [a]
          ∧ (handleAnswer g fd msg now).1.questionStartTime = g.questionStartTime := by
  by_cases hs : g.state = GameState.QUESTION_ACTIVE
  swap
  · left; simp [handleAnswer, hs]
  by_cases hids : msgInt msg.question_id (-1) < 0 ∨ msgInt msg.answer (-1) < 0
  · left; simp [handleAnswer, hids]
  by_cases hidx : g.currentQuestionIndex < 0 ∨ g.currentQuestionIndex ≥ intSize g.questions
  · left; simp [handleAnswer, hidx]
  cases hq : questionAt g.questions g.currentQuestionIndex with
  | none => left; simp [handleAnswer, hq]
  | some q =>
    by_cases hid : q.id = msgInt msg.question_id (-1)
    swap
    · left; simp [handleAnswer, hq, hid]
    by_cases ht : now - g.questionStartTime > q.timeLimitMs
    · left; simp [handleAnswer, hq, ht]
    by_cases hp : findPlayerIdByFd g fd = -1
    · left; simp [handleAnswer, hq, hp]
    obtain ⟨p, hfind⟩ := mapFind_findPlayerIdByFd g fd hp
    by_cases hh : p.isHost = true
    · left; simp [handleAnswer, hq, mapIndex_of_mapFind _ _ _ hfind, hh]
    by_cases han : p.answered = true
    · left; simp [handleAnswer, hq, mapIndex_of_mapFind _ _ _ hfind, han]
    right
    refine ⟨q,
      { playerId := findPlayerIdByFd g fd, answerIndex := msgInt msg.answer (-1),
        receiveTimeMs := now }, mem_of_questionAt _ _ _ hq, by simpa using ht, ?_, ?_⟩
    · simp [handleAnswer, hs, hids, hidx, hq, ht, hp, mapIndex_of_mapFind _ _ _ hfind, hh, han,
        hid]
    · simp [handleAnswer, hs, hids, hidx, hq, ht, hp, mapIndex_of_mapFind _ _ _ hfind, hh, han,
        hid]

theorem startQuestion_answers (g : Game) (now : Int) :
    ((startQuestion g now).1.answers = g.answers
        ∧ (startQuestion g now).1.questionStartTime = g.questionStartTime)
      ∨ (startQuestion g now).1.answers = [] := by
  rcases startQuestion_cases g now with h | ⟨_, h⟩
  · left; rw [h]; exact ⟨rfl, rfl⟩
  · right; rw [h]

theorem step_answers (stdSort : List Player → List Player) (g : Game) (e : Event) :
    ((step stdSort g e).answers = g.answers
        ∧ (step stdSort g e).questionStartTime = g.questionStartTime)
      ∨ (step stdSort g e).answers = []
      ∨ ∃ (q : Question) (a : Answer), q ∈ g.questions
          ∧ a.receiveTimeMs - g.questionStartTime ≤ q.timeLimitMs
          ∧ (step stdSort g e).answers = g.answers ++ [a]
          ∧ (step stdSort g e).questionStartTime = g.questionStartTime := by
  cases e with
  | create_game fd msg rnd =>
    show ((handleCreateGame g fd msg rnd).1.answers = _ ∧ _) ∨ _
    rcases handleCreateGame_cases g fd msg rnd with h | ⟨_, name, h⟩
    · left; show (handleCreateGame g fd msg rnd).1.answers = _ ∧
        (handleCreateGame g fd msg rnd).1.questionStartTime = _
      rw [h]; exact ⟨rfl, rfl⟩
    · right; left; show (handleCreateGame g fd msg rnd).1.answers = _; rw [h]
  | add_question fd msg =>
    left
    show (handleAddQuestion g fd msg).1.answers = _ ∧
      (handleAddQuestion g fd msg).1.questionStartTime = _
    rcases handleAddQuestion_cases g fd msg with h | ⟨_, q, h⟩ <;> rw [h] <;> exact ⟨rfl, rfl⟩
  | start_game fd =>
    left
    show (handleOpenLobby g fd).1.answers = _ ∧ (handleOpenLobby g fd).1.questionStartTime = _
    rcases handleOpenLobby_cases g fd with h | ⟨_, _, h⟩ <;> rw [h] <;> exact ⟨rfl, rfl⟩
  | join fd msg =>
    left
    show (handleJoin g fd msg).1.answers = _ ∧ (handleJoin g fd msg).1.questionStartTime = _
    rcases handleJoin_cases g fd msg with h | ⟨_, name, h⟩ <;> rw [h] <;> exact ⟨rfl, rfl⟩
  | begin_quiz fd now =>
    show ((handleStart g fd now).1.answers = _ ∧ (handleStart g fd now).1.questionStartTime = _)
      ∨ (handleStart g fd now).1.answers = [] ∨ _
    rcases handleStart_cases g fd now with h | ⟨_, h⟩ | ⟨_, h⟩
    · left; rw [h]; exact ⟨rfl, rfl⟩
    · rw [h]
      rcases startQuestion_answers { g with currentQuestionIndex := -1 } now with h1 | h1
      · left; exact h1
      · right; left; exact h1
    · rw [h]
      rcases startQuestion_answers g now with h1 | h1
      · left; exact h1
      · right; left; exact h1
  | answer fd msg now =>
    show ((handleAnswer g fd msg now).1.answers = _ ∧ _) ∨ _ ∨ _
    rcases handleAnswer_answers g fd msg now with h | ⟨q, a, hq, ha, h1, h2⟩
    · left; show (handleAnswer g fd msg now).1.answers = _ ∧
        (handleAnswer g fd msg now).1.questionStartTime = _
      rw [h]; exact ⟨rfl, rfl⟩
    · right; right; exact ⟨q, a, hq, ha, h1, h2⟩
  | next_question fd now =>
    show ((handleNext stdSort g fd now).1.answers = _ ∧
        (handleNext stdSort g fd now).1.questionStartTime = _)
      ∨ (handleNext stdSort g fd now).1.answers = [] ∨ _
    rcases handleNext_cases stdSort g fd now with h | ⟨_, _, h⟩ | ⟨_, _, h⟩
    · left; rw [h]; exact ⟨rfl, rfl⟩
    · left; rw [h]; exact ⟨rfl, rfl⟩
    · rw [h]
      rcases startQuestion_answers g now with h1 | h1
      · left; exact h1
      · right; left; exact h1
  | reset_game fd =>
    show ((handleReset g fd).1.answers = _ ∧ (handleReset g fd).1.questionStartTime = _)
      ∨ (handleReset g fd).1.answers = [] ∨ _
    rcases handleReset_cases g fd with h | ⟨_, h⟩
    · left; rw [h]; exact ⟨rfl, rfl⟩
    · right; left; rw [h]; rfl
  | timeout now =>
    left
    show (checkQuestionTimeout g now).1.answers = _ ∧
      (checkQuestionTimeout g now).1.questionStartTime = _
    rcases checkQuestionTimeout_cases g now with h | ⟨_, q, h⟩ <;> rw [h] <;> exact ⟨rfl, rfl⟩
  | disconnect fd =>
    left
    show (disconnectClient g fd).1.answers = _ ∧ (disconnectClient g fd).1.questionStartTime = _
    rcases disconnectClient_cases g fd with h | h <;> rw [h] <;> exact ⟨rfl, rfl⟩

theorem timesOk_step (stdSort : List Player → List Player) (g : Game) (e : Event)
    (h : TimesOk g) : TimesOk (step stdSort g e) := by
  obtain ⟨hq, ha⟩ := h
  constructor
  · rcases step_questions stdSort g e with h1 | h1 | ⟨msg, _, h1⟩
    · rw [h1]; exact hq
    · rw [h1]; intro q hmem; cases hmem
    · rw [h1]
      intro q hmem
      rcases List.mem_append.mp hmem with hmem | hmem
      · exact hq q hmem
      · rw [List.mem_singleton.mp hmem]
        exact msgInt_lt _ _ (by decide)
  · rcases step_answers stdSort g e with ⟨h1, h2⟩ | h1 | ⟨q, a, hmq, hle, h1, h2⟩
    · rw [h1, h2]; exact ha
    · rw [h1]; intro a hmem; cases hmem
    · rw [h1, h2]
      intro b hmem
      rcases List.mem_append.mp hmem with hmem | hmem
      · exact ha b hmem
      · rw [List.mem_singleton.mp hmem]
        have := hq q hmq
        omega

theorem timesOk_of_reachable (stdSort : List Player → List Player) (g : Game)
    (h : Reachable stdSort g) : TimesOk g := by
  obtain ⟨events, rfl⟩ := h
  have key : ∀ (evs : List Event) (g0 : Game), TimesOk g0 →
      TimesOk (run stdSort g0 evs) := by
    intro evs
    induction evs with
    | nil => intro g0 h0; exact h0
    | cons e rest ih => intro g0 h0; exact ih _ (timesOk_step stdSort g0 e h0)
  exact key events initGame
    ⟨by intro q hq; simp [initGame] at hq, by intro a ha; simp [initGame] at ha⟩

/-- C1: in every state the server reaches, for every question `q` and player id `k`,
`scoreAnswers` raises the running total stored under `k` by exactly the sum, over the recorded
answers whose submitter is `k`, of `max(0, 1000 − floor(elapsed/10))` for an answer with the
correct option and 0 for any other answer, where `elapsed` is the receive time minus the
question start (precondition: no receive time is before the start).  A submitter without a
record counts as total 0 (the code creates the record). -/
theorem scoreAnswers_adds_spec_points (stdSort : List Player → List Player) (g : Game)
    (hr : Reachable stdSort g) (q : Question) (k : Int)
    (h : ∀ a ∈ g.answers, g.questionStartTime ≤ a.receiveTimeMs) :
    totalOf (scoreAnswers g q).players k
      = totalOf g.players k
        + ((g.answers.filter (fun a => a.playerId = k)).map
            (specPoints g.questionStartTime q)).sum := by
  apply scoreAnswers_adds_spec_points_of_bounds
  intro a ha
  have hlt := (timesOk_of_reachable stdSort g hr).2 a ha
  have hge := h a ha
  exact ⟨hge, by omega⟩

/-- C1 witness: in scenario B, after Bob's correct answer at elapsed 200 ms, scoring the
question raises his total from 0 to 980; had his answer arrived at elapsed 0 ms, to 1000. -/
theorem scoreAnswers_adds_spec_points_witness :
    totalOf (scoreAnswers (run insertionSort initGame scenarioEvents)
        (sampleQuestion 1000)).players 2 = 980
      ∧ totalOf (scoreAnswers
          (run insertionSort initGame (scenarioEvents.take 5 ++ [Event.answer 7 bobAnswer 5000]))
          (sampleQuestion 1000)).players 2 = 1000 :=
  ⟨(scoreAnswers_adds_spec_points insertionSort (run insertionSort initGame scenarioEvents)
      ⟨scenarioEvents, rfl⟩ (sampleQuestion 1000) 2 (by decide)).trans (by decide),
   (scoreAnswers_adds_spec_points insertionSort
      (run insertionSort initGame (scenarioEvents.take 5 ++ [Event.answer 7 bobAnswer 5000]))
      ⟨scenarioEvents.take 5 ++ [Event.answer 7 bobAnswer 5000], rfl⟩ (sampleQuestion 1000) 2
      (by decide)).trans (by decide)⟩

end Kahoot
